import Mathlib

/-!
# Robot-arm controller protocol layer

A shallow embedding of `src/protocol/*.c` and `src/protocol/protocol.h`.

Conventions of the embedding.

* A byte buffer is a `List Nat` whose entries are bytes (`IsBytes`); a pointer
  that the source tests against `NULL` is an `Option`.
* Machine integers are natural numbers; every place where the C arithmetic is
  carried out in a fixed width is written with `u8`, `u16` or `u32`.  `int` is
  32 bits wide (the target is a 32-bit microcontroller).
* Every function that dereferences memory returns an `Option`: `none` stands
  for an access outside the object (undefined behaviour in C), so a result
  `some _` also says that every access was in bounds.
* A `float` is represented by its 32-bit pattern; the source only moves floats
  with `memcpy` and by assignment, it never computes with them.
* Collaborators (transport, servo layer, motion engines) are not part of the
  sources.  Their calls are recorded, in order, in `World.calls`; the values
  they return are taken from an `Env`.
* `MAX_SERVOS` and `ARM_JOINT_COUNT` come from headers that are not part of the
  sources; they are the parameters `M` and `J`.
-/

namespace Protocol

/-! ## Fixed-width arithmetic -/

/-- Conversion to `uint8_t`. -/
def u8 (x : Nat) : Nat := x % 256

/-- Conversion to `uint16_t`. -/
def u16 (x : Nat) : Nat := x % 65536

/-- Conversion to `uint32_t` (also `unsigned int`). -/
def u32 (x : Nat) : Nat := x % 4294967296

/-- Every entry of the buffer is a byte. -/
def IsBytes (l : List Nat) : Prop := ∀ b ∈ l, b < 256

instance (l : List Nat) : Decidable (IsBytes l) := by
  unfold IsBytes; infer_instance

/-! ## Constants of `protocol.h` -/

def PROTO_MAX_PAYLOAD : Nat := 256
def PROTO_VERSION_MAJOR : Nat := 1
def PROTO_VERSION_MINOR : Nat := 0
/-- The bytes of the C string "km1-one", terminator included. -/
def PROTO_DEVICE_NAME : List Nat := [107, 109, 49, 45, 111, 110, 101, 0]

def PROTO_TYPE_SYS : Nat := 0x01
def PROTO_TYPE_SERVO : Nat := 0x10
def PROTO_TYPE_MOTION : Nat := 0x11
def PROTO_TYPE_ARM : Nat := 0x12
def PROTO_TYPE_MOTION_CYCLE : Nat := 0x13
def PROTO_TYPE_STATE : Nat := 0xD0
def PROTO_TYPE_CONFIG : Nat := 0xE0
def PROTO_TYPE_DEBUG : Nat := 0xF0

def SYS_CMD_PING : Nat := 0x01
def SYS_CMD_PONG : Nat := 0x02
def SYS_CMD_RESET : Nat := 0x03
def SYS_CMD_GET_INFO : Nat := 0x04
def SYS_CMD_INFO : Nat := 0x05
def SYS_CMD_HEARTBEAT : Nat := 0x06

def SERVO_CMD_ENABLE : Nat := 0x01
def SERVO_CMD_DISABLE : Nat := 0x02
def SERVO_CMD_SET_PWM : Nat := 0x03
def SERVO_CMD_SET_POS : Nat := 0x04
def SERVO_CMD_GET_STATUS : Nat := 0x05
def SERVO_CMD_STATUS : Nat := 0x06

def MOTION_CMD_START : Nat := 0x01
def MOTION_CMD_STOP : Nat := 0x02
def MOTION_CMD_PAUSE : Nat := 0x03
def MOTION_CMD_RESUME : Nat := 0x04
def MOTION_CMD_SET_PLAN : Nat := 0x05
def MOTION_CMD_GET_STATUS : Nat := 0x06
def MOTION_CMD_STATUS : Nat := 0x07

def ARM_CMD_HOME : Nat := 0x01
def ARM_CMD_STOP : Nat := 0x02
def ARM_CMD_SET_POSE : Nat := 0x03
def ARM_CMD_GET_STATUS : Nat := 0x04
def ARM_CMD_STATUS : Nat := 0x05

def CONFIG_CMD_GET : Nat := 0x01
def CONFIG_CMD_SET : Nat := 0x02
def CONFIG_CMD_SAVE : Nat := 0x03
def CONFIG_CMD_LOAD : Nat := 0x04
def CONFIG_CMD_RESET : Nat := 0x05

def STATE_CMD_SYS : Nat := 0x01
def STATE_CMD_SERVO : Nat := 0x02
def STATE_CMD_MOTION : Nat := 0x03
def STATE_CMD_ARM : Nat := 0x04
def STATE_CMD_CONFIG : Nat := 0x05
def STATE_CMD_MOTION_CYCLE : Nat := 0x06

def CYCLE_CMD_CREATE : Nat := 0x01
def CYCLE_CMD_START : Nat := 0x02
def CYCLE_CMD_RESTART : Nat := 0x03
def CYCLE_CMD_PAUSE : Nat := 0x04
def CYCLE_CMD_RELEASE : Nat := 0x05
def CYCLE_CMD_GET_STATUS : Nat := 0x06
def CYCLE_CMD_STATUS : Nat := 0x07

def PROTO_CYCLE_MAX_POSE : Nat := 8
def PROTO_CYCLE_MAX_SLOT : Nat := 5

/-! ## Command view and binary codec (`protocol.h`) -/

/-- The struct `proto_cmd_view_t`; `payload` is a pointer and may be `NULL`. -/
structure proto_cmd_view_t where
  cmd : Nat
  payload : Option (List Nat)
  payload_len : Nat

/-- `proto_parse_cmd(data, len, out)`.  Every caller passes the address of a
local view for `out`, so the `out == NULL` test never fires; every other path
overwrites all three fields, so the result is the returned flag together with
the view that `out` holds afterwards. -/
def proto_parse_cmd (data : Option (List Nat)) (len : Nat) : Option (Bool × proto_cmd_view_t) :=
  match data with
  | none => some (false, { cmd := 0, payload := none, payload_len := 0 })
  | some d =>
    if len < 1 then some (false, { cmd := 0, payload := none, payload_len := 0 })
    else
      match d[0]? with
      | none => none
      | some c => some (true, { cmd := c, payload := some (d.drop 1), payload_len := u16 (len - 1) })

/-- `proto_read_u16_le(data, len, off, out)`.  `out` is the value stored in the
cell the pointer refers to (every caller passes the address of a local, so the
`out == NULL` test never fires); the result is the returned flag and the cell
afterwards. -/
def proto_read_u16_le (data : Option (List Nat)) (len off out : Nat) : Option (Bool × Nat) :=
  match data with
  | none => some (false, out)
  | some d =>
    if u32 (u32 off + 2) > len then some (false, out)
    else
      match d[off]?, d[off + 1]? with
      | some b0, some b1 => some (true, u16 (b0 ||| u16 (b1 <<< 8)))
      | _, _ => none

/-- `proto_read_u32_le(data, len, off, out)`. -/
def proto_read_u32_le (data : Option (List Nat)) (len off out : Nat) : Option (Bool × Nat) :=
  match data with
  | none => some (false, out)
  | some d =>
    if u32 (u32 off + 4) > len then some (false, out)
    else
      match d[off]?, d[off + 1]?, d[off + 2]?, d[off + 3]? with
      | some b0, some b1, some b2, some b3 =>
        some (true, b0 ||| u32 (b1 <<< 8) ||| u32 (b2 <<< 16) ||| u32 (b3 <<< 24))
      | _, _, _, _ => none

/-- `proto_read_f32_le(data, len, off, out)`: the word read by
`proto_read_u32_le` is copied bit for bit into the float. -/
def proto_read_f32_le (data : Option (List Nat)) (len off out : Nat) : Option (Bool × Nat) :=
  match proto_read_u32_le data len off 0 with
  | none => none
  | some (false, _) => some (false, out)
  | some (true, raw) => some (true, raw)

/-- A store `data[i] = v` into a buffer; outside the buffer it is undefined. -/
def buf_write (data : List Nat) (i v : Nat) : Option (List Nat) :=
  if i < data.length then some (data.set i v) else none

/-- `proto_write_u32_le(data, off, value)`. -/
def proto_write_u32_le (data : List Nat) (off value : Nat) : Option (List Nat) :=
  match buf_write data (off + 0) (u8 (value &&& 0xFF)) with
  | none => none
  | some d1 =>
    match buf_write d1 (off + 1) (u8 ((value >>> 8) &&& 0xFF)) with
    | none => none
    | some d2 =>
      match buf_write d2 (off + 2) (u8 ((value >>> 16) &&& 0xFF)) with
      | none => none
      | some d3 => buf_write d3 (off + 3) (u8 ((value >>> 24) &&& 0xFF))

/-- `proto_write_f32_le(data, off, value)`: the bit pattern of the float is
written as a 32-bit word. -/
def proto_write_f32_le (data : List Nat) (off value : Nat) : Option (List Nat) :=
  proto_write_u32_le data off value

/-! ## Static state of `motion_cycle_listener.c` -/

/-- The file-scope arrays of `motion_cycle_listener.c`.  An array is a function
of its indices; the declared bounds (5 slots, 8 poses, `MAX_SERVOS` servos) are
checked at every data-dependent access.  An entry of a pointer table is either
`NULL` (`none`) or the address of a row, given as `(slot, pose)`. -/
structure Registry where
  s_cycle_used : Nat → Nat
  s_cycle_slot_of_index : Nat → Nat
  s_cycle_servo_ids : Nat → Nat → Nat
  s_cycle_pose_pwm : Nat → Nat → Nat → Nat
  s_cycle_pose_angle : Nat → Nat → Nat → Nat
  s_cycle_durations : Nat → Nat → Nat
  s_cycle_pose_pwm_ptrs : Nat → Nat → Option (Nat × Nat)
  s_cycle_pose_angle_ptrs : Nat → Nat → Option (Nat × Nat)

/-- The registry at program start: static storage is zero-initialised. -/
def Registry.init : Registry where
  s_cycle_used := fun _ => 0
  s_cycle_slot_of_index := fun _ => 0
  s_cycle_servo_ids := fun _ _ => 0
  s_cycle_pose_pwm := fun _ _ _ => 0
  s_cycle_pose_angle := fun _ _ _ => 0
  s_cycle_durations := fun _ _ => 0
  s_cycle_pose_pwm_ptrs := fun _ _ => none
  s_cycle_pose_angle_ptrs := fun _ _ => none

/-- The array `a` after `a[i] = v`. -/
def upd1 {α : Type} (a : Nat → α) (i : Nat) (v : α) : Nat → α :=
  fun j => if j = i then v else a j

/-- The array `a` after `a[i][j] = v`. -/
def upd2 {α : Type} (a : Nat → Nat → α) (i j : Nat) (v : α) : Nat → Nat → α :=
  fun i2 j2 => if i2 = i ∧ j2 = j then v else a i2 j2

/-- The array `a` after `a[i][j][k] = v`. -/
def upd3 {α : Type} (a : Nat → Nat → Nat → α) (i j k : Nat) (v : α) : Nat → Nat → Nat → α :=
  fun i2 j2 k2 => if i2 = i ∧ j2 = j ∧ k2 = k then v else a i2 j2 k2

/-! ## Collaborators -/

/-- What `motion_cycle_create` is given: the contents of the arrays its pointer
arguments refer to at the time of the call.  A pose view is `NULL` (`none`) or
the table of row pointers of the slot, each entry `NULL` or the row it points
to. -/
structure CycleCreateArgs where
  servo_ids : Nat → Nat
  servo_count : Nat
  pose_pwm : Option (Nat → Option (Nat → Nat))
  pose_angle : Option (Nat → Option (Nat → Nat))
  durations : Nat → Nat
  pose_count : Nat
  max_loops : Nat

/-- A call made to a collaborator, with the values of its arguments.  A buffer
argument is recorded by its contents.  `motion_cycle_release` is recorded
together with the registry as it is at the moment of the call, so that the
record shows whether the slot was released before or after the engine was
called. -/
inductive Call where
  | tf_uart_port_send_frame (type : Nat) (buf : List Nat) (len : Nat)
  | servo_sync_to_hardware
  | servo_stop (id : Nat)
  | servo_emergency_stop
  | servo_move_pwm (id pwm duration : Nat)
  | servo_move_angle (id angle duration : Nat)
  | servo_is_moving (id : Nat)
  | servo_get_current_pwm (id : Nat)
  | servo_get_target_angle (id : Nat)
  | servo_get_remaining_time (id : Nat)
  | servo_move_home (id duration : Nat)
  | servo_stop_all
  | servo_move_angle_multiple (ids angles : List Nat) (count duration : Nat)
  | servo_get_moving_mask
  | motion_sync_move_pwm (ids pwms : List Nat) (count duration : Nat)
  | motion_sync_move_angle (ids angles : List Nat) (count duration : Nat)
  | motion_sync_release_group (gid : Nat)
  | motion_sync_pause_group (gid : Nat)
  | motion_sync_restart_group (gid : Nat)
  | motion_sync_get_group_mask (gid : Nat)
  | motion_sync_is_group_complete (gid : Nat)
  | motion_cycle_create (args : CycleCreateArgs)
  | motion_cycle_start (idx : Nat)
  | motion_cycle_restart (idx : Nat)
  | motion_cycle_pause (idx : Nat)
  | motion_cycle_release (idx : Nat) (at_call : Registry)

/-- The values the collaborators return.  Within one run of a handler every
value-returning collaborator is called at most once, so a function of the
arguments describes any behaviour of that call; a sequence of handler runs
takes one `Env` per run. -/
structure Env where
  tf_uart_port_send_frame : Nat → List Nat → Nat → Bool
  servo_is_moving : Nat → Bool
  servo_get_current_pwm : Nat → Nat
  servo_get_target_angle : Nat → Nat
  servo_get_remaining_time : Nat → Nat
  servo_get_moving_mask : Nat
  motion_sync_move_pwm : List Nat → List Nat → Nat → Nat → Nat
  motion_sync_move_angle : List Nat → List Nat → Nat → Nat → Nat
  motion_sync_release_group : Nat → Bool
  motion_sync_pause_group : Nat → Bool
  motion_sync_restart_group : Nat → Bool
  motion_sync_get_group_mask : Nat → Nat
  motion_sync_is_group_complete : Nat → Bool
  motion_cycle_create : CycleCreateArgs → Int
  motion_cycle_start : Nat → Int
  motion_cycle_restart : Nat → Int
  motion_cycle_pause : Nat → Int
  motion_cycle_release : Nat → Int

/-- Everything a handler can change: the motion-cycle registry and the record
of the collaborator calls made so far, oldest first. -/
structure World where
  reg : Registry
  calls : List Call

/-- The world at program start. -/
def World.init : World := { reg := Registry.init, calls := [] }

/-- Record one collaborator call. -/
def World.call (w : World) (c : Call) : World := { w with calls := w.calls ++ [c] }

/-- The call `tf_uart_port_send_frame(type, buf, len)`: the transport is handed
the first `len` bytes of `buf`, which must exist. -/
def send_frame (env : Env) (w : World) (type : Nat) (buf : List Nat) (len : Nat) :
    Option (Bool × World) :=
  if len ≤ buf.length then
    some (env.tf_uart_port_send_frame type (buf.take len) len,
          w.call (Call.tf_uart_port_send_frame type (buf.take len) len))
  else none

/-! ## `state_sender.c` -/

/-- The loop `for (i = 0; i < len; ++i) buf[base + i] = payload[i];` with `k`
iterations left. -/
def copy_loop (payload : List Nat) (base : Nat) : Nat → Nat → List Nat → Option (List Nat)
  | 0, _, buf => some buf
  | k + 1, i, buf =>
    match payload[i]? with
    | none => none
    | some b =>
      match buf_write buf (base + i) b with
      | none => none
      | some buf2 => copy_loop payload base k (i + 1) buf2

/-- `protocol_send_state(cmd, payload, len)`. -/
def protocol_send_state (env : Env) (w : World) (cmd : Nat) (payload : Option (List Nat))
    (len : Nat) : Option (Bool × World) :=
  if len > PROTO_MAX_PAYLOAD then some (false, w)
  else
    match payload with
    | none => send_frame env w PROTO_TYPE_STATE [cmd] 1
    | some pl =>
      if len = 0 then send_frame env w PROTO_TYPE_STATE [cmd] 1
      else
        match buf_write (List.replicate (1 + len) 0) 0 cmd with
        | none => none
        | some buf0 =>
          match copy_loop pl 1 len 0 buf0 with
          | none => none
          | some buf => send_frame env w PROTO_TYPE_STATE buf (u16 (1 + len))

/-! ## `sys_listener.c` -/

/-- The loop `while (name[name_len] != 0 && name_len < 253) name_len++;`.  The
counter stops at 253 at the latest, so 254 rounds always suffice. -/
def name_len_loop (name : List Nat) : Nat → Nat → Option Nat
  | 0, n => some n
  | k + 1, n =>
    match name[n]? with
    | none => none
    | some c => if c ≠ 0 ∧ n < u8 (PROTO_MAX_PAYLOAD - 3) then name_len_loop name k (u8 (n + 1)) else some n

/-- `protocol_sys_handle(cmd, payload, len)`. -/
def protocol_sys_handle (env : Env) (w : World) (cmd : Nat) (payload : List Nat) (len : Nat) :
    Option (Bool × World) :=
  if cmd = SYS_CMD_PING then
    if len > PROTO_MAX_PAYLOAD then some (false, w)
    else
      match buf_write (List.replicate (1 + PROTO_MAX_PAYLOAD) 0) 0 SYS_CMD_PONG with
      | none => none
      | some buf0 =>
        match copy_loop payload 1 len 0 buf0 with
        | none => none
        | some buf => send_frame env w PROTO_TYPE_SYS buf (u16 (1 + len))
  else if cmd = SYS_CMD_PONG then some (true, w)
  else if cmd = SYS_CMD_HEARTBEAT then some (true, w)
  else if cmd = SYS_CMD_GET_INFO then
    match name_len_loop PROTO_DEVICE_NAME 254 0 with
    | none => none
    | some name_len =>
      match buf_write (List.replicate (1 + 3 + PROTO_MAX_PAYLOAD) 0) 0 SYS_CMD_INFO with
      | none => none
      | some b0 =>
        match buf_write b0 1 (u8 PROTO_VERSION_MAJOR) with
        | none => none
        | some b1 =>
          match buf_write b1 2 (u8 PROTO_VERSION_MINOR) with
          | none => none
          | some b2 =>
            match buf_write b2 3 name_len with
            | none => none
            | some b3 =>
              match copy_loop PROTO_DEVICE_NAME 4 name_len 0 b3 with
              | none => none
              | some buf => send_frame env w PROTO_TYPE_SYS buf (u16 (4 + name_len))
  else if cmd = SYS_CMD_INFO then some (true, w)
  else if cmd = SYS_CMD_RESET then some (true, w)
  else some (false, w)

/-! ## `servo_listener.c` -/

/-- `protocol_servo_handle(cmd, payload, len)`, with `M = MAX_SERVOS`. -/
def protocol_servo_handle (M : Nat) (env : Env) (w : World) (cmd : Nat) (payload : List Nat)
    (len : Nat) : Option (Bool × World) :=
  if cmd = SERVO_CMD_ENABLE then some (true, w.call Call.servo_sync_to_hardware)
  else if cmd = SERVO_CMD_DISABLE then
    if len = 1 then
      match payload[0]? with
      | none => none
      | some id =>
        if id ≥ M then some (false, w)
        else some (true, w.call (Call.servo_stop id))
    else some (true, w.call Call.servo_emergency_stop)
  else if cmd = SERVO_CMD_SET_PWM then
    if len ≠ 9 then some (false, w)
    else
      match payload[0]? with
      | none => none
      | some id =>
        if id ≥ M then some (false, w)
        else
          match proto_read_u32_le (some payload) len 1 0 with
          | none => none
          | some (false, _) => some (false, w)
          | some (true, pwm) =>
            match proto_read_u32_le (some payload) len 5 0 with
            | none => none
            | some (false, _) => some (false, w)
            | some (true, duration) => some (true, w.call (Call.servo_move_pwm id pwm duration))
  else if cmd = SERVO_CMD_SET_POS then
    if len ≠ 9 then some (false, w)
    else
      match payload[0]? with
      | none => none
      | some id =>
        if id ≥ M then some (false, w)
        else
          match proto_read_f32_le (some payload) len 1 0 with
          | none => none
          | some (false, _) => some (false, w)
          | some (true, angle) =>
            match proto_read_u32_le (some payload) len 5 0 with
            | none => none
            | some (false, _) => some (false, w)
            | some (true, duration) => some (true, w.call (Call.servo_move_angle id angle duration))
  else if cmd = SERVO_CMD_GET_STATUS then
    if len ≠ 1 then some (false, w)
    else
      match payload[0]? with
      | none => none
      | some id =>
        if id ≥ M then some (false, w)
        else
          match buf_write (List.replicate 14 0) 0 id with
          | none => none
          | some r0 =>
            let w1 := w.call (Call.servo_is_moving id)
            match buf_write r0 1 (u8 (if env.servo_is_moving id then 1 else 0)) with
            | none => none
            | some r1 =>
              let w2 := w1.call (Call.servo_get_current_pwm id)
              match proto_write_u32_le r1 2 (env.servo_get_current_pwm id) with
              | none => none
              | some r2 =>
                let w3 := w2.call (Call.servo_get_target_angle id)
                match proto_write_f32_le r2 6 (env.servo_get_target_angle id) with
                | none => none
                | some r3 =>
                  let w4 := w3.call (Call.servo_get_remaining_time id)
                  match proto_write_u32_le r3 10 (env.servo_get_remaining_time id) with
                  | none => none
                  | some resp => protocol_send_state env w4 STATE_CMD_SERVO (some resp) 14
  else if cmd = SERVO_CMD_STATUS then some (true, w)
  else some (false, w)

/-! ## `motion_listener.c` -/

/-- The loop `for (i = 0; i < count; ++i) if (!read(payload, len,
(uint16_t)(values_off + i * 4), &vals[i])) return false;` of `MOTION START`,
with `k` iterations left; `read` is `proto_read_u32_le` or `proto_read_f32_le`
and `vals` is the local array of `MAX_SERVOS` values.  The flag of the result
is `false` when the loop left the handler with `return false`. -/
def motion_values_loop (read : Option (List Nat) → Nat → Nat → Nat → Option (Bool × Nat))
    (payload : List Nat) (len values_off : Nat) : Nat → Nat → List Nat → Option (Bool × List Nat)
  | 0, _, vals => some (true, vals)
  | k + 1, i, vals =>
    match vals[i]? with
    | none => none
    | some cell =>
      match read (some payload) len (u16 (values_off + i * 4)) cell with
      | none => none
      | some (false, _) => some (false, vals)
      | some (true, v) => motion_values_loop read payload len values_off k (i + 1) (vals.set i v)

/-- `protocol_motion_handle(cmd, payload, len)`, with `M = MAX_SERVOS`.  The
pointer `&payload[ids_off]` is recorded as the bytes it points at. -/
def protocol_motion_handle (M : Nat) (env : Env) (w : World) (cmd : Nat) (payload : List Nat)
    (len : Nat) : Option (Bool × World) :=
  if cmd = MOTION_CMD_START then
    if len < 6 then some (false, w)
    else
      match payload[0]?, payload[1]? with
      | some mode, some count =>
        match proto_read_u32_le (some payload) len 2 0 with
        | none => none
        | some (false, _) => some (false, w)
        | some (true, duration) =>
          let ids_off := 6
          let values_off := u16 (ids_off + count)
          let value_size := 4
          let total_needed := u16 (values_off + count * value_size)
          if count = 0 ∨ total_needed > len then some (false, w)
          else if mode = 0 then
            if count > M then some (false, w)
            else
              match motion_values_loop proto_read_u32_le payload len values_off count 0
                  (List.replicate M 0) with
              | none => none
              | some (false, _) => some (false, w)
              | some (true, pwms) =>
                if ids_off ≤ payload.length then
                  let ids := payload.drop ids_off
                  let gid := env.motion_sync_move_pwm ids pwms count duration
                  let w1 := w.call (Call.motion_sync_move_pwm ids pwms count duration)
                  match proto_write_u32_le (List.replicate 4 0) 0 gid with
                  | none => none
                  | some resp =>
                    match protocol_send_state env w1 STATE_CMD_MOTION (some resp) 4 with
                    | none => none
                    | some (_, w2) => some (true, w2)
                else none
          else if mode = 1 then
            if count > M then some (false, w)
            else
              match motion_values_loop proto_read_f32_le payload len values_off count 0
                  (List.replicate M 0) with
              | none => none
              | some (false, _) => some (false, w)
              | some (true, angles) =>
                if ids_off ≤ payload.length then
                  let ids := payload.drop ids_off
                  let gid := env.motion_sync_move_angle ids angles count duration
                  let w1 := w.call (Call.motion_sync_move_angle ids angles count duration)
                  match proto_write_u32_le (List.replicate 4 0) 0 gid with
                  | none => none
                  | some resp =>
                    match protocol_send_state env w1 STATE_CMD_MOTION (some resp) 4 with
                    | none => none
                    | some (_, w2) => some (true, w2)
                else none
          else some (false, w)
      | _, _ => none
  else if cmd = MOTION_CMD_STOP then
    match proto_read_u32_le (some payload) len 0 0 with
    | none => none
    | some (false, _) => some (false, w)
    | some (true, gid) =>
      some (env.motion_sync_release_group gid, w.call (Call.motion_sync_release_group gid))
  else if cmd = MOTION_CMD_PAUSE then
    match proto_read_u32_le (some payload) len 0 0 with
    | none => none
    | some (false, _) => some (false, w)
    | some (true, gid) =>
      some (env.motion_sync_pause_group gid, w.call (Call.motion_sync_pause_group gid))
  else if cmd = MOTION_CMD_RESUME then
    match proto_read_u32_le (some payload) len 0 0 with
    | none => none
    | some (false, _) => some (false, w)
    | some (true, gid) =>
      some (env.motion_sync_restart_group gid, w.call (Call.motion_sync_restart_group gid))
  else if cmd = MOTION_CMD_GET_STATUS then
    match proto_read_u32_le (some payload) len 0 0 with
    | none => none
    | some (false, _) => some (false, w)
    | some (true, gid) =>
      match proto_write_u32_le (List.replicate 9 0) 0 gid with
      | none => none
      | some r0 =>
        let w1 := w.call (Call.motion_sync_get_group_mask gid)
        match proto_write_u32_le r0 4 (env.motion_sync_get_group_mask gid) with
        | none => none
        | some r1 =>
          let w2 := w1.call (Call.motion_sync_is_group_complete gid)
          match buf_write r1 8 (u8 (if env.motion_sync_is_group_complete gid then 1 else 0)) with
          | none => none
          | some resp => protocol_send_state env w2 STATE_CMD_MOTION (some resp) 9
  else if cmd = MOTION_CMD_SET_PLAN then some (false, w)
  else if cmd = MOTION_CMD_STATUS then some (true, w)
  else some (false, w)

/-! ## `arm_listener.c` -/

/-- The loop `for (id = 0; id < ARM_JOINT_COUNT; ++id) servo_move_home(id,
duration);` with `k` iterations left. -/
def arm_home_loop (duration : Nat) : Nat → Nat → World → World
  | 0, _, w => w
  | k + 1, id, w => arm_home_loop duration k (id + 1) (w.call (Call.servo_move_home id duration))

/-- The loop `for (i = 0; i < ARM_JOINT_COUNT; ++i) if (!proto_read_f32_le(
payload, len, (uint16_t)(4 + i * 4), &angles[i])) return false;` with `k`
iterations left. -/
def arm_angles_loop (payload : List Nat) (len : Nat) : Nat → Nat → List Nat → Option (Bool × List Nat)
  | 0, _, angles => some (true, angles)
  | k + 1, i, angles =>
    match angles[i]? with
    | none => none
    | some cell =>
      match proto_read_f32_le (some payload) len (u16 (4 + i * 4)) cell with
      | none => none
      | some (false, _) => some (false, angles)
      | some (true, v) => arm_angles_loop payload len k (i + 1) (angles.set i v)

/-- The loop `for (i = 0; i < ARM_JOINT_COUNT; ++i) ids[i] = i;` with `k`
iterations left. -/
def arm_ids_loop : Nat → Nat → List Nat → Option (List Nat)
  | 0, _, ids => some ids
  | k + 1, i, ids =>
    match buf_write ids i i with
    | none => none
    | some ids2 => arm_ids_loop k (i + 1) ids2

/-- `protocol_arm_handle(cmd, payload, len)`, with `J = ARM_JOINT_COUNT`
(below 256, so that the `uint8_t` loop counters reach it). -/
def protocol_arm_handle (J : Nat) (env : Env) (w : World) (cmd : Nat) (payload : List Nat)
    (len : Nat) : Option (Bool × World) :=
  if cmd = ARM_CMD_HOME then
    if len = 4 then
      match proto_read_u32_le (some payload) len 0 1000 with
      | none => none
      | some (false, _) => some (false, w)
      | some (true, duration) => some (true, arm_home_loop duration J 0 w)
    else if len ≠ 0 then some (false, w)
    else some (true, arm_home_loop 1000 J 0 w)
  else if cmd = ARM_CMD_STOP then some (true, w.call Call.servo_stop_all)
  else if cmd = ARM_CMD_SET_POSE then
    let expected := u16 (4 + J * 4)
    if len ≠ expected then some (false, w)
    else
      match proto_read_u32_le (some payload) len 0 0 with
      | none => none
      | some (false, _) => some (false, w)
      | some (true, duration) =>
        match arm_angles_loop payload len J 0 (List.replicate J 0) with
        | none => none
        | some (false, _) => some (false, w)
        | some (true, angles) =>
          match arm_ids_loop J 0 (List.replicate J 0) with
          | none => none
          | some ids =>
            some (true, w.call (Call.servo_move_angle_multiple ids angles J duration))
  else if cmd = ARM_CMD_GET_STATUS then
    let w1 := w.call Call.servo_get_moving_mask
    match proto_write_u32_le (List.replicate 4 0) 0 env.servo_get_moving_mask with
    | none => none
    | some resp => protocol_send_state env w1 STATE_CMD_ARM (some resp) 4
  else if cmd = ARM_CMD_STATUS then some (true, w)
  else some (false, w)

/-! ## `config_listener.c` -/

/-- `protocol_config_handle(cmd, payload, len)`. -/
def protocol_config_handle (env : Env) (w : World) (cmd : Nat) (_payload : List Nat)
    (_len : Nat) : Option (Bool × World) :=
  if cmd = CONFIG_CMD_GET then protocol_send_state env w STATE_CMD_CONFIG none 0
  else if cmd = CONFIG_CMD_SET then some (true, w)
  else if cmd = CONFIG_CMD_SAVE then some (true, w)
  else if cmd = CONFIG_CMD_LOAD then some (true, w)
  else if cmd = CONFIG_CMD_RESET then some (true, w)
  else some (false, w)

/-! ## `motion_cycle_listener.c` -/

/-- The loop of `find_free_cycle_slot` with `k` iterations left, at index `i`. -/
def find_free_cycle_slot_loop (used : Nat → Nat) : Nat → Nat → Int
  | 0, _ => -1
  | k + 1, i => if used i = 0 then (i : Int) else find_free_cycle_slot_loop used k (i + 1)

/-- `find_free_cycle_slot()`. -/
def find_free_cycle_slot (r : Registry) : Int :=
  find_free_cycle_slot_loop r.s_cycle_used PROTO_CYCLE_MAX_SLOT 0

/-- `release_cycle_slot(slot)`. -/
def release_cycle_slot (r : Registry) (slot : Nat) : Registry :=
  if slot ≥ PROTO_CYCLE_MAX_SLOT then r
  else { r with s_cycle_used := upd1 r.s_cycle_used slot 0 }

/-- The values `CREATE` has after its header and length checks (lines 66-90). -/
structure CycleHeader where
  mode : Nat
  servo_count : Nat
  pose_count : Nat
  max_loops : Nat
  durations_off : Nat
  ids_off : Nat
  values_off : Nat

/-- Lines 66-90 of `protocol_motion_cycle_handle`: the header and length checks
of `CREATE`.  `some none` is `return false`. -/
def cycle_create_header (M : Nat) (payload : List Nat) (len : Nat) : Option (Option CycleHeader) :=
  if len < 7 then some none
  else
    match payload[0]?, payload[1]?, payload[2]? with
    | some mode, some servo_count, some pose_count =>
      match proto_read_u32_le (some payload) len 3 0 with
      | none => none
      | some (false, _) => some none
      | some (true, max_loops) =>
        if servo_count = 0 ∨ pose_count = 0 then some none
        else if servo_count > M ∨ pose_count > PROTO_CYCLE_MAX_POSE then some none
        else
          let durations_off := 7
          let ids_off := u16 (u32 (durations_off + u32 (pose_count * 4)))
          let values_off := u16 (ids_off + servo_count)
          let values_len := u16 (u32 (pose_count * servo_count * 4))
          let total_needed := u16 (values_off + values_len)
          if total_needed > len then some none
          else some (some { mode := mode, servo_count := servo_count, pose_count := pose_count,
                            max_loops := max_loops, durations_off := durations_off,
                            ids_off := ids_off, values_off := values_off })
    | _, _, _ => none

/-- The loop `for (i = 0; i < servo_count; ++i) s_cycle_servo_ids[slot][i] =
payload[ids_off + i];` with `k` iterations left. -/
def cycle_ids_loop (M : Nat) (payload : List Nat) (ids_off slot : Nat) :
    Nat → Nat → Registry → Option Registry
  | 0, _, r => some r
  | k + 1, i, r =>
    match payload[ids_off + i]? with
    | none => none
    | some b =>
      if slot < PROTO_CYCLE_MAX_SLOT ∧ i < M then
        cycle_ids_loop M payload ids_off slot k (i + 1)
          { r with s_cycle_servo_ids := upd2 r.s_cycle_servo_ids slot i b }
      else none

/-- The loop over `p` that decodes the durations, with `k` iterations left.
The flag of the result is `false` when the loop released the slot and left the
handler with `return false`. -/
def cycle_durations_loop (payload : List Nat) (len durations_off slot : Nat) :
    Nat → Nat → Registry → Option (Bool × Registry)
  | 0, _, r => some (true, r)
  | k + 1, p, r =>
    match proto_read_u32_le (some payload) len (u16 (u32 (durations_off + u32 (p * 4)))) 0 with
    | none => none
    | some (false, _) => some (false, release_cycle_slot r slot)
    | some (true, dur) =>
      if slot < PROTO_CYCLE_MAX_SLOT ∧ p < PROTO_CYCLE_MAX_POSE then
        cycle_durations_loop payload len durations_off slot k (p + 1)
          { r with s_cycle_durations := upd2 r.s_cycle_durations slot p dur }
      else none

/-- The inner loop over `i` of the `mode == 0` branch, for pose `p`, with `k`
iterations left. -/
def cycle_pwm_inner_loop (M : Nat) (payload : List Nat) (len values_off servo_count slot p : Nat) :
    Nat → Nat → Registry → Option (Bool × Registry)
  | 0, _, r => some (true, r)
  | k + 1, i, r =>
    match proto_read_u32_le (some payload) len
        (u16 (u32 (values_off + u32 ((p * servo_count + i) * 4)))) 0 with
    | none => none
    | some (false, _) => some (false, release_cycle_slot r slot)
    | some (true, pwm) =>
      if slot < PROTO_CYCLE_MAX_SLOT ∧ p < PROTO_CYCLE_MAX_POSE ∧ i < M then
        cycle_pwm_inner_loop M payload len values_off servo_count slot p k (i + 1)
          { r with s_cycle_pose_pwm := upd3 r.s_cycle_pose_pwm slot p i pwm }
      else none

/-- The outer loop over `p` of the `mode == 0` branch, with `k` iterations
left. -/
def cycle_pwm_loop (M : Nat) (payload : List Nat) (len values_off servo_count slot : Nat) :
    Nat → Nat → Registry → Option (Bool × Registry)
  | 0, _, r => some (true, r)
  | k + 1, p, r =>
    if slot < PROTO_CYCLE_MAX_SLOT ∧ p < PROTO_CYCLE_MAX_POSE then
      match cycle_pwm_inner_loop M payload len values_off servo_count slot p servo_count 0
          { r with s_cycle_pose_pwm_ptrs := upd2 r.s_cycle_pose_pwm_ptrs slot p (some (slot, p)) } with
      | none => none
      | some (false, r2) => some (false, r2)
      | some (true, r2) => cycle_pwm_loop M payload len values_off servo_count slot k (p + 1) r2
    else none

/-- The inner loop over `i` of the `mode == 1` branch, for pose `p`, with `k`
iterations left. -/
def cycle_angle_inner_loop (M : Nat) (payload : List Nat) (len values_off servo_count slot p : Nat) :
    Nat → Nat → Registry → Option (Bool × Registry)
  | 0, _, r => some (true, r)
  | k + 1, i, r =>
    match proto_read_f32_le (some payload) len
        (u16 (u32 (values_off + u32 ((p * servo_count + i) * 4)))) 0 with
    | none => none
    | some (false, _) => some (false, release_cycle_slot r slot)
    | some (true, angle) =>
      if slot < PROTO_CYCLE_MAX_SLOT ∧ p < PROTO_CYCLE_MAX_POSE ∧ i < M then
        cycle_angle_inner_loop M payload len values_off servo_count slot p k (i + 1)
          { r with s_cycle_pose_angle := upd3 r.s_cycle_pose_angle slot p i angle }
      else none

/-- The outer loop over `p` of the `mode == 1` branch, with `k` iterations
left. -/
def cycle_angle_loop (M : Nat) (payload : List Nat) (len values_off servo_count slot : Nat) :
    Nat → Nat → Registry → Option (Bool × Registry)
  | 0, _, r => some (true, r)
  | k + 1, p, r =>
    if slot < PROTO_CYCLE_MAX_SLOT ∧ p < PROTO_CYCLE_MAX_POSE then
      match cycle_angle_inner_loop M payload len values_off servo_count slot p servo_count 0
          { r with s_cycle_pose_angle_ptrs := upd2 r.s_cycle_pose_angle_ptrs slot p (some (slot, p)) } with
      | none => none
      | some (false, r2) => some (false, r2)
      | some (true, r2) => cycle_angle_loop M payload len values_off servo_count slot k (p + 1) r2
    else none

/-- What the engine sees through a table of row pointers: each entry that is
not `NULL` gives the row it points to. -/
def deref_rows (ptrs : Nat → Option (Nat × Nat)) (rows : Nat → Nat → Nat → Nat) :
    Nat → Option (Nat → Nat) :=
  fun p => (ptrs p).map (fun a => rows a.1 a.2)

/-- The arguments of the call `motion_cycle_create(...)` at lines 141-147. -/
def cycle_create_args (r : Registry) (slot : Nat) (h : CycleHeader) : CycleCreateArgs where
  servo_ids := r.s_cycle_servo_ids slot
  servo_count := h.servo_count
  pose_pwm := if h.mode = 0 then some (deref_rows (r.s_cycle_pose_pwm_ptrs slot) r.s_cycle_pose_pwm)
              else none
  pose_angle := if h.mode = 1 then some (deref_rows (r.s_cycle_pose_angle_ptrs slot) r.s_cycle_pose_angle)
                else none
  durations := r.s_cycle_durations slot
  pose_count := h.pose_count
  max_loops := h.max_loops

/-- Lines 141-157 of `protocol_motion_cycle_handle`: the engine call, the index
map update and the response. -/
def cycle_create_finish (env : Env) (w : World) (r : Registry) (slot : Nat) (h : CycleHeader) :
    Option (Bool × World) :=
  let args := cycle_create_args r slot h
  let cycle_index := env.motion_cycle_create args
  let w1 : World := { reg := r, calls := w.calls ++ [Call.motion_cycle_create args] }
  if cycle_index < 0 ∨ cycle_index ≥ (PROTO_CYCLE_MAX_SLOT : Int) then
    some (false, { w1 with reg := release_cycle_slot r slot })
  else
    let w2 : World :=
      { w1 with reg := { r with s_cycle_slot_of_index :=
                            upd1 r.s_cycle_slot_of_index cycle_index.toNat slot } }
    match buf_write (List.replicate 1 0) 0 (u8 cycle_index.toNat) with
    | none => none
    | some resp =>
      match protocol_send_state env w2 STATE_CMD_MOTION_CYCLE (some resp) 1 with
      | none => none
      | some (_, w3) => some (true, w3)

/-- Lines 92-157 of `protocol_motion_cycle_handle`: slot allocation, decoding
into the slot, engine call and response of `CREATE`. -/
def cycle_create_body (M : Nat) (env : Env) (w : World) (payload : List Nat) (len : Nat)
    (h : CycleHeader) : Option (Bool × World) :=
  let slot := find_free_cycle_slot w.reg
  if slot < 0 then some (false, w)
  else
    let slot := slot.toNat
    if slot < PROTO_CYCLE_MAX_SLOT then
      let r0 : Registry := { w.reg with s_cycle_used := upd1 w.reg.s_cycle_used slot 1 }
      match cycle_ids_loop M payload h.ids_off slot h.servo_count 0 r0 with
      | none => none
      | some r1 =>
        match cycle_durations_loop payload len h.durations_off slot h.pose_count 0 r1 with
        | none => none
        | some (false, r2) => some (false, { w with reg := r2 })
        | some (true, r2) =>
          if h.mode = 0 then
            match cycle_pwm_loop M payload len h.values_off h.servo_count slot h.pose_count 0 r2 with
            | none => none
            | some (false, r3) => some (false, { w with reg := r3 })
            | some (true, r3) => cycle_create_finish env w r3 slot h
          else if h.mode = 1 then
            match cycle_angle_loop M payload len h.values_off h.servo_count slot h.pose_count 0 r2 with
            | none => none
            | some (false, r3) => some (false, { w with reg := r3 })
            | some (true, r3) => cycle_create_finish env w r3 slot h
          else some (false, { w with reg := release_cycle_slot r2 slot })
    else none

/-- `protocol_motion_cycle_handle(cmd, payload, len)`, with `M = MAX_SERVOS`. -/
def protocol_motion_cycle_handle (M : Nat) (env : Env) (w : World) (cmd : Nat)
    (payload : List Nat) (len : Nat) : Option (Bool × World) :=
  if cmd = CYCLE_CMD_CREATE then
    match cycle_create_header M payload len with
    | none => none
    | some none => some (false, w)
    | some (some h) => cycle_create_body M env w payload len h
  else if cmd = CYCLE_CMD_START then
    match proto_read_u32_le (some payload) len 0 0 with
    | none => none
    | some (false, _) => some (false, w)
    | some (true, idx) =>
      some (decide (env.motion_cycle_start idx = 0), w.call (Call.motion_cycle_start idx))
  else if cmd = CYCLE_CMD_RESTART then
    match proto_read_u32_le (some payload) len 0 0 with
    | none => none
    | some (false, _) => some (false, w)
    | some (true, idx) =>
      some (decide (env.motion_cycle_restart idx = 0), w.call (Call.motion_cycle_restart idx))
  else if cmd = CYCLE_CMD_PAUSE then
    match proto_read_u32_le (some payload) len 0 0 with
    | none => none
    | some (false, _) => some (false, w)
    | some (true, idx) =>
      some (decide (env.motion_cycle_pause idx = 0), w.call (Call.motion_cycle_pause idx))
  else if cmd = CYCLE_CMD_RELEASE then
    match proto_read_u32_le (some payload) len 0 0 with
    | none => none
    | some (false, _) => some (false, w)
    | some (true, idx) =>
      let r := if idx < PROTO_CYCLE_MAX_SLOT
               then release_cycle_slot w.reg (w.reg.s_cycle_slot_of_index idx)
               else w.reg
      let w1 : World := { w with reg := r }
      some (decide (env.motion_cycle_release idx = 0),
        w1.call (Call.motion_cycle_release idx w1.reg))
  else if cmd = CYCLE_CMD_GET_STATUS then some (false, w)
  else if cmd = CYCLE_CMD_STATUS then some (false, w)
  else some (false, w)

/-! ## The type listeners -/

/-- The fields of TinyFrame's `TF_Msg` that the listeners use. -/
structure TF_Msg where
  type : Nat
  data : Option (List Nat)
  len : Nat

/-- TinyFrame's `TF_Result`. -/
inductive TF_Result where
  | TF_NEXT
  | TF_STAY
  | TF_RENEW
  | TF_CLOSE
  deriving DecidableEq, Repr

/-- What a listener does with the command view once `proto_parse_cmd` has
succeeded: `if (handle(cmd_view.cmd, cmd_view.payload, cmd_view.payload_len))
return TF_STAY; return TF_NEXT;`. -/
def listener_result (r : Option (Bool × World)) : Option (TF_Result × World) :=
  match r with
  | none => none
  | some (true, w) => some (TF_Result.TF_STAY, w)
  | some (false, w) => some (TF_Result.TF_NEXT, w)

/-- `protocol_sys_listener(tf, msg)`; `msg = none` is the `NULL` pointer. -/
def protocol_sys_listener (env : Env) (w : World) (msg : Option TF_Msg) :
    Option (TF_Result × World) :=
  match msg with
  | none => some (TF_Result.TF_NEXT, w)
  | some m =>
    match proto_parse_cmd m.data (u16 m.len) with
    | none => none
    | some (false, _) => some (TF_Result.TF_NEXT, w)
    | some (true, cmd_view) =>
      match cmd_view.payload with
      | none => none
      | some pl => listener_result (protocol_sys_handle env w cmd_view.cmd pl cmd_view.payload_len)

/-- `protocol_servo_listener(tf, msg)`. -/
def protocol_servo_listener (M : Nat) (env : Env) (w : World) (msg : Option TF_Msg) :
    Option (TF_Result × World) :=
  match msg with
  | none => some (TF_Result.TF_NEXT, w)
  | some m =>
    match proto_parse_cmd m.data (u16 m.len) with
    | none => none
    | some (false, _) => some (TF_Result.TF_NEXT, w)
    | some (true, cmd_view) =>
      match cmd_view.payload with
      | none => none
      | some pl =>
        listener_result (protocol_servo_handle M env w cmd_view.cmd pl cmd_view.payload_len)

/-- `protocol_motion_listener(tf, msg)`. -/
def protocol_motion_listener (M : Nat) (env : Env) (w : World) (msg : Option TF_Msg) :
    Option (TF_Result × World) :=
  match msg with
  | none => some (TF_Result.TF_NEXT, w)
  | some m =>
    match proto_parse_cmd m.data (u16 m.len) with
    | none => none
    | some (false, _) => some (TF_Result.TF_NEXT, w)
    | some (true, cmd_view) =>
      match cmd_view.payload with
      | none => none
      | some pl =>
        listener_result (protocol_motion_handle M env w cmd_view.cmd pl cmd_view.payload_len)

/-- `protocol_arm_listener(tf, msg)`. -/
def protocol_arm_listener (J : Nat) (env : Env) (w : World) (msg : Option TF_Msg) :
    Option (TF_Result × World) :=
  match msg with
  | none => some (TF_Result.TF_NEXT, w)
  | some m =>
    match proto_parse_cmd m.data (u16 m.len) with
    | none => none
    | some (false, _) => some (TF_Result.TF_NEXT, w)
    | some (true, cmd_view) =>
      match cmd_view.payload with
      | none => none
      | some pl =>
        listener_result (protocol_arm_handle J env w cmd_view.cmd pl cmd_view.payload_len)

/-- `protocol_config_listener(tf, msg)`. -/
def protocol_config_listener (env : Env) (w : World) (msg : Option TF_Msg) :
    Option (TF_Result × World) :=
  match msg with
  | none => some (TF_Result.TF_NEXT, w)
  | some m =>
    match proto_parse_cmd m.data (u16 m.len) with
    | none => none
    | some (false, _) => some (TF_Result.TF_NEXT, w)
    | some (true, cmd_view) =>
      match cmd_view.payload with
      | none => none
      | some pl =>
        listener_result (protocol_config_handle env w cmd_view.cmd pl cmd_view.payload_len)

/-- `protocol_motion_cycle_listener(tf, msg)`. -/
def protocol_motion_cycle_listener (M : Nat) (env : Env) (w : World) (msg : Option TF_Msg) :
    Option (TF_Result × World) :=
  match msg with
  | none => some (TF_Result.TF_NEXT, w)
  | some m =>
    match proto_parse_cmd m.data (u16 m.len) with
    | none => none
    | some (false, _) => some (TF_Result.TF_NEXT, w)
    | some (true, cmd_view) =>
      match cmd_view.payload with
      | none => none
      | some pl =>
        listener_result (protocol_motion_cycle_handle M env w cmd_view.cmd pl cmd_view.payload_len)

/-! ## Reference values used to state the properties -/

/-- The little-endian 32-bit word at offset `off` of a buffer:
`data[off] + 256 * data[off+1] + 65536 * data[off+2] + 16777216 * data[off+3]`. -/
def le_u32 (data : List Nat) (off : Nat) : Nat :=
  data.getD off 0 + 256 * data.getD (off + 1) 0 + 65536 * data.getD (off + 2) 0
    + 16777216 * data.getD (off + 3) 0

/-- The little-endian 16-bit word at offset `off` of a buffer. -/
def le_u16 (data : List Nat) (off : Nat) : Nat :=
  data.getD off 0 + 256 * data.getD (off + 1) 0

/-- A sample environment: the transport accepts every frame, the servo and
motion-sync layers report zeros, and the cycle engine answers `k` to
`motion_cycle_create` and `0` to everything else. -/
def Env.sample (k : Int) : Env where
  tf_uart_port_send_frame := fun _ _ _ => true
  servo_is_moving := fun _ => false
  servo_get_current_pwm := fun _ => 0
  servo_get_target_angle := fun _ => 0
  servo_get_remaining_time := fun _ => 0
  servo_get_moving_mask := 0
  motion_sync_move_pwm := fun _ _ _ _ => 0
  motion_sync_move_angle := fun _ _ _ _ => 0
  motion_sync_release_group := fun _ => true
  motion_sync_pause_group := fun _ => true
  motion_sync_restart_group := fun _ => true
  motion_sync_get_group_mask := fun _ => 0
  motion_sync_is_group_complete := fun _ => true
  motion_cycle_create := fun _ => k
  motion_cycle_start := fun _ => 0
  motion_cycle_restart := fun _ => 0
  motion_cycle_pause := fun _ => 0
  motion_cycle_release := fun _ => 0

/-- The array `a` after the entries `a[slot][j]`, `lo <= j < hi`, have been set
to `f j`. -/
def fill2 {α : Type} (a : Nat → Nat → α) (slot lo hi : Nat) (f : Nat → α) : Nat → Nat → α :=
  fun s j => if s = slot ∧ lo ≤ j ∧ j < hi then f j else a s j

/-- The array `a` after the entries `a[slot][p][j]`, `lo <= j < hi`, have been
set to `f j`. -/
def fill3row (a : Nat → Nat → Nat → Nat) (slot p lo hi : Nat) (f : Nat → Nat) :
    Nat → Nat → Nat → Nat :=
  fun s q j => if s = slot ∧ q = p ∧ lo ≤ j ∧ j < hi then f j else a s q j

/-- The array `a` after the entries `a[slot][q][j]`, `lo <= q < hi` and
`j < n`, have been set to `f q j`. -/
def fill3 (a : Nat → Nat → Nat → Nat) (slot lo hi n : Nat) (f : Nat → Nat → Nat) :
    Nat → Nat → Nat → Nat :=
  fun s q j => if s = slot ∧ lo ≤ q ∧ q < hi ∧ j < n then f q j else a s q j

/-- The conditions on a `CREATE` payload as the specification words them, with
`S = payload[1]` and `P = payload[2]`: `len >= 7`, `1 <= S <= MAX_SERVOS`,
`1 <= P <= 8` and `len >= 7 + 4*P + S + 4*P*S`, the sum taken in the natural
numbers. -/
def CreateValid (M : Nat) (payload : List Nat) (len : Nat) : Prop :=
  7 ≤ len ∧ 1 ≤ payload.getD 1 0 ∧ payload.getD 1 0 ≤ M
    ∧ 1 ≤ payload.getD 2 0 ∧ payload.getD 2 0 ≤ 8
    ∧ 7 + 4 * payload.getD 2 0 + payload.getD 1 0
        + 4 * (payload.getD 2 0 * payload.getD 1 0) ≤ len

instance (M : Nat) (payload : List Nat) (len : Nat) : Decidable (CreateValid M payload len) := by
  unfold CreateValid; infer_instance

/-- The header fields and section offsets of a `CREATE` payload, read off the
layout `[mode][servo_count][pose_count][max_loops:u32][durations][ids][values]`. -/
def create_layout (payload : List Nat) : CycleHeader where
  mode := payload.getD 0 0
  servo_count := payload.getD 1 0
  pose_count := payload.getD 2 0
  max_loops := le_u32 payload 3
  durations_off := 7
  ids_off := 7 + 4 * payload.getD 2 0
  values_off := 7 + 4 * payload.getD 2 0 + payload.getD 1 0

/-- The registry once `CREATE` has marked `slot` used and decoded the servo ids
and the durations of `payload` into it (lines 96-108). -/
def staged_header (r : Registry) (payload : List Nat) (slot : Nat) : Registry :=
  { r with
    s_cycle_used := upd1 r.s_cycle_used slot 1
    s_cycle_servo_ids :=
      fill2 r.s_cycle_servo_ids slot 0 (payload.getD 1 0)
        (fun i => payload.getD (7 + 4 * payload.getD 2 0 + i) 0)
    s_cycle_durations :=
      fill2 r.s_cycle_durations slot 0 (payload.getD 2 0) (fun p => le_u32 payload (7 + 4 * p)) }

/-- The word of `payload` that holds the value of pose `p` and servo `i`. -/
def create_value (payload : List Nat) (p i : Nat) : Nat :=
  le_u32 payload (7 + 4 * payload.getD 2 0 + payload.getD 1 0 + 4 * (p * payload.getD 1 0 + i))

/-- The registry once the `mode == 0` branch has also decoded the PWM values
(lines 110-122). -/
def staged_pwm (r : Registry) (payload : List Nat) (slot : Nat) : Registry :=
  { staged_header r payload slot with
    s_cycle_pose_pwm :=
      fill3 r.s_cycle_pose_pwm slot 0 (payload.getD 2 0) (payload.getD 1 0) (create_value payload)
    s_cycle_pose_pwm_ptrs :=
      fill2 r.s_cycle_pose_pwm_ptrs slot 0 (payload.getD 2 0) (fun p => some (slot, p)) }

/-- The registry once the `mode == 1` branch has also decoded the angle values
(lines 123-135). -/
def staged_angle (r : Registry) (payload : List Nat) (slot : Nat) : Registry :=
  { staged_header r payload slot with
    s_cycle_pose_angle :=
      fill3 r.s_cycle_pose_angle slot 0 (payload.getD 2 0) (payload.getD 1 0) (create_value payload)
    s_cycle_pose_angle_ptrs :=
      fill2 r.s_cycle_pose_angle_ptrs slot 0 (payload.getD 2 0) (fun p => some (slot, p)) }

/-- The slot `s` is the lowest-numbered free slot of the registry. -/
def FirstFree (r : Registry) (s : Nat) : Prop :=
  s < 5 ∧ r.s_cycle_used s = 0 ∧ ∀ j, j < s → r.s_cycle_used j ≠ 0

/-- A `CREATE` request that is accepted whenever a slot is free: a payload of
bytes of the declared length that meets `CreateValid`, a mode of 0 or 1, and an
engine that answers with an index in `0..4`. -/
def GoodCreate (M : Nat) (env : Env) (payload : List Nat) (len : Nat) : Prop :=
  IsBytes payload ∧ len ≤ payload.length ∧ CreateValid M payload len ∧ payload.getD 0 0 ≤ 1
    ∧ ∀ a, 0 ≤ env.motion_cycle_create a ∧ env.motion_cycle_create a < 5

/-- The `CREATE` payload of the specification's example: `mode = 1`,
`servo_count = 2`, `pose_count = 2`, `max_loops = 0`, durations 100 and 200,
servo ids 4 and 5, and four float words. -/
def sample_create : List Nat :=
  [1, 2, 2, 0, 0, 0, 0,
   100, 0, 0, 0, 200, 0, 0, 0,
   4, 5,
   0, 0, 128, 63, 0, 0, 0, 64, 0, 0, 64, 64, 0, 0, 128, 64]

/-- The registry with which `CREATE` reaches the engine call when the mode is
0 or 1. -/
def staged (r : Registry) (payload : List Nat) (slot : Nat) : Registry :=
  if payload.getD 0 0 = 0 then staged_pwm r payload slot else staged_angle r payload slot

/-- The behaviour the specification gives every type listener, for a family
handler `handle`: a missing frame, a frame without data or an empty payload is
not handled (`TF_NEXT`, handler not run); otherwise the handler runs once on
`cmd = data[0]`, `payload = data[1..]`, `payload_len = len - 1`, and the result
is `TF_STAY` exactly when it returned true. -/
def listener_spec (handle : Nat → List Nat → Nat → Option (Bool × World)) (w : World)
    (msg : Option TF_Msg) : Option (TF_Result × World) :=
  match msg with
  | none => some (TF_Result.TF_NEXT, w)
  | some m =>
    match m.data with
    | none => some (TF_Result.TF_NEXT, w)
    | some data =>
      if m.len = 0 then some (TF_Result.TF_NEXT, w)
      else
        (handle (data.getD 0 0) (data.drop 1) (m.len - 1)).map
          (fun r => (if r.1 = true then TF_Result.TF_STAY else TF_Result.TF_NEXT, r.2))

/-- A frame as the transport delivers it: a 16-bit length that does not exceed
the bytes of the data buffer. -/
def FrameOk (msg : Option TF_Msg) : Prop :=
  ∀ m, msg = some m → m.len < 65536 ∧ ∀ d, m.data = some d → m.len ≤ d.length

/-- A `SERVO` frame carrying `SET_PWM` for servo 2, pwm 1500, duration 200. -/
def sample_servo_frame : TF_Msg where
  type := PROTO_TYPE_SERVO
  data := some [3, 2, 0xDC, 0x05, 0, 0, 200, 0, 0, 0]
  len := 10

/-- The four bytes of a 32-bit value, least significant first. -/
def le_bytes32 (v : Nat) : List Nat :=
  [v % 256, v / 256 % 256, v / 65536 % 256, v / 16777216 % 256]

/-- A `SERVO` frame carrying `SET_PWM` with a payload of 8 bytes, one short of
the schema. -/
def short_servo_frame : TF_Msg where
  type := PROTO_TYPE_SERVO
  data := some [3, 2, 0xDC, 0x05, 0, 0, 200, 0, 0]
  len := 9

/-- The local value array of `MOTION START` (`pwms` or `angles`, `MAX_SERVOS`
entries) at the collaborator call: entry `i < count` holds the little-endian
word at offset `6 + count + 4*i`; the entries from `count` on were never
written (they read as 0 here). -/
def start_values (M : Nat) (payload : List Nat) : List Nat :=
  (List.range M).map
    (fun i => if i < payload.getD 1 0 then le_u32 payload (6 + payload.getD 1 0 + 4 * i) else 0)

/-- The conditions under which `MOTION START` is accepted: `len >= 6`, a mode
of 0 or 1, `1 <= count <= MAX_SERVOS` and `len >= 6 + 5 * count`. -/
def StartValid (M : Nat) (payload : List Nat) (len : Nat) : Prop :=
  6 ≤ len ∧ payload.getD 0 0 ≤ 1 ∧ 1 ≤ payload.getD 1 0 ∧ payload.getD 1 0 ≤ M
    ∧ 6 + 5 * payload.getD 1 0 ≤ len

instance (M : Nat) (payload : List Nat) (len : Nat) : Decidable (StartValid M payload len) := by
  unfold StartValid; infer_instance

/-- A `MOTION START` payload: mode 0, two servos, duration 1000, ids 4 and 5,
PWM values 1500 and 1800. -/
def sample_start : List Nat :=
  [0, 2, 0xE8, 0x03, 0, 0, 4, 5, 0xDC, 0x05, 0, 0, 0x08, 0x07, 0, 0]

/-- The 14-byte status record of `SERVO GET_STATUS` for servo `id`: the id, the
moving flag (1 or 0), and `current_pwm`, `target_angle` (its bit pattern) and
`remaining_time`, each as 4 little-endian bytes. -/
def servo_status_record (env : Env) (id : Nat) : List Nat :=
  id :: (if env.servo_is_moving id then 1 else 0) ::
    (le_bytes32 (env.servo_get_current_pwm id) ++ le_bytes32 (env.servo_get_target_angle id)
      ++ le_bytes32 (env.servo_get_remaining_time id))

/-- The payload `sample_create` with its mode byte replaced by 2, a mode that
`CREATE` rejects after it has marked a slot and decoded ids and durations. -/
def bad_mode_create : List Nat :=
  [2, 2, 2, 0, 0, 0, 0,
   100, 0, 0, 0, 200, 0, 0, 0,
   4, 5,
   0, 0, 128, 63, 0, 0, 0, 64, 0, 0, 64, 64, 0, 0, 128, 64]

/-- A world in which slots 0 and 1 are used and the index map sends cycle 4 to
slot 1 (and every other index to slot 0), as after two `CREATE`s for which the
engine returned the indices 0 and 4. -/
def World.two_cycles : World where
  reg := { Registry.init with
           s_cycle_used := fun j => if j < 2 then 1 else 0
           s_cycle_slot_of_index := fun k => if k = 4 then 1 else 0 }
  calls := []

/-- The sample environment with a cycle engine whose `motion_cycle_release`
fails (returns -1). -/
def Env.release_fails : Env :=
  { Env.sample 0 with motion_cycle_release := fun _ => -1 }

/-- A `SERVO` frame carrying `DISABLE` with a payload of 2 bytes, where the
schema has one byte or none. -/
def long_disable_frame : TF_Msg where
  type := PROTO_TYPE_SERVO
  data := some [2, 1, 2]
  len := 3

/-! # Properties -/

/-! ## Fixed-width arithmetic and the codec -/

theorem u16_of_lt {x : Nat} (h : x < 65536) : u16 x = x := Nat.mod_eq_of_lt h
theorem u32_of_lt {x : Nat} (h : x < 4294967296) : u32 x = x := Nat.mod_eq_of_lt h
theorem u8_of_lt {x : Nat} (h : x < 256) : u8 x = x := Nat.mod_eq_of_lt h

theorem or_shift8 {a b : Nat} (ha : a < 256) : a ||| b <<< 8 = a + 256 * b := by
  rw [Nat.shiftLeft_eq, Nat.lor_comm, Nat.mul_comm b, Nat.add_comm]
  exact (Nat.mul_add_lt_is_or (i := 8) ha b).symm

theorem or_shift16 {a b : Nat} (ha : a < 65536) : a ||| b <<< 16 = a + 65536 * b := by
  rw [Nat.shiftLeft_eq, Nat.lor_comm, Nat.mul_comm b, Nat.add_comm]
  exact (Nat.mul_add_lt_is_or (i := 16) ha b).symm

theorem or_shift24 {a b : Nat} (ha : a < 16777216) : a ||| b <<< 24 = a + 16777216 * b := by
  rw [Nat.shiftLeft_eq, Nat.lor_comm, Nat.mul_comm b, Nat.add_comm]
  exact (Nat.mul_add_lt_is_or (i := 24) ha b).symm

theorem word_of_bytes {b0 b1 b2 b3 : Nat} (h0 : b0 < 256) (h1 : b1 < 256) (h2 : b2 < 256)
    (h3 : b3 < 256) :
    b0 ||| u32 (b1 <<< 8) ||| u32 (b2 <<< 16) ||| u32 (b3 <<< 24)
      = b0 + 256 * b1 + 65536 * b2 + 16777216 * b3 := by
  have e1 : u32 (b1 <<< 8) = b1 <<< 8 := u32_of_lt (by rw [Nat.shiftLeft_eq]; omega)
  have e2 : u32 (b2 <<< 16) = b2 <<< 16 := u32_of_lt (by rw [Nat.shiftLeft_eq]; omega)
  have e3 : u32 (b3 <<< 24) = b3 <<< 24 := u32_of_lt (by rw [Nat.shiftLeft_eq]; omega)
  rw [e1, e2, e3, or_shift8 h0, or_shift16 (by omega), or_shift24 (by omega)]

theorem half_of_bytes {b0 b1 : Nat} (h0 : b0 < 256) (h1 : b1 < 256) :
    u16 (b0 ||| u16 (b1 <<< 8)) = b0 + 256 * b1 := by
  have e1 : u16 (b1 <<< 8) = b1 <<< 8 := u16_of_lt (by rw [Nat.shiftLeft_eq]; omega)
  rw [e1, or_shift8 h0]
  exact u16_of_lt (by omega)

theorem bytes_of_word (v : Nat) (hv : v < 4294967296) :
    u8 (v &&& 0xFF) + 256 * u8 ((v >>> 8) &&& 0xFF) + 65536 * u8 ((v >>> 16) &&& 0xFF)
      + 16777216 * u8 ((v >>> 24) &&& 0xFF) = v := by
  have m : ∀ x : Nat, x &&& 0xFF = x % 256 := fun x => Nat.and_pow_two_sub_one_eq_mod x 8
  simp only [m, Nat.shiftRight_eq_div_pow, u8, Nat.mod_mod]
  omega

theorem getD_of_bytes {l : List Nat} (h : IsBytes l) (i : Nat) : l.getD i 0 < 256 := by
  by_cases hi : i < l.length
  · rw [List.getD_eq_getElem l 0 hi]
    exact h _ (List.getElem_mem _)
  · rw [List.getD_eq_default l 0 (by omega)]
    omega

theorem getElem?_eq_some_getD {l : List Nat} {i : Nat} (h : i < l.length) :
    l[i]? = some (l.getD i 0) := by
  rw [List.getD_eq_getElem l 0 h, List.getElem?_eq_getElem h]

theorem proto_read_u32_le_ok {d : List Nat} {len off : Nat} (out : Nat) (hb : IsBytes d)
    (hlen : len ≤ d.length) (hoff : off + 4 ≤ len) (h16 : off < 65536) :
    proto_read_u32_le (some d) len off out = some (true, le_u32 d off) := by
  have e : u32 (u32 off + 4) = off + 4 := by
    rw [u32_of_lt (x := off) (by omega)]; exact u32_of_lt (by omega)
  simp only [proto_read_u32_le, e]
  rw [if_neg (by omega), getElem?_eq_some_getD (i := off) (by omega),
    getElem?_eq_some_getD (i := off + 1) (by omega), getElem?_eq_some_getD (i := off + 2) (by omega),
    getElem?_eq_some_getD (i := off + 3) (by omega)]
  simp only [le_u32]
  rw [word_of_bytes (getD_of_bytes hb _) (getD_of_bytes hb _) (getD_of_bytes hb _)
    (getD_of_bytes hb _)]

theorem proto_read_u32_le_short {d : List Nat} {len off : Nat} (out : Nat)
    (hoff : len < off + 4) (h16 : off < 65536) :
    proto_read_u32_le (some d) len off out = some (false, out) := by
  have e : u32 (u32 off + 4) = off + 4 := by
    rw [u32_of_lt (x := off) (by omega)]; exact u32_of_lt (by omega)
  simp only [proto_read_u32_le, e]
  rw [if_pos (by omega)]

theorem proto_read_u16_le_ok {d : List Nat} {len off : Nat} (out : Nat) (hb : IsBytes d)
    (hlen : len ≤ d.length) (hoff : off + 2 ≤ len) (h16 : off < 65536) :
    proto_read_u16_le (some d) len off out = some (true, le_u16 d off) := by
  have e : u32 (u32 off + 2) = off + 2 := by
    rw [u32_of_lt (x := off) (by omega)]; exact u32_of_lt (by omega)
  simp only [proto_read_u16_le, e]
  rw [if_neg (by omega), getElem?_eq_some_getD (i := off) (by omega),
    getElem?_eq_some_getD (i := off + 1) (by omega)]
  simp only [le_u16]
  rw [half_of_bytes (getD_of_bytes hb _) (getD_of_bytes hb _)]

theorem proto_read_u16_le_short {d : List Nat} {len off : Nat} (out : Nat)
    (hoff : len < off + 2) (h16 : off < 65536) :
    proto_read_u16_le (some d) len off out = some (false, out) := by
  have e : u32 (u32 off + 2) = off + 2 := by
    rw [u32_of_lt (x := off) (by omega)]; exact u32_of_lt (by omega)
  simp only [proto_read_u16_le, e]
  rw [if_pos (by omega)]

theorem proto_read_f32_le_ok {d : List Nat} {len off : Nat} (out : Nat) (hb : IsBytes d)
    (hlen : len ≤ d.length) (hoff : off + 4 ≤ len) (h16 : off < 65536) :
    proto_read_f32_le (some d) len off out = some (true, le_u32 d off) := by
  simp only [proto_read_f32_le, proto_read_u32_le_ok 0 hb hlen hoff h16]

theorem isBytes_take {l : List Nat} (h : IsBytes l) (n : Nat) : IsBytes (l.take n) :=
  fun b hb => h b (List.mem_of_mem_take hb)

theorem getD_take {l : List Nat} {i n : Nat} (h : i < n) : (l.take n).getD i 0 = l.getD i 0 := by
  simp only [List.getD_eq_getElem?_getD, List.getElem?_take_of_lt h]

theorem le_u32_take {l : List Nat} {off n : Nat} (h : off + 4 ≤ n) :
    le_u32 (l.take n) off = le_u32 l off := by
  simp only [le_u32, getD_take (l := l) (i := off) (n := n) (by omega),
    getD_take (l := l) (i := off + 1) (n := n) (by omega),
    getD_take (l := l) (i := off + 2) (n := n) (by omega),
    getD_take (l := l) (i := off + 3) (n := n) (by omega)]

theorem le_u16_take {l : List Nat} {off n : Nat} (h : off + 2 ≤ n) :
    le_u16 (l.take n) off = le_u16 l off := by
  simp only [le_u16, getD_take (l := l) (i := off) (n := n) (by omega),
    getD_take (l := l) (i := off + 1) (n := n) (by omega)]

theorem proto_read_u32_le_eq {d : List Nat} {len off : Nat} (out : Nat) (hb : IsBytes d)
    (hlen : len ≤ d.length) (h16 : off < 65536) :
    proto_read_u32_le (some d) len off out
      = if off + 4 ≤ len then some (true, le_u32 d off) else some (false, out) := by
  by_cases h : off + 4 ≤ len
  · rw [if_pos h, proto_read_u32_le_ok out hb hlen h h16]
  · rw [if_neg h, proto_read_u32_le_short out (by omega) h16]

theorem proto_read_u16_le_eq {d : List Nat} {len off : Nat} (out : Nat) (hb : IsBytes d)
    (hlen : len ≤ d.length) (h16 : off < 65536) :
    proto_read_u16_le (some d) len off out
      = if off + 2 ≤ len then some (true, le_u16 d off) else some (false, out) := by
  by_cases h : off + 2 ≤ len
  · rw [if_pos h, proto_read_u16_le_ok out hb hlen h h16]
  · rw [if_neg h, proto_read_u16_le_short out (by omega) h16]

/-- Claim C9: bounded reads are exact.  For a buffer of bytes holding at least
the declared `len` bytes and a 16-bit offset `off` (up to 65535),
`proto_read_u32_le` succeeds exactly when `off + 4 <= len` and
`proto_read_u16_le` exactly when `off + 2 <= len`, compared without wraparound;
on success the value is `data[off] + 256 * data[off+1]` (`+ 65536 * data[off+2]
+ 16777216 * data[off+3]` for 32 bits), on failure the output cell keeps its
value; and the outcome is the same, with no out-of-bounds access, on the buffer
cut down to its first `len` bytes, so only indices below `len` are read. -/
theorem bounded_reads_exact (data : List Nat) (len off out : Nat) (hb : IsBytes data)
    (hlen : len ≤ data.length) (h16 : off < 65536) :
    proto_read_u32_le (some data) len off out
        = (if off + 4 ≤ len then some (true, le_u32 data off) else some (false, out))
    ∧ proto_read_u16_le (some data) len off out
        = (if off + 2 ≤ len then some (true, le_u16 data off) else some (false, out))
    ∧ proto_read_u32_le (some (data.take len)) len off out
        = proto_read_u32_le (some data) len off out
    ∧ proto_read_u16_le (some (data.take len)) len off out
        = proto_read_u16_le (some data) len off out := by
  have hl : len ≤ (data.take len).length := by rw [List.length_take]; omega
  refine ⟨proto_read_u32_le_eq out hb hlen h16, proto_read_u16_le_eq out hb hlen h16, ?_, ?_⟩
  · rw [proto_read_u32_le_eq out hb hlen h16, proto_read_u32_le_eq out (isBytes_take hb len) hl h16]
    by_cases h : off + 4 ≤ len
    · rw [if_pos h, if_pos h, le_u32_take h]
    · rw [if_neg h, if_neg h]
  · rw [proto_read_u16_le_eq out hb hlen h16, proto_read_u16_le_eq out (isBytes_take hb len) hl h16]
    by_cases h : off + 2 ≤ len
    · rw [if_pos h, if_pos h, le_u16_take h]
    · rw [if_neg h, if_neg h]

theorem buf_write_ok {d : List Nat} {i : Nat} (v : Nat) (h : i < d.length) :
    buf_write d i v = some (d.set i v) := by
  simp only [buf_write, if_pos h]

theorem proto_write_u32_le_ok {d : List Nat} {off : Nat} (v : Nat) (h : off + 4 ≤ d.length) :
    proto_write_u32_le d off v
      = some ((((d.set off (u8 (v &&& 0xFF))).set (off + 1) (u8 ((v >>> 8) &&& 0xFF))).set
          (off + 2) (u8 ((v >>> 16) &&& 0xFF))).set (off + 3) (u8 ((v >>> 24) &&& 0xFF))) := by
  simp only [proto_write_u32_le, Nat.add_zero]
  rw [buf_write_ok _ (by omega)]
  simp only
  rw [buf_write_ok _ (by rw [List.length_set]; omega)]
  simp only
  rw [buf_write_ok _ (by rw [List.length_set, List.length_set]; omega)]
  simp only
  rw [buf_write_ok _ (by rw [List.length_set, List.length_set, List.length_set]; omega)]

/-- Claim C8: codec round trip.  For every 32-bit value `v` (an integer or the
bit pattern of a float, NaN and infinities included) and every offset with
`off + 4 <= len`, `proto_write_u32_le` / `proto_write_f32_le` stay inside the
buffer, change no byte outside `buf[off..off+3]`, and `proto_read_u32_le` /
`proto_read_f32_le` on the result succeed and return `v`. -/
theorem codec_round_trip (buf : List Nat) (len off v out : Nat) (hv : v < 4294967296)
    (hoff : off + 4 ≤ len) (hlen : len ≤ buf.length) (h16 : len < 65536) :
    ∃ buf2, proto_write_u32_le buf off v = some buf2
      ∧ proto_write_f32_le buf off v = some buf2
      ∧ buf2.length = buf.length
      ∧ (∀ j, j < off ∨ off + 4 ≤ j → buf2[j]? = buf[j]?)
      ∧ proto_read_u32_le (some buf2) len off out = some (true, v)
      ∧ proto_read_f32_le (some buf2) len off out = some (true, v) := by
  refine ⟨_, proto_write_u32_le_ok v (by omega), proto_write_u32_le_ok v (by omega), ?_, ?_, ?_⟩
  · simp only [List.length_set]
  · intro j hj
    rw [List.getElem?_set_ne (by omega), List.getElem?_set_ne (by omega), List.getElem?_set_ne (by omega),
      List.getElem?_set_ne (by omega)]
  · have e : u32 (u32 off + 4) = off + 4 := by
      rw [u32_of_lt (x := off) (by omega)]; exact u32_of_lt (by omega)
    have hm : ∀ x : Nat, u8 x < 256 := fun x => Nat.mod_lt x (by omega)
    have key : ∀ o, proto_read_u32_le (some ((((buf.set off (u8 (v &&& 0xFF))).set (off + 1)
        (u8 ((v >>> 8) &&& 0xFF))).set (off + 2) (u8 ((v >>> 16) &&& 0xFF))).set (off + 3)
        (u8 ((v >>> 24) &&& 0xFF)))) len off o = some (true, v) := by
      intro o
      simp only [proto_read_u32_le, e]
      rw [if_neg (by omega)]
      rw [List.getElem?_set_ne (by omega), List.getElem?_set_ne (by omega),
        List.getElem?_set_ne (by omega), List.getElem?_set_eq_of_lt _ (by omega)]
      rw [List.getElem?_set_ne (by omega), List.getElem?_set_ne (by omega),
        List.getElem?_set_eq_of_lt _ (by rw [List.length_set]; omega)]
      rw [List.getElem?_set_ne (by omega),
        List.getElem?_set_eq_of_lt _ (by rw [List.length_set, List.length_set]; omega)]
      rw [List.getElem?_set_eq_of_lt _ (by rw [List.length_set, List.length_set, List.length_set]; omega)]
      simp only
      rw [word_of_bytes (hm _) (hm _) (hm _) (hm _), bytes_of_word v hv]
    refine ⟨key out, ?_⟩
    simp only [proto_read_f32_le, key 0]

theorem bounded_reads_exact_witness :
    IsBytes [0x78, 0x56, 0x34, 0x12, 0xFF] ∧ 5 ≤ [0x78, 0x56, 0x34, 0x12, 0xFF].length
    ∧ proto_read_u32_le (some [0x78, 0x56, 0x34, 0x12, 0xFF]) 5 65535 9
        = (if 65535 + 4 ≤ 5 then some (true, le_u32 [0x78, 0x56, 0x34, 0x12, 0xFF] 65535)
           else some (false, 9))
    ∧ proto_read_u16_le (some [0x78, 0x56, 0x34, 0x12, 0xFF]) 5 65535 9
        = (if 65535 + 2 ≤ 5 then some (true, le_u16 [0x78, 0x56, 0x34, 0x12, 0xFF] 65535)
           else some (false, 9)) :=
  ⟨by decide, by decide,
   (bounded_reads_exact [0x78, 0x56, 0x34, 0x12, 0xFF] 5 65535 9 (by decide) (by decide)
      (by decide)).1,
   (bounded_reads_exact [0x78, 0x56, 0x34, 0x12, 0xFF] 5 65535 9 (by decide) (by decide)
      (by decide)).2.1⟩

theorem codec_round_trip_witness :
    ∃ buf2, proto_write_u32_le [9, 9, 9, 9, 9, 9] 1 0xFFFFFFFF = some buf2
      ∧ proto_write_f32_le [9, 9, 9, 9, 9, 9] 1 0xFFFFFFFF = some buf2
      ∧ buf2.length = [9, 9, 9, 9, 9, 9].length
      ∧ (∀ j, j < 1 ∨ 1 + 4 ≤ j → buf2[j]? = [9, 9, 9, 9, 9, 9][j]?)
      ∧ proto_read_u32_le (some buf2) 6 1 0 = some (true, 0xFFFFFFFF)
      ∧ proto_read_f32_le (some buf2) 6 1 0 = some (true, 0xFFFFFFFF) :=
  codec_round_trip [9, 9, 9, 9, 9, 9] 6 1 0xFFFFFFFF 0 (by decide) (by decide) (by decide)
    (by decide)

/-! ## The servo family -/

/-- Claim C1: `SERVO SET_PWM`.  For a payload of bytes with declared length
`len`: if `len` is exactly 9 and `payload[0] < MAX_SERVOS` the handler returns
true and makes exactly one collaborator call, `servo_move_pwm(payload[0],
little-endian u32 of payload[1..4], little-endian u32 of payload[5..8])`; for
every other length (8 in particular) or an id `>= MAX_SERVOS` it returns false
and makes no call. -/
theorem servo_set_pwm_contract (M : Nat) (env : Env) (w : World) (payload : List Nat) (len : Nat)
    (hb : IsBytes payload) (hlen : len ≤ payload.length) :
    protocol_servo_handle M env w SERVO_CMD_SET_PWM payload len
      = if len = 9 ∧ payload.getD 0 0 < M
        then some (true, w.call (Call.servo_move_pwm (payload.getD 0 0) (le_u32 payload 1)
                (le_u32 payload 5)))
        else some (false, w) := by
  have c1 : ¬ (SERVO_CMD_SET_PWM = SERVO_CMD_ENABLE) := by decide
  have c2 : ¬ (SERVO_CMD_SET_PWM = SERVO_CMD_DISABLE) := by decide
  simp only [protocol_servo_handle, if_neg c1, if_neg c2, if_true]
  by_cases h9 : len = 9
  · subst h9
    rw [getElem?_eq_some_getD (i := 0) (by omega)]
    simp only [ne_eq, not_true_eq_false, if_false, true_and, ge_iff_le]
    by_cases hid : payload.getD 0 0 < M
    · rw [if_neg (by omega), if_pos hid,
        proto_read_u32_le_ok 0 hb hlen (by omega) (by omega),
        proto_read_u32_le_ok 0 hb hlen (by omega) (by omega)]
    · rw [if_pos (by omega), if_neg hid]
  · rw [if_pos h9, if_neg (fun h => h9 h.1)]

theorem servo_set_pwm_contract_witness :
    IsBytes [2, 0xDC, 0x05, 0, 0, 200, 0, 0, 0] ∧ 9 ≤ [2, 0xDC, 0x05, 0, 0, 200, 0, 0, 0].length
    ∧ protocol_servo_handle 6 (Env.sample 0) World.init SERVO_CMD_SET_PWM
        [2, 0xDC, 0x05, 0, 0, 200, 0, 0, 0] 9
      = some (true, World.init.call (Call.servo_move_pwm 2 1500 200))
    ∧ protocol_servo_handle 6 (Env.sample 0) World.init SERVO_CMD_SET_PWM
        [2, 0xDC, 0x05, 0, 0, 200, 0, 0] 8
      = some (false, World.init) :=
  ⟨by decide, by decide,
   servo_set_pwm_contract 6 (Env.sample 0) World.init [2, 0xDC, 0x05, 0, 0, 200, 0, 0, 0] 9
     (by decide) (by decide),
   servo_set_pwm_contract 6 (Env.sample 0) World.init [2, 0xDC, 0x05, 0, 0, 200, 0, 0] 8
     (by decide) (by decide)⟩

/-! ## The motion-cycle registry: closed forms of the `CREATE` loops -/

theorem fill2_empty {α : Type} (a : Nat → Nat → α) (slot lo : Nat) (f : Nat → α) :
    fill2 a slot lo lo f = a := by
  funext s j
  simp only [fill2]
  rw [if_neg (by omega)]

theorem fill2_step {α : Type} (a : Nat → Nat → α) (slot lo hi : Nat) (f : Nat → α)
    (h : lo < hi) : fill2 (upd2 a slot lo (f lo)) slot (lo + 1) hi f = fill2 a slot lo hi f := by
  funext s j
  simp only [fill2, upd2]
  by_cases h1 : s = slot ∧ lo + 1 ≤ j ∧ j < hi
  · rw [if_pos h1, if_pos ⟨h1.1, by omega, h1.2.2⟩]
  · rw [if_neg h1]
    by_cases h2 : s = slot ∧ j = lo
    · rw [if_pos h2, if_pos ⟨h2.1, by omega, by omega⟩, h2.2]
    · rw [if_neg h2, if_neg (fun h3 => h1 ⟨h3.1, by
        rcases Nat.eq_or_lt_of_le h3.2.1 with e | e
        · exact absurd ⟨h3.1, e.symm⟩ h2
        · exact e, h3.2.2⟩)]

theorem fill3row_empty (a : Nat → Nat → Nat → Nat) (slot p lo : Nat) (f : Nat → Nat) :
    fill3row a slot p lo lo f = a := by
  funext s q j
  simp only [fill3row]
  rw [if_neg (by omega)]

theorem fill3row_step (a : Nat → Nat → Nat → Nat) (slot p lo hi : Nat) (f : Nat → Nat)
    (h : lo < hi) :
    fill3row (upd3 a slot p lo (f lo)) slot p (lo + 1) hi f = fill3row a slot p lo hi f := by
  funext s q j
  simp only [fill3row, upd3]
  by_cases h1 : s = slot ∧ q = p ∧ lo + 1 ≤ j ∧ j < hi
  · rw [if_pos h1, if_pos ⟨h1.1, h1.2.1, by omega, h1.2.2.2⟩]
  · rw [if_neg h1]
    by_cases h2 : s = slot ∧ q = p ∧ j = lo
    · rw [if_pos h2, if_pos ⟨h2.1, h2.2.1, by omega, by omega⟩, h2.2.2]
    · rw [if_neg h2, if_neg (fun h3 => h1 ⟨h3.1, h3.2.1, by
        rcases Nat.eq_or_lt_of_le h3.2.2.1 with e | e
        · exact absurd ⟨h3.1, h3.2.1, e.symm⟩ h2
        · exact e, h3.2.2.2⟩)]

theorem fill3_empty (a : Nat → Nat → Nat → Nat) (slot lo n : Nat) (f : Nat → Nat → Nat) :
    fill3 a slot lo lo n f = a := by
  funext s q j
  simp only [fill3]
  rw [if_neg (by omega)]

theorem fill3_step (a : Nat → Nat → Nat → Nat) (slot lo hi n : Nat) (f : Nat → Nat → Nat)
    (h : lo < hi) :
    fill3 (fill3row a slot lo 0 n (f lo)) slot (lo + 1) hi n f = fill3 a slot lo hi n f := by
  funext s q j
  simp only [fill3, fill3row]
  by_cases h1 : s = slot ∧ lo + 1 ≤ q ∧ q < hi ∧ j < n
  · rw [if_pos h1, if_pos ⟨h1.1, by omega, h1.2.2⟩]
  · rw [if_neg h1]
    by_cases h2 : s = slot ∧ q = lo ∧ 0 ≤ j ∧ j < n
    · rw [if_pos h2, if_pos ⟨h2.1, by omega, by omega, h2.2.2.2⟩, h2.2.1]
    · rw [if_neg h2, if_neg (fun h3 => h1 ⟨h3.1, by
        rcases Nat.eq_or_lt_of_le h3.2.1 with e | e
        · exact absurd ⟨h3.1, e.symm, Nat.zero_le _, h3.2.2.2⟩ h2
        · exact e, h3.2.2⟩)]

theorem mul_add_lt_mul {p P i S : Nat} (hp : p < P) (hi : i < S) : p * S + i < P * S := by
  calc p * S + i < p * S + S := by omega
    _ = (p + 1) * S := by ring
    _ ≤ P * S := Nat.mul_le_mul_right S hp

theorem cycle_ids_loop_eq (M : Nat) (payload : List Nat) (ids_off slot : Nat)
    (hslot : slot < 5) :
    ∀ (k i : Nat) (r : Registry), i + k ≤ M → ids_off + i + k ≤ payload.length →
      cycle_ids_loop M payload ids_off slot k i r
        = some { r with s_cycle_servo_ids :=
                   fill2 r.s_cycle_servo_ids slot i (i + k) (fun j => payload.getD (ids_off + j) 0) } := by
  intro k
  induction k with
  | zero =>
    intro i r _ _
    simp only [cycle_ids_loop, Nat.add_zero, fill2_empty]
  | succ k ih =>
    intro i r hM hlen
    simp only [cycle_ids_loop]
    rw [getElem?_eq_some_getD (by omega)]
    simp only
    rw [if_pos ⟨hslot, by omega⟩, ih (i + 1) _ (by omega) (by omega)]
    simp only
    rw [show i + 1 + k = i + (k + 1) by omega]
    rw [fill2_step r.s_cycle_servo_ids slot i (i + (k + 1)) (fun j => payload.getD (ids_off + j) 0)
      (by omega)]

theorem cycle_durations_loop_eq (payload : List Nat) (len slot P : Nat) (hb : IsBytes payload)
    (hlen : len ≤ payload.length) (hslot : slot < 5) (hP : P ≤ 8) (hfit : 7 + 4 * P ≤ len) :
    ∀ (k p : Nat) (r : Registry), p + k ≤ P →
      cycle_durations_loop payload len 7 slot k p r
        = some (true, { r with
            s_cycle_durations :=
              fill2 r.s_cycle_durations slot p (p + k) (fun q => le_u32 payload (7 + 4 * q)) }) := by
  intro k
  induction k with
  | zero =>
    intro p r _
    simp only [cycle_durations_loop, Nat.add_zero, fill2_empty]
  | succ k ih =>
    intro p r hp
    have e : u16 (u32 (7 + u32 (p * 4))) = 7 + 4 * p := by
      rw [u32_of_lt (x := p * 4) (by omega), u32_of_lt (by omega), u16_of_lt (by omega)]
      omega
    simp only [cycle_durations_loop, e]
    rw [proto_read_u32_le_ok 0 hb hlen (by omega) (by omega)]
    simp only
    rw [if_pos ⟨hslot, by show p < 8; omega⟩, ih (p + 1) _ (by omega)]
    simp only
    rw [show p + 1 + k = p + (k + 1) by omega]
    rw [fill2_step r.s_cycle_durations slot p (p + (k + 1)) (fun q => le_u32 payload (7 + 4 * q))
      (by omega)]

theorem cycle_pwm_inner_loop_eq (M : Nat) (payload : List Nat) (len voff S slot p P : Nat)
    (hb : IsBytes payload) (hlen : len ≤ payload.length) (hslot : slot < 5) (hp : p < P)
    (hP : P ≤ 8) (hS : S ≤ M) (hS8 : S < 256) (hv : voff < 1024) (hfit : voff + 4 * (P * S) ≤ len) :
    ∀ (k i : Nat) (r : Registry), i + k ≤ S →
      cycle_pwm_inner_loop M payload len voff S slot p k i r
        = some (true, { r with
            s_cycle_pose_pwm :=
              fill3row r.s_cycle_pose_pwm slot p i (i + k)
                (fun j => le_u32 payload (voff + 4 * (p * S + j))) }) := by
  intro k
  induction k with
  | zero =>
    intro i r _
    simp only [cycle_pwm_inner_loop, Nat.add_zero, fill3row_empty]
  | succ k ih =>
    intro i r hi
    have hq : p * S + i < P * S := mul_add_lt_mul hp (by omega)
    have hPS : P * S ≤ 8 * 255 := Nat.mul_le_mul hP (by omega)
    have e : u16 (u32 (voff + u32 ((p * S + i) * 4))) = voff + 4 * (p * S + i) := by
      rw [u32_of_lt (x := (p * S + i) * 4) (by omega), u32_of_lt (by omega), u16_of_lt (by omega)]
      omega
    simp only [cycle_pwm_inner_loop, e]
    rw [proto_read_u32_le_ok 0 hb hlen (by omega) (by omega)]
    simp only
    rw [if_pos ⟨hslot, by show p < 8; omega, by omega⟩, ih (i + 1) _ (by omega)]
    simp only
    rw [show i + 1 + k = i + (k + 1) by omega]
    rw [fill3row_step r.s_cycle_pose_pwm slot p i (i + (k + 1))
      (fun j => le_u32 payload (voff + 4 * (p * S + j))) (by omega)]

theorem cycle_pwm_loop_eq (M : Nat) (payload : List Nat) (len voff S slot P : Nat)
    (hb : IsBytes payload) (hlen : len ≤ payload.length) (hslot : slot < 5)
    (hP : P ≤ 8) (hS : S ≤ M) (hS8 : S < 256) (hv : voff < 1024) (hfit : voff + 4 * (P * S) ≤ len) :
    ∀ (k p : Nat) (r : Registry), p + k ≤ P →
      cycle_pwm_loop M payload len voff S slot k p r
        = some (true, { r with
            s_cycle_pose_pwm :=
              fill3 r.s_cycle_pose_pwm slot p (p + k) S
                (fun q j => le_u32 payload (voff + 4 * (q * S + j)))
            s_cycle_pose_pwm_ptrs :=
              fill2 r.s_cycle_pose_pwm_ptrs slot p (p + k) (fun q => some (slot, q)) }) := by
  intro k
  induction k with
  | zero =>
    intro p r _
    simp only [cycle_pwm_loop, Nat.add_zero, fill2_empty, fill3_empty]
  | succ k ih =>
    intro p r hp
    simp only [cycle_pwm_loop]
    rw [if_pos ⟨hslot, by show p < 8; omega⟩,
      cycle_pwm_inner_loop_eq M payload len voff S slot p P hb hlen hslot (by omega) hP hS hS8 hv
        hfit S 0 _ (by omega)]
    simp only
    rw [ih (p + 1) _ (by omega)]
    simp only [Nat.zero_add]
    rw [show p + 1 + k = p + (k + 1) by omega]
    rw [fill2_step r.s_cycle_pose_pwm_ptrs slot p (p + (k + 1)) (fun q => some (slot, q)) (by omega),
      fill3_step r.s_cycle_pose_pwm slot p (p + (k + 1)) S
        (fun q j => le_u32 payload (voff + 4 * (q * S + j))) (by omega)]

theorem cycle_angle_inner_loop_eq (M : Nat) (payload : List Nat) (len voff S slot p P : Nat)
    (hb : IsBytes payload) (hlen : len ≤ payload.length) (hslot : slot < 5) (hp : p < P)
    (hP : P ≤ 8) (hS : S ≤ M) (hS8 : S < 256) (hv : voff < 1024) (hfit : voff + 4 * (P * S) ≤ len) :
    ∀ (k i : Nat) (r : Registry), i + k ≤ S →
      cycle_angle_inner_loop M payload len voff S slot p k i r
        = some (true, { r with
            s_cycle_pose_angle :=
              fill3row r.s_cycle_pose_angle slot p i (i + k)
                (fun j => le_u32 payload (voff + 4 * (p * S + j))) }) := by
  intro k
  induction k with
  | zero =>
    intro i r _
    simp only [cycle_angle_inner_loop, Nat.add_zero, fill3row_empty]
  | succ k ih =>
    intro i r hi
    have hq : p * S + i < P * S := mul_add_lt_mul hp (by omega)
    have hPS : P * S ≤ 8 * 255 := Nat.mul_le_mul hP (by omega)
    have e : u16 (u32 (voff + u32 ((p * S + i) * 4))) = voff + 4 * (p * S + i) := by
      rw [u32_of_lt (x := (p * S + i) * 4) (by omega), u32_of_lt (by omega), u16_of_lt (by omega)]
      omega
    simp only [cycle_angle_inner_loop, e]
    rw [proto_read_f32_le_ok 0 hb hlen (by omega) (by omega)]
    simp only
    rw [if_pos ⟨hslot, by show p < 8; omega, by omega⟩, ih (i + 1) _ (by omega)]
    simp only
    rw [show i + 1 + k = i + (k + 1) by omega]
    rw [fill3row_step r.s_cycle_pose_angle slot p i (i + (k + 1))
      (fun j => le_u32 payload (voff + 4 * (p * S + j))) (by omega)]

theorem cycle_angle_loop_eq (M : Nat) (payload : List Nat) (len voff S slot P : Nat)
    (hb : IsBytes payload) (hlen : len ≤ payload.length) (hslot : slot < 5)
    (hP : P ≤ 8) (hS : S ≤ M) (hS8 : S < 256) (hv : voff < 1024) (hfit : voff + 4 * (P * S) ≤ len) :
    ∀ (k p : Nat) (r : Registry), p + k ≤ P →
      cycle_angle_loop M payload len voff S slot k p r
        = some (true, { r with
            s_cycle_pose_angle :=
              fill3 r.s_cycle_pose_angle slot p (p + k) S
                (fun q j => le_u32 payload (voff + 4 * (q * S + j)))
            s_cycle_pose_angle_ptrs :=
              fill2 r.s_cycle_pose_angle_ptrs slot p (p + k) (fun q => some (slot, q)) }) := by
  intro k
  induction k with
  | zero =>
    intro p r _
    simp only [cycle_angle_loop, Nat.add_zero, fill2_empty, fill3_empty]
  | succ k ih =>
    intro p r hp
    simp only [cycle_angle_loop]
    rw [if_pos ⟨hslot, by show p < 8; omega⟩,
      cycle_angle_inner_loop_eq M payload len voff S slot p P hb hlen hslot (by omega) hP hS hS8 hv
        hfit S 0 _ (by omega)]
    simp only
    rw [ih (p + 1) _ (by omega)]
    simp only [Nat.zero_add]
    rw [show p + 1 + k = p + (k + 1) by omega]
    rw [fill2_step r.s_cycle_pose_angle_ptrs slot p (p + (k + 1)) (fun q => some (slot, q)) (by omega),
      fill3_step r.s_cycle_pose_angle slot p (p + (k + 1)) S
        (fun q j => le_u32 payload (voff + 4 * (q * S + j))) (by omega)]

theorem cycle_create_header_eq (M : Nat) (payload : List Nat) (len : Nat) (hb : IsBytes payload)
    (hlen : len ≤ payload.length) :
    cycle_create_header M payload len
      = if CreateValid M payload len then some (some (create_layout payload)) else some none := by
  by_cases h7 : len < 7
  · simp only [cycle_create_header, if_pos h7]
    rw [if_neg (fun h => by have := h.1; omega)]
  · have hS := getD_of_bytes hb 1
    have hP := getD_of_bytes hb 2
    simp only [cycle_create_header, if_neg h7]
    rw [getElem?_eq_some_getD (i := 0) (by omega), getElem?_eq_some_getD (i := 1) (by omega),
      getElem?_eq_some_getD (i := 2) (by omega)]
    simp only
    rw [proto_read_u32_le_ok 0 hb hlen (by omega) (by omega)]
    simp only [CreateValid, PROTO_CYCLE_MAX_POSE, create_layout]
    by_cases hz : payload.getD 1 0 = 0 ∨ payload.getD 2 0 = 0
    · rw [if_pos hz, if_neg (by omega)]
    · rw [if_neg hz]
      by_cases hm : payload.getD 1 0 > M ∨ payload.getD 2 0 > 8
      · rw [if_pos hm, if_neg (by omega)]
      · rw [if_neg hm]
        have hPS : payload.getD 2 0 * payload.getD 1 0 ≤ 8 * 255 :=
          Nat.mul_le_mul (by omega) (by omega)
        have e1 : u16 (u32 (7 + u32 (payload.getD 2 0 * 4))) = 7 + 4 * payload.getD 2 0 := by
          rw [u32_of_lt (x := payload.getD 2 0 * 4) (by omega), u32_of_lt (by omega),
            u16_of_lt (by omega)]
          omega
        have e2 : u16 (7 + 4 * payload.getD 2 0 + payload.getD 1 0)
            = 7 + 4 * payload.getD 2 0 + payload.getD 1 0 := u16_of_lt (by omega)
        have e3 : u16 (u32 (payload.getD 2 0 * payload.getD 1 0 * 4))
            = 4 * (payload.getD 2 0 * payload.getD 1 0) := by
          rw [u32_of_lt (by omega), u16_of_lt (by omega)]
          omega
        have e4 : u16 (7 + 4 * payload.getD 2 0 + payload.getD 1 0
              + 4 * (payload.getD 2 0 * payload.getD 1 0))
            = 7 + 4 * payload.getD 2 0 + payload.getD 1 0
              + 4 * (payload.getD 2 0 * payload.getD 1 0) := u16_of_lt (by omega)
        simp only [e1, e2, e3, e4]
        by_cases ht : 7 + 4 * payload.getD 2 0 + payload.getD 1 0
            + 4 * (payload.getD 2 0 * payload.getD 1 0) > len
        · rw [if_pos ht, if_neg (by omega)]
        · rw [if_neg ht, if_pos ⟨by omega, by omega, by omega, by omega, by omega, by omega⟩]

theorem find_free_cycle_slot_cases (r : Registry) :
    ((∀ i, i < 5 → r.s_cycle_used i ≠ 0) ∧ find_free_cycle_slot r = -1)
    ∨ ∃ s, s < 5 ∧ r.s_cycle_used s = 0 ∧ (∀ j, j < s → r.s_cycle_used j ≠ 0)
        ∧ find_free_cycle_slot r = (s : Int) := by
  simp only [find_free_cycle_slot, PROTO_CYCLE_MAX_SLOT, find_free_cycle_slot_loop, Nat.zero_add]
  by_cases h0 : r.s_cycle_used 0 = 0
  · exact Or.inr ⟨0, by omega, h0, fun j hj => by omega, by rw [if_pos h0]⟩
  rw [if_neg h0]
  by_cases h1 : r.s_cycle_used 1 = 0
  · refine Or.inr ⟨1, by omega, h1, fun j hj => ?_, by rw [if_pos h1]⟩
    have : j = 0 := by omega
    subst this; exact h0
  rw [if_neg h1]
  by_cases h2 : r.s_cycle_used 2 = 0
  · refine Or.inr ⟨2, by omega, h2, fun j hj => ?_, by rw [if_pos h2]⟩
    have : j = 0 ∨ j = 1 := by omega
    rcases this with e | e <;> subst e <;> assumption
  rw [if_neg h2]
  by_cases h3 : r.s_cycle_used 3 = 0
  · refine Or.inr ⟨3, by omega, h3, fun j hj => ?_, by rw [if_pos h3]⟩
    have : j = 0 ∨ j = 1 ∨ j = 2 := by omega
    rcases this with e | e | e <;> subst e <;> assumption
  rw [if_neg h3]
  by_cases h4 : r.s_cycle_used 4 = 0
  · refine Or.inr ⟨4, by omega, h4, fun j hj => ?_, by rw [if_pos h4]⟩
    have : j = 0 ∨ j = 1 ∨ j = 2 ∨ j = 3 := by omega
    rcases this with e | e | e | e <;> subst e <;> assumption
  rw [if_neg h4]
  refine Or.inl ⟨fun i hi => ?_, rfl⟩
  have : i = 0 ∨ i = 1 ∨ i = 2 ∨ i = 3 ∨ i = 4 := by omega
  rcases this with e | e | e | e | e <;> subst e <;> assumption

theorem protocol_send_state_one (env : Env) (w : World) (cmd b : Nat) :
    protocol_send_state env w cmd (some [b]) 1
      = some (env.tf_uart_port_send_frame PROTO_TYPE_STATE [cmd, b] 2,
          w.call (Call.tf_uart_port_send_frame PROTO_TYPE_STATE [cmd, b] 2)) := by
  rfl

theorem cycle_create_finish_eq (env : Env) (w : World) (r : Registry) (slot : Nat)
    (h : CycleHeader) :
    cycle_create_finish env w r slot h
      = if env.motion_cycle_create (cycle_create_args r slot h) < 0
            ∨ env.motion_cycle_create (cycle_create_args r slot h) ≥ 5
        then some (false,
          { reg := release_cycle_slot r slot
            calls := w.calls ++ [Call.motion_cycle_create (cycle_create_args r slot h)] })
        else some (true,
          { reg :=
              { r with
                s_cycle_slot_of_index :=
                  upd1 r.s_cycle_slot_of_index
                    (env.motion_cycle_create (cycle_create_args r slot h)).toNat slot }
            calls := w.calls ++ [Call.motion_cycle_create (cycle_create_args r slot h),
              Call.tf_uart_port_send_frame PROTO_TYPE_STATE
                [STATE_CMD_MOTION_CYCLE, (env.motion_cycle_create (cycle_create_args r slot h)).toNat]
                2] }) := by
  simp only [cycle_create_finish, PROTO_CYCLE_MAX_SLOT, Nat.cast_ofNat]
  by_cases hk : env.motion_cycle_create (cycle_create_args r slot h) < 0
      ∨ env.motion_cycle_create (cycle_create_args r slot h) ≥ 5
  · rw [if_pos hk, if_pos hk]
  · rw [if_neg hk, if_neg hk]
    have e : u8 (env.motion_cycle_create (cycle_create_args r slot h)).toNat
        = (env.motion_cycle_create (cycle_create_args r slot h)).toNat := u8_of_lt (by omega)
    rw [e]
    have e2 : buf_write (List.replicate 1 0) 0
        (env.motion_cycle_create (cycle_create_args r slot h)).toNat
        = some [(env.motion_cycle_create (cycle_create_args r slot h)).toNat] := rfl
    rw [e2]
    simp only [protocol_send_state_one, World.call, List.append_assoc, List.singleton_append]

theorem cycle_create_body_eq (M : Nat) (env : Env) (w : World) (payload : List Nat) (len s : Nat)
    (hb : IsBytes payload) (hlen : len ≤ payload.length) (hv : CreateValid M payload len)
    (hs : FirstFree w.reg s) :
    cycle_create_body M env w payload len (create_layout payload)
      = if payload.getD 0 0 = 0 then
          cycle_create_finish env w (staged_pwm w.reg payload s) s (create_layout payload)
        else if payload.getD 0 0 = 1 then
          cycle_create_finish env w (staged_angle w.reg payload s) s (create_layout payload)
        else some (false, { w with reg := release_cycle_slot (staged_header w.reg payload s) s }) := by
  obtain ⟨h7, hS1, hSM, hP1, hP8, htot⟩ := hv
  obtain ⟨hs5, hs0, hsj⟩ := hs
  have hS := getD_of_bytes hb 1
  have hPS : payload.getD 2 0 * payload.getD 1 0 ≤ 8 * 255 := Nat.mul_le_mul hP8 (by omega)
  have hfree : find_free_cycle_slot w.reg = (s : Int) := by
    rcases find_free_cycle_slot_cases w.reg with ⟨hall, _⟩ | ⟨t, ht5, ht0, htj, hft⟩
    · exact absurd hs0 (hall s hs5)
    · have : t = s := by
        rcases Nat.lt_trichotomy t s with h | h | h
        · exact absurd ht0 (hsj t h)
        · exact h
        · exact absurd hs0 (htj s h)
      rw [hft, this]
  simp only [cycle_create_body, hfree, create_layout, Int.toNat_ofNat]
  rw [if_neg (by omega), if_pos (show s < PROTO_CYCLE_MAX_SLOT from hs5)]
  rw [cycle_ids_loop_eq M payload _ s hs5 _ 0 _ (by omega) (by omega)]
  simp only
  rw [cycle_durations_loop_eq payload len s (payload.getD 2 0) hb hlen hs5 hP8 (by omega)
    _ 0 _ (by omega)]
  simp only [Nat.zero_add]
  by_cases hm0 : payload.getD 0 0 = 0
  · rw [if_pos hm0, if_pos hm0]
    rw [cycle_pwm_loop_eq M payload len _ (payload.getD 1 0) s (payload.getD 2 0) hb hlen hs5 hP8
      hSM hS (by omega) (by omega) _ 0 _ (by omega)]
    simp only [Nat.zero_add]
    rfl
  · rw [if_neg hm0, if_neg hm0]
    by_cases hm1 : payload.getD 0 0 = 1
    · rw [if_pos hm1, if_pos hm1]
      rw [cycle_angle_loop_eq M payload len _ (payload.getD 1 0) s (payload.getD 2 0) hb hlen hs5
        hP8 hSM hS (by omega) (by omega) _ 0 _ (by omega)]
      simp only [Nat.zero_add]
      rfl
    · rw [if_neg hm1, if_neg hm1]
      rfl

/-! ## The motion-cycle registry: `CREATE` and `RELEASE` -/

theorem create_handle_eq (M : Nat) (env : Env) (w : World) (payload : List Nat) (len : Nat)
    (hb : IsBytes payload) (hlen : len ≤ payload.length) :
    protocol_motion_cycle_handle M env w CYCLE_CMD_CREATE payload len
      = if CreateValid M payload len
        then cycle_create_body M env w payload len (create_layout payload)
        else some (false, w) := by
  simp only [protocol_motion_cycle_handle, if_true, cycle_create_header_eq M payload len hb hlen]
  by_cases hv : CreateValid M payload len
  · rw [if_pos hv, if_pos hv]
  · rw [if_neg hv, if_neg hv]

theorem cycle_create_body_full (M : Nat) (env : Env) (w : World) (payload : List Nat) (len : Nat)
    (h : CycleHeader) (hfull : ∀ i, i < 5 → w.reg.s_cycle_used i ≠ 0) :
    cycle_create_body M env w payload len h = some (false, w) := by
  have hfree : find_free_cycle_slot w.reg = -1 := by
    rcases find_free_cycle_slot_cases w.reg with ⟨_, hf⟩ | ⟨t, ht5, ht0, _, _⟩
    · exact hf
    · exact absurd ht0 (hfull t ht5)
  simp only [cycle_create_body, hfree]
  rw [if_pos (by omega)]

theorem find_free_congr {r1 r2 : Registry} (h : r1.s_cycle_used = r2.s_cycle_used) :
    find_free_cycle_slot r1 = find_free_cycle_slot r2 := by
  simp only [find_free_cycle_slot, h]

theorem release_restores_used (r r2 : Registry) (s : Nat) (hs : FirstFree r s)
    (hu : r2.s_cycle_used = upd1 r.s_cycle_used s 1) :
    (release_cycle_slot r2 s).s_cycle_used = r.s_cycle_used := by
  obtain ⟨hs5, hs0, _⟩ := hs
  simp only [release_cycle_slot, PROTO_CYCLE_MAX_SLOT]
  rw [if_neg (by omega)]
  funext j
  simp only [hu, upd1]
  by_cases hj : j = s
  · rw [if_pos hj, hj, hs0]
  · rw [if_neg hj, if_neg hj]

theorem release_keeps_index (r2 : Registry) (s : Nat) :
    (release_cycle_slot r2 s).s_cycle_slot_of_index = r2.s_cycle_slot_of_index := by
  simp only [release_cycle_slot]
  split <;> rfl

/-- The possible courses of a `CREATE`: rejected with the world untouched
(header or length check failed, or no slot free), or a slot `s` was allocated
and the call ended in the engine call or in the invalid-mode release. -/
theorem create_outcomes (M : Nat) (env : Env) (w : World) (payload : List Nat) (len : Nat)
    (hb : IsBytes payload) (hlen : len ≤ payload.length) :
    protocol_motion_cycle_handle M env w CYCLE_CMD_CREATE payload len = some (false, w)
    ∨ ∃ s, FirstFree w.reg s ∧ CreateValid M payload len ∧
        ((payload.getD 0 0 = 0 ∧
            protocol_motion_cycle_handle M env w CYCLE_CMD_CREATE payload len
              = cycle_create_finish env w (staged_pwm w.reg payload s) s (create_layout payload))
          ∨ (payload.getD 0 0 = 1 ∧
            protocol_motion_cycle_handle M env w CYCLE_CMD_CREATE payload len
              = cycle_create_finish env w (staged_angle w.reg payload s) s (create_layout payload))
          ∨ (1 < payload.getD 0 0 ∧
            protocol_motion_cycle_handle M env w CYCLE_CMD_CREATE payload len
              = some (false, { w with reg := release_cycle_slot (staged_header w.reg payload s) s }))) := by
  rw [create_handle_eq M env w payload len hb hlen]
  by_cases hv : CreateValid M payload len
  · rw [if_pos hv]
    rcases find_free_cycle_slot_cases w.reg with ⟨hall, _⟩ | ⟨s, hs5, hs0, hsj, _⟩
    · exact Or.inl (cycle_create_body_full M env w payload len _ hall)
    · refine Or.inr ⟨s, ⟨hs5, hs0, hsj⟩, hv, ?_⟩
      rw [cycle_create_body_eq M env w payload len s hb hlen hv ⟨hs5, hs0, hsj⟩]
      by_cases hm0 : payload.getD 0 0 = 0
      · exact Or.inl ⟨hm0, by rw [if_pos hm0]⟩
      · by_cases hm1 : payload.getD 0 0 = 1
        · exact Or.inr (Or.inl ⟨hm1, by rw [if_neg hm0, if_pos hm1]⟩)
        · exact Or.inr (Or.inr ⟨by omega, by rw [if_neg hm0, if_neg hm1]⟩)
  · rw [if_neg hv]
    exact Or.inl rfl

theorem finish_false_restores (env : Env) (w : World) (r2 : Registry) (s : Nat) (h : CycleHeader)
    (hs : FirstFree w.reg s) (hu : r2.s_cycle_used = upd1 w.reg.s_cycle_used s 1)
    (hi : r2.s_cycle_slot_of_index = w.reg.s_cycle_slot_of_index) (w2 : World)
    (hr : cycle_create_finish env w r2 s h = some (false, w2)) :
    w2.reg.s_cycle_used = w.reg.s_cycle_used
      ∧ w2.reg.s_cycle_slot_of_index = w.reg.s_cycle_slot_of_index := by
  rw [cycle_create_finish_eq] at hr
  split at hr
  · simp only [Option.some.injEq, Prod.mk.injEq, true_and] at hr
    subst hr
    exact ⟨release_restores_used w.reg r2 s hs hu, by rw [release_keeps_index, hi]⟩
  · simp at hr

theorem finish_isSome (env : Env) (w : World) (r2 : Registry) (s : Nat) (h : CycleHeader) :
    ∃ res, cycle_create_finish env w r2 s h = some res := by
  rw [cycle_create_finish_eq]
  split
  · exact ⟨_, rfl⟩
  · exact ⟨_, rfl⟩

/-- Claim C4: every failing `CREATE` leaves the slot pool as it found it.  For
every registry, payload of bytes and engine the handler returns, and if it
returns false then every slot's used flag and the index map have their values
from before the call, also when the failure came after the slot was marked
used (invalid mode, engine index negative or `>= 5`); so the next allocation
finds the same slot. -/
theorem failing_create_restores_pool (M : Nat) (env : Env) (w : World) (payload : List Nat)
    (len : Nat) (hb : IsBytes payload) (hlen : len ≤ payload.length) :
    (∃ res, protocol_motion_cycle_handle M env w CYCLE_CMD_CREATE payload len = some res)
    ∧ ∀ w2, protocol_motion_cycle_handle M env w CYCLE_CMD_CREATE payload len = some (false, w2) →
        w2.reg.s_cycle_used = w.reg.s_cycle_used
        ∧ w2.reg.s_cycle_slot_of_index = w.reg.s_cycle_slot_of_index
        ∧ find_free_cycle_slot w2.reg = find_free_cycle_slot w.reg := by
  have key : (∃ res, protocol_motion_cycle_handle M env w CYCLE_CMD_CREATE payload len = some res)
      ∧ ∀ w2, protocol_motion_cycle_handle M env w CYCLE_CMD_CREATE payload len = some (false, w2) →
        w2.reg.s_cycle_used = w.reg.s_cycle_used
        ∧ w2.reg.s_cycle_slot_of_index = w.reg.s_cycle_slot_of_index := by
    rcases create_outcomes M env w payload len hb hlen with h | ⟨s, hs, _, h | h | h⟩
    · rw [h]
      refine ⟨⟨_, rfl⟩, fun w2 hw => ?_⟩
      simp only [Option.some.injEq, Prod.mk.injEq, true_and] at hw
      subst hw
      exact ⟨rfl, rfl⟩
    · rw [h.2]
      exact ⟨finish_isSome _ _ _ _ _, fun w2 hw =>
        finish_false_restores env w (staged_pwm w.reg payload s) s _ hs rfl rfl w2 hw⟩
    · rw [h.2]
      exact ⟨finish_isSome _ _ _ _ _, fun w2 hw =>
        finish_false_restores env w (staged_angle w.reg payload s) s _ hs rfl rfl w2 hw⟩
    · rw [h.2]
      refine ⟨⟨_, rfl⟩, fun w2 hw => ?_⟩
      simp only [Option.some.injEq, Prod.mk.injEq, true_and] at hw
      subst hw
      exact ⟨release_restores_used w.reg _ s hs rfl, release_keeps_index _ s⟩
  exact ⟨key.1, fun w2 hw => ⟨(key.2 w2 hw).1, (key.2 w2 hw).2, find_free_congr (key.2 w2 hw).1⟩⟩

/-- Claim C6: `CREATE` header and length validation is exact and free of side
effects.  With `S = payload[1]` and `P = payload[2]` the checks of lines 66-90
pass if and only if `len >= 7`, `1 <= S <= MAX_SERVOS`, `1 <= P <= 8` and
`len >= 7 + 4*P + S + 4*P*S` in the natural numbers (`CreateValid`; the 16-bit
offsets are the true values `7 + 4*P` and `7 + 4*P + S`); when they fail the
handler returns false with the world unchanged: no slot field written, no
engine call, no response; when they pass the handler goes on to the slot
allocation. -/
theorem create_validation_exact (M : Nat) (env : Env) (w : World) (payload : List Nat)
    (len : Nat) (hb : IsBytes payload) (hlen : len ≤ payload.length) :
    cycle_create_header M payload len
        = (if CreateValid M payload len then some (some (create_layout payload)) else some none)
    ∧ (¬ CreateValid M payload len →
        protocol_motion_cycle_handle M env w CYCLE_CMD_CREATE payload len = some (false, w))
    ∧ (CreateValid M payload len →
        protocol_motion_cycle_handle M env w CYCLE_CMD_CREATE payload len
          = cycle_create_body M env w payload len (create_layout payload)) := by
  refine ⟨cycle_create_header_eq M payload len hb hlen, fun hv => ?_, fun hv => ?_⟩
  · rw [create_handle_eq M env w payload len hb hlen, if_neg hv]
  · rw [create_handle_eq M env w payload len hb hlen, if_pos hv]

theorem create_good_eq (M : Nat) (env : Env) (w : World) (payload : List Nat) (len s : Nat)
    (hb : IsBytes payload) (hlen : len ≤ payload.length) (hv : CreateValid M payload len)
    (hmode : payload.getD 0 0 ≤ 1) (hs : FirstFree w.reg s) :
    protocol_motion_cycle_handle M env w CYCLE_CMD_CREATE payload len
      = cycle_create_finish env w (staged w.reg payload s) s (create_layout payload) := by
  rw [create_handle_eq M env w payload len hb hlen, if_pos hv,
    cycle_create_body_eq M env w payload len s hb hlen hv hs]
  simp only [staged]
  by_cases hm0 : payload.getD 0 0 = 0
  · rw [if_pos hm0, if_pos hm0]
  · rw [if_neg hm0, if_neg hm0, if_pos (by omega)]

theorem staged_used (r : Registry) (payload : List Nat) (s : Nat) :
    (staged r payload s).s_cycle_used = upd1 r.s_cycle_used s 1 := by
  simp only [staged]
  split <;> rfl

theorem staged_index (r : Registry) (payload : List Nat) (s : Nat) :
    (staged r payload s).s_cycle_slot_of_index = r.s_cycle_slot_of_index := by
  simp only [staged]
  split <;> rfl

theorem release_handle_eq (M : Nat) (env : Env) (w : World) (payload : List Nat) (len : Nat)
    (hb : IsBytes payload) (hlen : len ≤ payload.length) (h4 : 4 ≤ len) :
    protocol_motion_cycle_handle M env w CYCLE_CMD_RELEASE payload len
      = some (decide (env.motion_cycle_release (le_u32 payload 0) = 0),
          ({ w with reg := if le_u32 payload 0 < 5
                           then release_cycle_slot w.reg (w.reg.s_cycle_slot_of_index (le_u32 payload 0))
                           else w.reg } : World).call
            (Call.motion_cycle_release (le_u32 payload 0)
              (if le_u32 payload 0 < 5
               then release_cycle_slot w.reg (w.reg.s_cycle_slot_of_index (le_u32 payload 0))
               else w.reg))) := by
  have c1 : ¬ (CYCLE_CMD_RELEASE = CYCLE_CMD_CREATE) := by decide
  have c2 : ¬ (CYCLE_CMD_RELEASE = CYCLE_CMD_START) := by decide
  have c3 : ¬ (CYCLE_CMD_RELEASE = CYCLE_CMD_RESTART) := by decide
  have c4 : ¬ (CYCLE_CMD_RELEASE = CYCLE_CMD_PAUSE) := by decide
  simp only [protocol_motion_cycle_handle, if_neg c1, if_neg c2, if_neg c3, if_neg c4, if_true,
    proto_read_u32_le_ok 0 hb hlen (show 0 + 4 ≤ len by omega) (by omega), PROTO_CYCLE_MAX_SLOT]

/-- Claim C5: a successful `CREATE` and the `RELEASE` that follows.  For a
registry whose lowest free slot is `s`, a valid payload with mode 0 or 1 and an
engine that returns `k < 5`: the handler returns true, its calls are the engine
call followed by exactly one transport call, the `STATE` frame `[0x06, k]`, the
index map sends `k` to `s`, slot `s` is marked used and no other flag changes;
and a `RELEASE` whose index decodes to `k`, handled next, clears the used flag of
`s` and of no other slot. -/
theorem create_then_release (M : Nat) (env : Env) (w : World) (payload : List Nat)
    (len s k : Nat) (hb : IsBytes payload) (hlen : len ≤ payload.length)
    (hv : CreateValid M payload len) (hmode : payload.getD 0 0 ≤ 1) (hs : FirstFree w.reg s)
    (hk : k < 5) (henv : ∀ a, env.motion_cycle_create a = (k : Int)) :
    ∃ w2 args,
      protocol_motion_cycle_handle M env w CYCLE_CMD_CREATE payload len = some (true, w2)
      ∧ w2.calls = w.calls ++ [Call.motion_cycle_create args,
          Call.tf_uart_port_send_frame PROTO_TYPE_STATE [0x06, k] 2]
      ∧ w2.reg.s_cycle_slot_of_index k = s
      ∧ w2.reg.s_cycle_used s = 1
      ∧ (∀ j, j ≠ s → w2.reg.s_cycle_used j = w.reg.s_cycle_used j)
      ∧ ∀ (env2 : Env) (rp : List Nat) (rlen : Nat), IsBytes rp → rlen ≤ rp.length → 4 ≤ rlen →
          le_u32 rp 0 = k →
          ∃ w3, protocol_motion_cycle_handle M env2 w2 CYCLE_CMD_RELEASE rp rlen
                  = some (decide (env2.motion_cycle_release k = 0), w3)
            ∧ w3.reg.s_cycle_used s = 0
            ∧ ∀ j, j ≠ s → w3.reg.s_cycle_used j = w2.reg.s_cycle_used j := by
  have hfin := cycle_create_finish_eq env w (staged w.reg payload s) s (create_layout payload)
  rw [henv, if_neg (by omega)] at hfin
  simp only [Int.toNat_ofNat] at hfin
  refine ⟨_, cycle_create_args (staged w.reg payload s) s (create_layout payload),
    (create_good_eq M env w payload len s hb hlen hv hmode hs).trans hfin, rfl, ?_, ?_, ?_, ?_⟩
  · simp only [upd1, if_true]
  · simp only [staged_used, upd1, if_true]
  · intro j hj
    simp only [staged_used, upd1, if_neg hj]
  · intro env2 rp rlen hrb hrlen hr4 hidx
    rw [release_handle_eq M env2 _ rp rlen hrb hrlen hr4, hidx]
    refine ⟨_, rfl, ?_, ?_⟩
    · simp only [World.call, hidx, if_pos hk, upd1, if_true, release_cycle_slot,
        PROTO_CYCLE_MAX_SLOT]
      rw [if_neg (by have := hs.1; omega)]
      simp only [upd1, if_true]
    · intro j hj
      simp only [World.call, hidx, if_pos hk, upd1, if_true, release_cycle_slot,
        PROTO_CYCLE_MAX_SLOT]
      rw [if_neg (by have := hs.1; omega)]
      simp only [upd1, if_neg hj]

theorem finish_calls (env : Env) (w : World) (r : Registry) (s : Nat) (h : CycleHeader) :
    ∃ b w2 tail, cycle_create_finish env w r s h = some (b, w2)
      ∧ w2.calls = w.calls ++ Call.motion_cycle_create (cycle_create_args r s h) :: tail := by
  rw [cycle_create_finish_eq]
  split
  · exact ⟨_, _, [], rfl, rfl⟩
  · exact ⟨_, _, _, rfl, rfl⟩

theorem staged_servo_ids (r : Registry) (payload : List Nat) (s i : Nat)
    (hi : i < payload.getD 1 0) :
    (staged r payload s).s_cycle_servo_ids s i = payload.getD (7 + 4 * payload.getD 2 0 + i) 0 := by
  have e : (staged r payload s).s_cycle_servo_ids = (staged_header r payload s).s_cycle_servo_ids := by
    simp only [staged]
    split <;> rfl
  rw [e]
  simp only [staged_header, fill2]
  rw [if_pos ⟨trivial, Nat.zero_le _, hi⟩]

theorem staged_durations (r : Registry) (payload : List Nat) (s p : Nat)
    (hp : p < payload.getD 2 0) :
    (staged r payload s).s_cycle_durations s p = le_u32 payload (7 + 4 * p) := by
  have e : (staged r payload s).s_cycle_durations = (staged_header r payload s).s_cycle_durations := by
    simp only [staged]
    split <;> rfl
  rw [e]
  simp only [staged_header, fill2]
  rw [if_pos ⟨trivial, Nat.zero_le _, hp⟩]

theorem staged_pwm_view (r : Registry) (payload : List Nat) (s p : Nat)
    (hp : p < payload.getD 2 0) :
    ∃ row, deref_rows ((staged_pwm r payload s).s_cycle_pose_pwm_ptrs s)
        (staged_pwm r payload s).s_cycle_pose_pwm p = some row
      ∧ ∀ i, i < payload.getD 1 0 → row i = create_value payload p i := by
  refine ⟨(staged_pwm r payload s).s_cycle_pose_pwm s p, ?_, fun i hi => ?_⟩
  · simp only [deref_rows, staged_pwm, fill2]
    rw [if_pos ⟨trivial, Nat.zero_le _, hp⟩]
    rfl
  · simp only [staged_pwm, fill3]
    rw [if_pos ⟨trivial, Nat.zero_le _, hp, hi⟩]

theorem staged_angle_view (r : Registry) (payload : List Nat) (s p : Nat)
    (hp : p < payload.getD 2 0) :
    ∃ row, deref_rows ((staged_angle r payload s).s_cycle_pose_angle_ptrs s)
        (staged_angle r payload s).s_cycle_pose_angle p = some row
      ∧ ∀ i, i < payload.getD 1 0 → row i = create_value payload p i := by
  refine ⟨(staged_angle r payload s).s_cycle_pose_angle s p, ?_, fun i hi => ?_⟩
  · simp only [deref_rows, staged_angle, fill2]
    rw [if_pos ⟨trivial, Nat.zero_le _, hp⟩]
    rfl
  · simp only [staged_angle, fill3]
    rw [if_pos ⟨trivial, Nat.zero_le _, hp, hi⟩]

/-- Claim C7: the engine is handed the decoded payload.  For a valid `CREATE`
payload with mode 0 or 1 and a free slot, `motion_cycle_create` is called with
`servo_count = S`, `pose_count = P`, `max_loops` the little-endian word at
offset 3, `servo_ids[i] = payload[7 + 4*P + i]` for `i < S`, `durations[p]` the
word at `7 + 4*p` for `p < P`, and the view that matches the mode (PWM for 0,
angle for 1; the other one `NULL`) whose row `p` holds at `i` the word at
`7 + 4*P + S + 4*(p*S + i)`. -/
theorem create_engine_arguments (M : Nat) (env : Env) (w : World) (payload : List Nat)
    (len s : Nat) (hb : IsBytes payload) (hlen : len ≤ payload.length)
    (hv : CreateValid M payload len) (hmode : payload.getD 0 0 ≤ 1) (hs : FirstFree w.reg s) :
    ∃ b w2 args tail,
      protocol_motion_cycle_handle M env w CYCLE_CMD_CREATE payload len = some (b, w2)
      ∧ w2.calls = w.calls ++ Call.motion_cycle_create args :: tail
      ∧ args.servo_count = payload.getD 1 0
      ∧ args.pose_count = payload.getD 2 0
      ∧ args.max_loops = le_u32 payload 3
      ∧ (∀ i, i < payload.getD 1 0 →
          args.servo_ids i = payload.getD (7 + 4 * payload.getD 2 0 + i) 0)
      ∧ (∀ p, p < payload.getD 2 0 → args.durations p = le_u32 payload (7 + 4 * p))
      ∧ (payload.getD 0 0 = 0 →
          args.pose_angle = none ∧ ∃ view, args.pose_pwm = some view ∧
            ∀ p, p < payload.getD 2 0 → ∃ row, view p = some row ∧
              ∀ i, i < payload.getD 1 0 →
                row i = le_u32 payload (7 + 4 * payload.getD 2 0 + payload.getD 1 0
                          + 4 * (p * payload.getD 1 0 + i)))
      ∧ (payload.getD 0 0 = 1 →
          args.pose_pwm = none ∧ ∃ view, args.pose_angle = some view ∧
            ∀ p, p < payload.getD 2 0 → ∃ row, view p = some row ∧
              ∀ i, i < payload.getD 1 0 →
                row i = le_u32 payload (7 + 4 * payload.getD 2 0 + payload.getD 1 0
                          + 4 * (p * payload.getD 1 0 + i))) := by
  obtain ⟨b, w2, tail, hres, hcalls⟩ :=
    finish_calls env w (staged w.reg payload s) s (create_layout payload)
  refine ⟨b, w2, cycle_create_args (staged w.reg payload s) s (create_layout payload), tail,
    (create_good_eq M env w payload len s hb hlen hv hmode hs).trans hres, hcalls, rfl, rfl, rfl,
    fun i hi => staged_servo_ids w.reg payload s i hi,
    fun p hp => staged_durations w.reg payload s p hp, fun hm0 => ?_, fun hm1 => ?_⟩
  · have e : staged w.reg payload s = staged_pwm w.reg payload s := by
      simp only [staged, if_pos hm0]
    rw [e]
    refine ⟨?_, _, ?_, fun p hp => staged_pwm_view w.reg payload s p hp⟩
    · simp only [cycle_create_args, create_layout, hm0]
      rfl
    · simp only [cycle_create_args, create_layout, hm0, if_true]
  · have e : staged w.reg payload s = staged_angle w.reg payload s := by
      simp only [staged]
      rw [if_neg (by omega)]
    rw [e]
    refine ⟨?_, _, ?_, fun p hp => staged_angle_view w.reg payload s p hp⟩
    · simp only [cycle_create_args, create_layout, hm1]
      rfl
    · simp only [cycle_create_args, create_layout, hm1, if_true]

theorem finish_true_used (env : Env) (w : World) (r2 : Registry) (s : Nat) (h : CycleHeader)
    (w2 : World) (hr : cycle_create_finish env w r2 s h = some (true, w2)) :
    w2.reg.s_cycle_used = r2.s_cycle_used := by
  rw [cycle_create_finish_eq] at hr
  split at hr
  · simp at hr
  · simp only [Option.some.injEq, Prod.mk.injEq, true_and] at hr
    subst hr
    rfl

theorem good_create_step (M : Nat) (env : Env) (w : World) (payload : List Nat) (len s : Nat)
    (hg : GoodCreate M env payload len) (hs : FirstFree w.reg s) :
    ∃ w2, protocol_motion_cycle_handle M env w CYCLE_CMD_CREATE payload len = some (true, w2)
      ∧ w2.reg.s_cycle_used = upd1 w.reg.s_cycle_used s 1 := by
  obtain ⟨hb, hlen, hv, hmode, henv⟩ := hg
  have hfin := cycle_create_finish_eq env w (staged w.reg payload s) s (create_layout payload)
  rw [if_neg (by have := henv (cycle_create_args (staged w.reg payload s) s (create_layout payload)); omega)]
    at hfin
  exact ⟨_, (create_good_eq M env w payload len s hb hlen hv hmode hs).trans hfin,
    staged_used w.reg payload s⟩

theorem prefix_create_step (M : Nat) (env : Env) (w : World) (payload : List Nat) (len i : Nat)
    (hi : i < 5) (hu : w.reg.s_cycle_used = fun j => if j < i then 1 else 0)
    (hg : GoodCreate M env payload len) :
    ∃ w2, protocol_motion_cycle_handle M env w CYCLE_CMD_CREATE payload len = some (true, w2)
      ∧ w2.reg.s_cycle_used = fun j => if j < i + 1 then 1 else 0 := by
  have hs : FirstFree w.reg i := by
    refine ⟨hi, ?_, fun j hj => ?_⟩
    · rw [hu]; simp only [lt_self_iff_false, if_false]
    · rw [hu]; simp only [if_pos hj]; omega
  obtain ⟨w2, h1, h2⟩ := good_create_step M env w payload len i hg hs
  refine ⟨w2, h1, ?_⟩
  rw [h2, hu]
  funext j
  simp only [upd1]
  by_cases hj : j = i
  · rw [if_pos hj, if_pos (by omega)]
  · rw [if_neg hj]
    by_cases hl : j < i
    · rw [if_pos hl, if_pos (by omega)]
    · rw [if_neg hl, if_neg (by omega)]

/-- Claim C2: slot allocation is first-fit ascending.  (1) A `CREATE` that
returns true has marked used the lowest-numbered slot that was free and has
changed no other used flag.  (2) From the empty registry five accepted
`CREATE`s, the engine answering a valid index each time, occupy slots 0, 1, 2,
3, 4 in that order.  (3) A `CREATE` issued when all five slots are used returns
false and leaves the world as it was: no engine call, no state frame, used
flags and index map unchanged. -/
theorem first_fit_allocation (M : Nat) :
    (∀ (env : Env) (w : World) (payload : List Nat) (len : Nat) (w2 : World),
        IsBytes payload → len ≤ payload.length →
        protocol_motion_cycle_handle M env w CYCLE_CMD_CREATE payload len = some (true, w2) →
        ∃ s, FirstFree w.reg s ∧ w2.reg.s_cycle_used s = 1
          ∧ ∀ j, j ≠ s → w2.reg.s_cycle_used j = w.reg.s_cycle_used j)
    ∧ (∀ (e1 e2 e3 e4 e5 : Env) (p1 p2 p3 p4 p5 : List Nat) (l1 l2 l3 l4 l5 : Nat),
        GoodCreate M e1 p1 l1 → GoodCreate M e2 p2 l2 → GoodCreate M e3 p3 l3 →
        GoodCreate M e4 p4 l4 → GoodCreate M e5 p5 l5 →
        ∃ w1 w2 w3 w4 w5,
          protocol_motion_cycle_handle M e1 World.init CYCLE_CMD_CREATE p1 l1 = some (true, w1)
          ∧ (w1.reg.s_cycle_used = fun j => if j < 1 then 1 else 0)
          ∧ protocol_motion_cycle_handle M e2 w1 CYCLE_CMD_CREATE p2 l2 = some (true, w2)
          ∧ (w2.reg.s_cycle_used = fun j => if j < 2 then 1 else 0)
          ∧ protocol_motion_cycle_handle M e3 w2 CYCLE_CMD_CREATE p3 l3 = some (true, w3)
          ∧ (w3.reg.s_cycle_used = fun j => if j < 3 then 1 else 0)
          ∧ protocol_motion_cycle_handle M e4 w3 CYCLE_CMD_CREATE p4 l4 = some (true, w4)
          ∧ (w4.reg.s_cycle_used = fun j => if j < 4 then 1 else 0)
          ∧ protocol_motion_cycle_handle M e5 w4 CYCLE_CMD_CREATE p5 l5 = some (true, w5)
          ∧ (w5.reg.s_cycle_used = fun j => if j < 5 then 1 else 0))
    ∧ (∀ (env : Env) (w : World) (payload : List Nat) (len : Nat),
        IsBytes payload → len ≤ payload.length → (∀ i, i < 5 → w.reg.s_cycle_used i ≠ 0) →
        protocol_motion_cycle_handle M env w CYCLE_CMD_CREATE payload len = some (false, w)) := by
  refine ⟨?_, ?_, ?_⟩
  · intro env w payload len w2 hb hlen hres
    rcases create_outcomes M env w payload len hb hlen with h | ⟨s, hs, _, h | h | h⟩
    · rw [h] at hres
      simp at hres
    · rw [h.2] at hres
      have hu := finish_true_used env w (staged_pwm w.reg payload s) s _ w2 hres
      refine ⟨s, hs, ?_, fun j hj => ?_⟩
      · rw [hu]; simp only [staged_pwm, staged_header, upd1, if_true]
      · rw [hu]; simp only [staged_pwm, staged_header, upd1, if_neg hj]
    · rw [h.2] at hres
      have hu := finish_true_used env w (staged_angle w.reg payload s) s _ w2 hres
      refine ⟨s, hs, ?_, fun j hj => ?_⟩
      · rw [hu]; simp only [staged_angle, staged_header, upd1, if_true]
      · rw [hu]; simp only [staged_angle, staged_header, upd1, if_neg hj]
    · rw [h.2] at hres
      simp at hres
  · intro e1 e2 e3 e4 e5 p1 p2 p3 p4 p5 l1 l2 l3 l4 l5 g1 g2 g3 g4 g5
    have h0 : World.init.reg.s_cycle_used = fun j => if j < 0 then 1 else 0 := by
      funext j
      simp only [World.init, Registry.init, Nat.not_lt_zero, if_false]
    obtain ⟨w1, a1, u1⟩ := prefix_create_step M e1 World.init p1 l1 0 (by omega) h0 g1
    obtain ⟨w2, a2, u2⟩ := prefix_create_step M e2 w1 p2 l2 1 (by omega) u1 g2
    obtain ⟨w3, a3, u3⟩ := prefix_create_step M e3 w2 p3 l3 2 (by omega) u2 g3
    obtain ⟨w4, a4, u4⟩ := prefix_create_step M e4 w3 p4 l4 3 (by omega) u3 g4
    obtain ⟨w5, a5, u5⟩ := prefix_create_step M e5 w4 p5 l5 4 (by omega) u4 g5
    exact ⟨w1, w2, w3, w4, w5, a1, u1, a2, u2, a3, u3, a4, u4, a5, u5⟩
  · intro env w payload len hb hlen hfull
    rw [create_handle_eq M env w payload len hb hlen]
    split
    · exact cycle_create_body_full M env w payload len _ hfull
    · rfl

/-- Claim C3, evaluated on the code: from the initial registry a `CREATE` for
which the engine returns index 3 succeeds and occupies slot 0 (the index map
holds 0 at 3 and, never written, 0 at 1); the `RELEASE` of index 1, which no
`CREATE` ever returned, then clears the used flag of slot 0. -/
theorem release_of_unmapped_index_frees_slot :
    ((protocol_motion_cycle_handle 6 (Env.sample 3) World.init CYCLE_CMD_CREATE sample_create 33).bind
      fun r1 =>
        (protocol_motion_cycle_handle 6 (Env.sample 3) r1.2 CYCLE_CMD_RELEASE [1, 0, 0, 0] 4).map
          fun r2 => (r1.1, r1.2.reg.s_cycle_used 0, r1.2.reg.s_cycle_slot_of_index 3,
                      r2.1, r2.2.reg.s_cycle_used 0))
      = some (true, 1, 0, true, 0) := by
  decide

theorem sample_good (k : Nat) (hk : k < 5) : GoodCreate 6 (Env.sample k) sample_create 33 :=
  ⟨by decide, by decide, by decide, by decide, fun _ => ⟨Int.ofNat_nonneg k, by
    show (k : Int) < 5
    omega⟩⟩

theorem firstFree_init : FirstFree World.init.reg 0 :=
  ⟨by decide, rfl, fun j hj => absurd hj (Nat.not_lt_zero j)⟩

theorem first_fit_allocation_witness :
    GoodCreate 6 (Env.sample 3) sample_create 33
    ∧ ∃ w1 w2 w3 w4 w5,
        protocol_motion_cycle_handle 6 (Env.sample 3) World.init CYCLE_CMD_CREATE sample_create 33
          = some (true, w1)
        ∧ protocol_motion_cycle_handle 6 (Env.sample 3) w1 CYCLE_CMD_CREATE sample_create 33
          = some (true, w2)
        ∧ protocol_motion_cycle_handle 6 (Env.sample 3) w2 CYCLE_CMD_CREATE sample_create 33
          = some (true, w3)
        ∧ protocol_motion_cycle_handle 6 (Env.sample 3) w3 CYCLE_CMD_CREATE sample_create 33
          = some (true, w4)
        ∧ protocol_motion_cycle_handle 6 (Env.sample 3) w4 CYCLE_CMD_CREATE sample_create 33
          = some (true, w5)
        ∧ (w5.reg.s_cycle_used = fun j => if j < 5 then 1 else 0)
        ∧ protocol_motion_cycle_handle 6 (Env.sample 3) w5 CYCLE_CMD_CREATE sample_create 33
          = some (false, w5) := by
  have g := sample_good 3 (by decide)
  obtain ⟨w1, w2, w3, w4, w5, a1, _, a2, _, a3, _, a4, _, a5, u5⟩ :=
    (first_fit_allocation 6).2.1 _ _ _ _ _ _ _ _ _ _ _ _ _ _ _ g g g g g
  refine ⟨g, w1, w2, w3, w4, w5, a1, a2, a3, a4, a5, u5, ?_⟩
  refine (first_fit_allocation 6).2.2 (Env.sample 3) w5 sample_create 33 (by decide) (by decide)
    (fun i hi => ?_)
  rw [u5]
  simp only [if_pos hi]
  omega

theorem failing_create_restores_pool_witness :
    IsBytes sample_create ∧ 33 ≤ sample_create.length
    ∧ ∃ w2, protocol_motion_cycle_handle 6 (Env.sample 7) World.init CYCLE_CMD_CREATE
              sample_create 33 = some (false, w2)
        ∧ w2.reg.s_cycle_used = World.init.reg.s_cycle_used
        ∧ w2.reg.s_cycle_slot_of_index = World.init.reg.s_cycle_slot_of_index
        ∧ find_free_cycle_slot w2.reg = find_free_cycle_slot World.init.reg := by
  obtain ⟨⟨⟨b, w2⟩, hres⟩, hall⟩ :=
    failing_create_restores_pool 6 (Env.sample 7) World.init sample_create 33 (by decide)
      (by decide)
  have hb : (protocol_motion_cycle_handle 6 (Env.sample 7) World.init CYCLE_CMD_CREATE
      sample_create 33).map (fun r => r.1) = some false := by decide
  rw [hres] at hb
  simp only [Option.map_some', Option.some.injEq] at hb
  subst hb
  exact ⟨by decide, by decide, w2, hres, hall w2 hres⟩

theorem create_then_release_witness :
    IsBytes sample_create ∧ 33 ≤ sample_create.length ∧ CreateValid 6 sample_create 33
    ∧ FirstFree World.init.reg 0
    ∧ ∃ w2 args,
        protocol_motion_cycle_handle 6 (Env.sample 3) World.init CYCLE_CMD_CREATE sample_create 33
          = some (true, w2)
        ∧ w2.calls = [Call.motion_cycle_create args,
            Call.tf_uart_port_send_frame PROTO_TYPE_STATE [0x06, 0x03] 2]
        ∧ w2.reg.s_cycle_slot_of_index 3 = 0
        ∧ ∃ w3, protocol_motion_cycle_handle 6 (Env.sample 3) w2 CYCLE_CMD_RELEASE [3, 0, 0, 0] 4
                  = some (true, w3)
            ∧ w3.reg.s_cycle_used 0 = 0
            ∧ ∀ j, j ≠ 0 → w3.reg.s_cycle_used j = w2.reg.s_cycle_used j := by
  obtain ⟨w2, args, h1, h2, h3, _, _, h6⟩ :=
    create_then_release 6 (Env.sample 3) World.init sample_create 33 0 3 (by decide) (by decide)
      (by decide) (by decide) firstFree_init (by decide) (fun _ => rfl)
  obtain ⟨w3, r1, r2, r3⟩ := h6 (Env.sample 3) [3, 0, 0, 0] 4 (by decide) (by decide) (by decide)
    (by decide)
  exact ⟨by decide, by decide, by decide, firstFree_init, w2, args, h1, h2, h3, w3, r1, r2, r3⟩

theorem create_validation_exact_witness :
    IsBytes sample_create ∧ 33 ≤ sample_create.length
    ∧ CreateValid 6 sample_create 33 ∧ ¬ CreateValid 6 sample_create 32
    ∧ cycle_create_header 6 sample_create 33 = some (some (create_layout sample_create))
    ∧ protocol_motion_cycle_handle 6 (Env.sample 3) World.init CYCLE_CMD_CREATE sample_create 32
        = some (false, World.init) :=
  ⟨by decide, by decide, by decide, by decide,
   (create_validation_exact 6 (Env.sample 3) World.init sample_create 33 (by decide)
      (by decide)).1.trans (if_pos (by decide)),
   (create_validation_exact 6 (Env.sample 3) World.init sample_create 32 (by decide)
      (by decide)).2.1 (by decide)⟩

theorem create_engine_arguments_witness :
    IsBytes sample_create ∧ 33 ≤ sample_create.length ∧ CreateValid 6 sample_create 33
    ∧ sample_create.getD 0 0 ≤ 1 ∧ FirstFree World.init.reg 0
    ∧ ∃ b w2 args tail,
        protocol_motion_cycle_handle 6 (Env.sample 3) World.init CYCLE_CMD_CREATE sample_create 33
          = some (b, w2)
        ∧ w2.calls = World.init.calls ++ Call.motion_cycle_create args :: tail
        ∧ args.servo_count = 2 ∧ args.pose_count = 2 ∧ args.max_loops = 0
        ∧ args.servo_ids 0 = 4 ∧ args.servo_ids 1 = 5
        ∧ args.durations 0 = 100 ∧ args.durations 1 = 200
        ∧ args.pose_pwm = none
        ∧ ∃ view row0 row1, args.pose_angle = some view ∧ view 0 = some row0 ∧ view 1 = some row1
            ∧ row0 0 = 0x3F800000 ∧ row0 1 = 0x40000000
            ∧ row1 0 = 0x40400000 ∧ row1 1 = 0x40800000 := by
  obtain ⟨b, w2, args, tail, h1, h2, h3, h4, h5, h6, h7, _, h9⟩ :=
    create_engine_arguments 6 (Env.sample 3) World.init sample_create 33 0 (by decide) (by decide)
      (by decide) (by decide) firstFree_init
  obtain ⟨hn, view, hv, hrows⟩ := h9 (by decide)
  obtain ⟨row0, hr0, hv0⟩ := hrows 0 (by decide)
  obtain ⟨row1, hr1, hv1⟩ := hrows 1 (by decide)
  exact ⟨by decide, by decide, by decide, by decide, firstFree_init, b, w2, args, tail, h1, h2,
    h3, h4, h5.trans (by decide), (h6 0 (by decide)).trans (by decide),
    (h6 1 (by decide)).trans (by decide), (h7 0 (by decide)).trans (by decide),
    (h7 1 (by decide)).trans (by decide), hn, view, row0, row1, hv, hr0, hr1,
    (hv0 0 (by decide)).trans (by decide), (hv0 1 (by decide)).trans (by decide),
    (hv1 0 (by decide)).trans (by decide), (hv1 1 (by decide)).trans (by decide)⟩

/-! ## The type listeners -/

theorem listener_result_eq (r : Option (Bool × World)) :
    listener_result r
      = r.map (fun x => (if x.1 = true then TF_Result.TF_STAY else TF_Result.TF_NEXT, x.2)) := by
  rcases r with _ | ⟨b, w2⟩
  · rfl
  · cases b <;> rfl

theorem listener_core (handle : Nat → List Nat → Nat → Option (Bool × World)) (w : World)
    (m : TF_Msg) (hok : FrameOk (some m)) :
    (match proto_parse_cmd m.data (u16 m.len) with
      | none => none
      | some (false, _) => some (TF_Result.TF_NEXT, w)
      | some (true, cmd_view) =>
        match cmd_view.payload with
        | none => none
        | some pl => listener_result (handle cmd_view.cmd pl cmd_view.payload_len))
      = listener_spec handle w (some m) := by
  obtain ⟨h16, hd⟩ := hok m rfl
  rw [u16_of_lt h16]
  rcases hdata : m.data with _ | d
  · simp only [proto_parse_cmd, listener_spec, hdata]
  · have hl := hd d hdata
    by_cases h0 : m.len = 0
    · simp only [proto_parse_cmd, listener_spec, hdata, h0, Nat.lt_one_iff, if_true]
    · simp only [proto_parse_cmd, listener_spec, hdata, h0, Nat.lt_one_iff, if_false]
      rw [getElem?_eq_some_getD (i := 0) (by omega)]
      simp only
      rw [u16_of_lt (by omega), listener_result_eq]

/-- Claim C10: each of the six type listeners (sys, servo, motion, arm, config,
motion-cycle) behaves as `listener_spec` says for its family handler: a missing
frame, missing data or an empty payload gives `TF_NEXT` without running the
handler; otherwise the handler runs once with `cmd = data[0]`, `payload =
data[1..]` and `payload_len = len - 1`, and the listener returns `TF_STAY` if
and only if the handler returned true. -/
theorem listeners_dispatch (M J : Nat) (env : Env) (w : World) (msg : Option TF_Msg)
    (hok : FrameOk msg) :
    protocol_sys_listener env w msg = listener_spec (protocol_sys_handle env w) w msg
    ∧ protocol_servo_listener M env w msg = listener_spec (protocol_servo_handle M env w) w msg
    ∧ protocol_motion_listener M env w msg = listener_spec (protocol_motion_handle M env w) w msg
    ∧ protocol_arm_listener J env w msg = listener_spec (protocol_arm_handle J env w) w msg
    ∧ protocol_config_listener env w msg = listener_spec (protocol_config_handle env w) w msg
    ∧ protocol_motion_cycle_listener M env w msg
        = listener_spec (protocol_motion_cycle_handle M env w) w msg := by
  rcases msg with _ | m
  · exact ⟨rfl, rfl, rfl, rfl, rfl, rfl⟩
  · exact ⟨listener_core _ w m hok, listener_core _ w m hok, listener_core _ w m hok,
      listener_core _ w m hok, listener_core _ w m hok, listener_core _ w m hok⟩

theorem listeners_dispatch_witness :
    FrameOk (some sample_servo_frame)
    ∧ protocol_servo_listener 6 (Env.sample 0) World.init (some sample_servo_frame)
        = some (TF_Result.TF_STAY, World.init.call (Call.servo_move_pwm 2 1500 200)) := by
  have hok : FrameOk (some sample_servo_frame) := by
    intro m hm
    cases hm
    exact ⟨by decide, fun d hd => by cases hd; decide⟩
  exact ⟨hok, (listeners_dispatch 6 6 (Env.sample 0) World.init _ hok).2.1.trans rfl⟩

/-! ## Loops over local buffers -/

theorem list_eq_map_range (l : List Nat) (n : Nat) (f : Nat → Nat) (hl : l.length = n)
    (h : ∀ j, j < n → l[j]? = some (f j)) : l = (List.range n).map f := by
  apply List.ext_getElem?
  intro j
  by_cases hj : j < n
  · rw [h j hj, List.getElem?_map, List.getElem?_range hj]
    rfl
  · rw [List.getElem?_eq_none (by omega), List.getElem?_eq_none (by simp; omega)]

theorem copy_loop_spec (payload : List Nat) (base : Nat) :
    ∀ (k i : Nat) (buf : List Nat), i + k ≤ payload.length → base + i + k ≤ buf.length →
      ∃ buf2, copy_loop payload base k i buf = some buf2 ∧ buf2.length = buf.length
        ∧ ∀ j, buf2[j]? = if base + i ≤ j ∧ j < base + i + k then payload[j - base]? else buf[j]? := by
  intro k
  induction k with
  | zero =>
    intro i buf _ _
    refine ⟨buf, rfl, rfl, fun j => ?_⟩
    rw [if_neg (by omega)]
  | succ k ih =>
    intro i buf hp hbuf
    simp only [copy_loop]
    rw [getElem?_eq_some_getD (by omega)]
    simp only
    rw [buf_write_ok _ (by omega)]
    simp only
    obtain ⟨buf2, h1, h2, h3⟩ := ih (i + 1) (buf.set (base + i) (payload.getD i 0)) (by omega)
      (by rw [List.length_set]; omega)
    refine ⟨buf2, h1, by rw [h2, List.length_set], fun j => ?_⟩
    rw [h3 j]
    by_cases hj : j = base + i
    · subst hj
      rw [if_neg (by omega), if_pos (by omega), List.getElem?_set_eq_of_lt _ (by omega),
        show base + i - base = i by omega, getElem?_eq_some_getD (by omega)]
    · rw [List.getElem?_set_ne (by omega)]
      by_cases hr : base + (i + 1) ≤ j ∧ j < base + (i + 1) + k
      · rw [if_pos hr, if_pos (by omega)]
      · rw [if_neg hr, if_neg (by omega)]

theorem copy_loop_frame (payload : List Nat) (cmd len n : Nat) (hp : len ≤ payload.length)
    (hn : 1 + len ≤ n) :
    ∃ buf, copy_loop payload 1 len 0 ((List.replicate n 0).set 0 cmd) = some buf
      ∧ 1 + len ≤ buf.length ∧ buf.take (1 + len) = cmd :: payload.take len := by
  obtain ⟨buf, h1, h2, h3⟩ := copy_loop_spec payload 1 len 0 ((List.replicate n 0).set 0 cmd)
    (by omega) (by rw [List.length_set, List.length_replicate]; omega)
  rw [List.length_set, List.length_replicate] at h2
  refine ⟨buf, h1, by omega, ?_⟩
  apply List.ext_getElem?
  intro j
  by_cases hj : j < 1 + len
  · rw [List.getElem?_take_of_lt hj, h3 j]
    rcases j with _ | j
    · rw [if_neg (by omega), List.getElem?_set_eq_of_lt _ (by rw [List.length_replicate]; omega),
        List.getElem?_cons_zero]
    · rw [if_pos (by omega), List.getElem?_cons_succ, List.getElem?_take_of_lt (by omega)]
      rfl
  · rw [List.getElem?_eq_none (by rw [List.length_take]; omega),
      List.getElem?_eq_none (by rw [List.length_cons, List.length_take]; omega)]

theorem protocol_send_state_some (env : Env) (w : World) (cmd : Nat) (pl : List Nat) (len : Nat)
    (h0 : 0 < len) (h256 : len ≤ 256) (hp : len ≤ pl.length) :
    protocol_send_state env w cmd (some pl) len
      = some (env.tf_uart_port_send_frame PROTO_TYPE_STATE (cmd :: pl.take len) (1 + len),
          w.call (Call.tf_uart_port_send_frame PROTO_TYPE_STATE (cmd :: pl.take len) (1 + len))) := by
  obtain ⟨buf, h1, h2, h3⟩ := copy_loop_frame pl cmd len (1 + len) hp (Nat.le_refl _)
  simp only [protocol_send_state, PROTO_MAX_PAYLOAD]
  rw [if_neg (by omega), if_neg (by omega),
    buf_write_ok _ (by rw [List.length_replicate]; omega)]
  simp only
  rw [h1]
  simp only [send_frame]
  rw [u16_of_lt (by omega), if_pos h2, h3]

/-! ## The state sender and the system family -/

/-- Claim C12: `protocol_send_state(cmd, payload, len)`, for a payload pointer
that is `NULL` or refers to at least `len` bytes.  If `len > 256` it returns
false and the transport is not called; otherwise the transport is called
exactly once, with frame type `STATE` (0xD0) and the buffer `[cmd]` followed by
the first `len` payload bytes (just `[cmd]`, length 1, when the payload is
absent or `len = 0`), and the function returns the transport's result. -/
theorem send_state_contract (env : Env) (w : World) (cmd : Nat) (payload : Option (List Nat))
    (len : Nat) (hp : ∀ pl, payload = some pl → len ≤ pl.length) :
    protocol_send_state env w cmd payload len
      = if len > 256 then some (false, w)
        else some (env.tf_uart_port_send_frame 0xD0 (cmd :: (payload.getD []).take len)
                    (1 + ((payload.getD []).take len).length),
                  w.call (Call.tf_uart_port_send_frame 0xD0 (cmd :: (payload.getD []).take len)
                    (1 + ((payload.getD []).take len).length))) := by
  by_cases hbig : len > 256
  · rw [if_pos hbig]
    simp only [protocol_send_state, PROTO_MAX_PAYLOAD, if_pos hbig]
  · rw [if_neg hbig]
    rcases payload with _ | pl
    · simp only [protocol_send_state, PROTO_MAX_PAYLOAD, if_neg hbig, Option.getD_none,
        List.take_nil, List.length_nil]
      rfl
    · have hl := hp pl rfl
      by_cases h0 : len = 0
      · subst h0
        simp only [protocol_send_state, PROTO_MAX_PAYLOAD, if_neg hbig, Option.getD_some,
          List.take_zero, List.length_nil, if_true]
        rfl
      · rw [protocol_send_state_some env w cmd pl len (by omega) (by omega) hl]
        simp only [Option.getD_some, List.length_take, Nat.min_eq_left hl]
        rfl

theorem send_state_contract_witness :
    (∀ pl, some [7, 8, 9] = some pl → 2 ≤ pl.length)
    ∧ protocol_send_state (Env.sample 0) World.init STATE_CMD_SERVO (some [7, 8, 9]) 2
        = some (true, World.init.call (Call.tf_uart_port_send_frame 0xD0 [0x02, 7, 8] 3))
    ∧ protocol_send_state (Env.sample 0) World.init STATE_CMD_CONFIG none 0
        = some (true, World.init.call (Call.tf_uart_port_send_frame 0xD0 [0x05] 1)) := by
  have h1 : ∀ pl, some [7, 8, 9] = some pl → 2 ≤ pl.length := by
    intro pl hpl
    cases hpl
    decide
  exact ⟨h1,
    (send_state_contract (Env.sample 0) World.init STATE_CMD_SERVO (some [7, 8, 9]) 2 h1).trans rfl,
    (send_state_contract (Env.sample 0) World.init STATE_CMD_CONFIG none 0
      (fun pl hpl => by cases hpl)).trans rfl⟩

/-- Claim C13: `SYS PING` echo.  For every payload holding at least the
declared `len` bytes: if `len <= 256` the handler calls the transport exactly
once, with frame type `SYS` (0x01) and the buffer `[0x02]` followed by the
`len` payload bytes unchanged and in order, and returns the transport's result;
if `len > 256` it returns false and sends nothing. -/
theorem sys_ping_echo (env : Env) (w : World) (payload : List Nat) (len : Nat)
    (hp : len ≤ payload.length) :
    protocol_sys_handle env w SYS_CMD_PING payload len
      = if len > 256 then some (false, w)
        else some (env.tf_uart_port_send_frame 0x01 (0x02 :: payload.take len) (1 + len),
                  w.call (Call.tf_uart_port_send_frame 0x01 (0x02 :: payload.take len) (1 + len))) := by
  unfold protocol_sys_handle
  rw [if_pos rfl]
  by_cases hbig : len > 256
  · have hbig2 : len > PROTO_MAX_PAYLOAD := hbig
    rw [if_pos hbig, if_pos hbig2]
  · have hbig2 : ¬ len > PROTO_MAX_PAYLOAD := hbig
    rw [if_neg hbig, if_neg hbig2,
      buf_write_ok _ (by rw [List.length_replicate]; show 0 < 1 + 256; omega)]
    simp only
    obtain ⟨buf, h1, h2, h3⟩ :=
      copy_loop_frame payload SYS_CMD_PONG len (1 + PROTO_MAX_PAYLOAD) hp
        (by show 1 + len ≤ 1 + 256; omega)
    rw [h1]
    simp only [send_frame]
    rw [u16_of_lt (by omega), if_pos h2, h3]
    rfl

theorem sys_ping_echo_witness :
    3 ≤ [0x11, 0x22, 0x33].length
    ∧ protocol_sys_handle (Env.sample 0) World.init SYS_CMD_PING [0x11, 0x22, 0x33] 3
        = some (true, World.init.call
            (Call.tf_uart_port_send_frame 0x01 [0x02, 0x11, 0x22, 0x33] 4)) :=
  ⟨by decide,
   (sys_ping_echo (Env.sample 0) World.init [0x11, 0x22, 0x33] 3 (by decide)).trans rfl⟩

/-! ## Rejected frames and the listeners -/

theorem listener_spec_false (handle : Nat → List Nat → Nat → Option (Bool × World)) (w w2 : World)
    (m : TF_Msg) (d : List Nat) (hd : m.data = some d) (h0 : m.len ≠ 0)
    (hr : handle (d.getD 0 0) (d.drop 1) (m.len - 1) = some (false, w2)) :
    listener_spec handle w (some m) = some (TF_Result.TF_NEXT, w2) := by
  simp only [listener_spec, hd, if_neg h0, hr, Option.map_some']
  rfl

theorem servo_set_pwm_reject (M : Nat) (env : Env) (w : World) (payload : List Nat) (len : Nat)
    (hlen : len ≤ payload.length) (hbad : len ≠ 9 ∨ M ≤ payload.getD 0 0) :
    protocol_servo_handle M env w SERVO_CMD_SET_PWM payload len = some (false, w) := by
  have c1 : ¬ (SERVO_CMD_SET_PWM = SERVO_CMD_ENABLE) := by decide
  have c2 : ¬ (SERVO_CMD_SET_PWM = SERVO_CMD_DISABLE) := by decide
  simp only [protocol_servo_handle, if_neg c1, if_neg c2, if_true]
  by_cases h9 : len = 9
  · subst h9
    rw [getElem?_eq_some_getD (i := 0) (by omega)]
    simp only [ne_eq, not_true_eq_false, if_false, ge_iff_le]
    rw [if_pos (by omega)]
  · rw [if_pos h9]

theorem isBytes_drop {l : List Nat} (h : IsBytes l) (n : Nat) : IsBytes (l.drop n) :=
  fun b hb => h b (List.mem_of_mem_drop hb)

theorem listener_spec_next_iff (handle : Nat → List Nat → Nat → Option (Bool × World))
    (w w2 : World) (m : TF_Msg) (d : List Nat) (hd : m.data = some d) (h0 : m.len ≠ 0) :
    listener_spec handle w (some m) = some (TF_Result.TF_NEXT, w2)
      ↔ handle (d.getD 0 0) (d.drop 1) (m.len - 1) = some (false, w2) := by
  simp only [listener_spec, hd, if_neg h0]
  rcases handle (d.getD 0 0) (d.drop 1) (m.len - 1) with _ | ⟨b, w3⟩
  · simp
  · cases b <;> simp

/-- Claim C11, as the code has it.  For each of the six type listeners, a
type-matched frame with a non-empty payload gets the fall-through result
`TF_NEXT` exactly when its family handler returns failure, the world then being
as the handler left it: a failed handling attempt is reported as not handled,
never as consumed.  `SERVO SET_PWM` with a payload length other than 9 (for
example 8 bytes) or an id `>= MAX_SERVOS`, and `MOTION_CYCLE CREATE` failing its
header and length checks, make the handler return failure with no side effects
and no response, and their listeners return `TF_NEXT` with the world
unchanged. -/
theorem schema_violation_not_handled (M J : Nat) (env : Env) (w w2 : World) (m : TF_Msg)
    (d : List Nat) (hok : FrameOk (some m)) (hd : m.data = some d) (h0 : m.len ≠ 0) :
    (protocol_sys_listener env w (some m) = some (TF_Result.TF_NEXT, w2)
        ↔ protocol_sys_handle env w (d.getD 0 0) (d.drop 1) (m.len - 1) = some (false, w2))
    ∧ (protocol_servo_listener M env w (some m) = some (TF_Result.TF_NEXT, w2)
        ↔ protocol_servo_handle M env w (d.getD 0 0) (d.drop 1) (m.len - 1) = some (false, w2))
    ∧ (protocol_motion_listener M env w (some m) = some (TF_Result.TF_NEXT, w2)
        ↔ protocol_motion_handle M env w (d.getD 0 0) (d.drop 1) (m.len - 1) = some (false, w2))
    ∧ (protocol_arm_listener J env w (some m) = some (TF_Result.TF_NEXT, w2)
        ↔ protocol_arm_handle J env w (d.getD 0 0) (d.drop 1) (m.len - 1) = some (false, w2))
    ∧ (protocol_config_listener env w (some m) = some (TF_Result.TF_NEXT, w2)
        ↔ protocol_config_handle env w (d.getD 0 0) (d.drop 1) (m.len - 1) = some (false, w2))
    ∧ (protocol_motion_cycle_listener M env w (some m) = some (TF_Result.TF_NEXT, w2)
        ↔ protocol_motion_cycle_handle M env w (d.getD 0 0) (d.drop 1) (m.len - 1)
            = some (false, w2))
    ∧ (d.getD 0 0 = SERVO_CMD_SET_PWM → (m.len - 1 ≠ 9 ∨ M ≤ d.getD 1 0) →
        protocol_servo_handle M env w SERVO_CMD_SET_PWM (d.drop 1) (m.len - 1) = some (false, w)
        ∧ protocol_servo_listener M env w (some m) = some (TF_Result.TF_NEXT, w))
    ∧ (IsBytes d → d.getD 0 0 = CYCLE_CMD_CREATE → ¬ CreateValid M (d.drop 1) (m.len - 1) →
        protocol_motion_cycle_handle M env w CYCLE_CMD_CREATE (d.drop 1) (m.len - 1)
          = some (false, w)
        ∧ protocol_motion_cycle_listener M env w (some m) = some (TF_Result.TF_NEXT, w)) := by
  have hl : m.len - 1 ≤ (d.drop 1).length := by
    have := (hok m rfl).2 d hd
    rw [List.length_drop]
    omega
  refine ⟨?_, ?_, ?_, ?_, ?_, ?_, fun hc hbad => ?_, fun hb hc hv => ?_⟩
  · have e : protocol_sys_listener env w (some m)
        = listener_spec (protocol_sys_handle env w) w (some m) := listener_core _ w m hok
    rw [e]
    exact listener_spec_next_iff _ w w2 m d hd h0
  · have e : protocol_servo_listener M env w (some m)
        = listener_spec (protocol_servo_handle M env w) w (some m) := listener_core _ w m hok
    rw [e]
    exact listener_spec_next_iff _ w w2 m d hd h0
  · have e : protocol_motion_listener M env w (some m)
        = listener_spec (protocol_motion_handle M env w) w (some m) := listener_core _ w m hok
    rw [e]
    exact listener_spec_next_iff _ w w2 m d hd h0
  · have e : protocol_arm_listener J env w (some m)
        = listener_spec (protocol_arm_handle J env w) w (some m) := listener_core _ w m hok
    rw [e]
    exact listener_spec_next_iff _ w w2 m d hd h0
  · have e : protocol_config_listener env w (some m)
        = listener_spec (protocol_config_handle env w) w (some m) := listener_core _ w m hok
    rw [e]
    exact listener_spec_next_iff _ w w2 m d hd h0
  · have e : protocol_motion_cycle_listener M env w (some m)
        = listener_spec (protocol_motion_cycle_handle M env w) w (some m) := listener_core _ w m hok
    rw [e]
    exact listener_spec_next_iff _ w w2 m d hd h0
  · have hid : (d.drop 1).getD 0 0 = d.getD 1 0 := by
      simp only [List.getD_eq_getElem?_getD, List.getElem?_drop]
    have hr := servo_set_pwm_reject M env w (d.drop 1) (m.len - 1) hl (by rw [hid]; exact hbad)
    refine ⟨hr, ?_⟩
    rw [← hc] at hr
    exact (listener_core _ w m hok).trans (listener_spec_false _ w w m d hd h0 hr)
  · have hr : protocol_motion_cycle_handle M env w CYCLE_CMD_CREATE (d.drop 1) (m.len - 1)
        = some (false, w) := by
      rw [create_handle_eq M env w (d.drop 1) (m.len - 1) (isBytes_drop hb 1) hl, if_neg hv]
    refine ⟨hr, ?_⟩
    rw [← hc] at hr
    exact (listener_core _ w m hok).trans (listener_spec_false _ w w m d hd h0 hr)

theorem short_servo_frame_ok : FrameOk (some short_servo_frame) := by
  intro m hm
  cases hm
  exact ⟨by decide, fun d hd => by cases hd; decide⟩

theorem schema_violation_not_handled_witness :
    FrameOk (some short_servo_frame)
    ∧ short_servo_frame.data = some [3, 2, 0xDC, 0x05, 0, 0, 200, 0, 0]
    ∧ short_servo_frame.len ≠ 0
    ∧ protocol_servo_handle 6 (Env.sample 0) World.init SERVO_CMD_SET_PWM
        [2, 0xDC, 0x05, 0, 0, 200, 0, 0] 8 = some (false, World.init)
    ∧ protocol_servo_listener 6 (Env.sample 0) World.init (some short_servo_frame)
        = some (TF_Result.TF_NEXT, World.init) :=
  ⟨short_servo_frame_ok, rfl, by decide,
   ((schema_violation_not_handled 6 6 (Env.sample 0) World.init World.init short_servo_frame
      [3, 2, 0xDC, 0x05, 0, 0, 200, 0, 0] short_servo_frame_ok rfl (by decide)).2.2.2.2.2.2.1
      rfl (Or.inl (by decide))).1,
   ((schema_violation_not_handled 6 6 (Env.sample 0) World.init World.init short_servo_frame
      [3, 2, 0xDC, 0x05, 0, 0, 200, 0, 0] short_servo_frame_ok rfl (by decide)).2.2.2.2.2.2.1
      rfl (Or.inl (by decide))).2⟩

/-- Claim C11 fails as stated, twice over.  For the `SERVO SET_PWM` frame with
an 8-byte payload the handler returns false without any collaborator call, and
the servo listener returns the fall-through result `TF_NEXT`.  And not every
schema violation is rejected: for the `SERVO DISABLE` frame with a 2-byte
payload the listener returns `TF_STAY` after one collaborator call (the
emergency stop). -/
theorem schema_violation_returns_next :
    (protocol_servo_handle 6 (Env.sample 0) World.init SERVO_CMD_SET_PWM
        [2, 0xDC, 0x05, 0, 0, 200, 0, 0] 8).map (fun r => (r.1, r.2.calls.length))
      = some (false, 0)
    ∧ (protocol_servo_listener 6 (Env.sample 0) World.init (some short_servo_frame)).map
        (fun r => r.1) = some TF_Result.TF_NEXT
    ∧ (protocol_servo_listener 6 (Env.sample 0) World.init (some long_disable_frame)).map
        (fun r => (r.1, r.2.calls.length)) = some (TF_Result.TF_STAY, 1) := by
  decide

/-! ## Commands that take one 4-byte id -/

theorem motion_id_cmds_eq (M : Nat) (env : Env) (w : World) (payload : List Nat) (len : Nat) :
    protocol_motion_handle M env w MOTION_CMD_STOP payload len
        = (match proto_read_u32_le (some payload) len 0 0 with
            | none => none
            | some (false, _) => some (false, w)
            | some (true, gid) =>
              some (env.motion_sync_release_group gid, w.call (Call.motion_sync_release_group gid)))
    ∧ protocol_motion_handle M env w MOTION_CMD_PAUSE payload len
        = (match proto_read_u32_le (some payload) len 0 0 with
            | none => none
            | some (false, _) => some (false, w)
            | some (true, gid) =>
              some (env.motion_sync_pause_group gid, w.call (Call.motion_sync_pause_group gid)))
    ∧ protocol_motion_handle M env w MOTION_CMD_RESUME payload len
        = (match proto_read_u32_le (some payload) len 0 0 with
            | none => none
            | some (false, _) => some (false, w)
            | some (true, gid) =>
              some (env.motion_sync_restart_group gid, w.call (Call.motion_sync_restart_group gid))) := by
  refine ⟨?_, ?_, ?_⟩
  · have c1 : ¬ (MOTION_CMD_STOP = MOTION_CMD_START) := by decide
    simp only [protocol_motion_handle, if_neg c1, if_true]
  · have c1 : ¬ (MOTION_CMD_PAUSE = MOTION_CMD_START) := by decide
    have c2 : ¬ (MOTION_CMD_PAUSE = MOTION_CMD_STOP) := by decide
    simp only [protocol_motion_handle, if_neg c1, if_neg c2, if_true]
  · have c1 : ¬ (MOTION_CMD_RESUME = MOTION_CMD_START) := by decide
    have c2 : ¬ (MOTION_CMD_RESUME = MOTION_CMD_STOP) := by decide
    have c3 : ¬ (MOTION_CMD_RESUME = MOTION_CMD_PAUSE) := by decide
    simp only [protocol_motion_handle, if_neg c1, if_neg c2, if_neg c3, if_true]

theorem motion_get_status_short (M : Nat) (env : Env) (w : World) (payload : List Nat) (len : Nat)
    (h4 : len < 4) :
    protocol_motion_handle M env w MOTION_CMD_GET_STATUS payload len = some (false, w) := by
  have c1 : ¬ (MOTION_CMD_GET_STATUS = MOTION_CMD_START) := by decide
  have c2 : ¬ (MOTION_CMD_GET_STATUS = MOTION_CMD_STOP) := by decide
  have c3 : ¬ (MOTION_CMD_GET_STATUS = MOTION_CMD_PAUSE) := by decide
  have c4 : ¬ (MOTION_CMD_GET_STATUS = MOTION_CMD_RESUME) := by decide
  simp only [protocol_motion_handle, if_neg c1, if_neg c2, if_neg c3, if_neg c4, if_true,
    proto_read_u32_le_short (d := payload) 0 (show len < 0 + 4 by omega) (by omega)]

theorem cycle_id_cmds_eq (M : Nat) (env : Env) (w : World) (payload : List Nat) (len : Nat) :
    protocol_motion_cycle_handle M env w CYCLE_CMD_START payload len
        = (match proto_read_u32_le (some payload) len 0 0 with
            | none => none
            | some (false, _) => some (false, w)
            | some (true, idx) =>
              some (decide (env.motion_cycle_start idx = 0), w.call (Call.motion_cycle_start idx)))
    ∧ protocol_motion_cycle_handle M env w CYCLE_CMD_RESTART payload len
        = (match proto_read_u32_le (some payload) len 0 0 with
            | none => none
            | some (false, _) => some (false, w)
            | some (true, idx) =>
              some (decide (env.motion_cycle_restart idx = 0),
                w.call (Call.motion_cycle_restart idx)))
    ∧ protocol_motion_cycle_handle M env w CYCLE_CMD_PAUSE payload len
        = (match proto_read_u32_le (some payload) len 0 0 with
            | none => none
            | some (false, _) => some (false, w)
            | some (true, idx) =>
              some (decide (env.motion_cycle_pause idx = 0), w.call (Call.motion_cycle_pause idx))) := by
  refine ⟨?_, ?_, ?_⟩
  · have c1 : ¬ (CYCLE_CMD_START = CYCLE_CMD_CREATE) := by decide
    simp only [protocol_motion_cycle_handle, if_neg c1, if_true]
  · have c1 : ¬ (CYCLE_CMD_RESTART = CYCLE_CMD_CREATE) := by decide
    have c2 : ¬ (CYCLE_CMD_RESTART = CYCLE_CMD_START) := by decide
    simp only [protocol_motion_cycle_handle, if_neg c1, if_neg c2, if_true]
  · have c1 : ¬ (CYCLE_CMD_PAUSE = CYCLE_CMD_CREATE) := by decide
    have c2 : ¬ (CYCLE_CMD_PAUSE = CYCLE_CMD_START) := by decide
    have c3 : ¬ (CYCLE_CMD_PAUSE = CYCLE_CMD_RESTART) := by decide
    simp only [protocol_motion_cycle_handle, if_neg c1, if_neg c2, if_neg c3, if_true]

theorem cycle_release_short (M : Nat) (env : Env) (w : World) (payload : List Nat) (len : Nat)
    (h4 : len < 4) :
    protocol_motion_cycle_handle M env w CYCLE_CMD_RELEASE payload len = some (false, w) := by
  have c1 : ¬ (CYCLE_CMD_RELEASE = CYCLE_CMD_CREATE) := by decide
  have c2 : ¬ (CYCLE_CMD_RELEASE = CYCLE_CMD_START) := by decide
  have c3 : ¬ (CYCLE_CMD_RELEASE = CYCLE_CMD_RESTART) := by decide
  have c4 : ¬ (CYCLE_CMD_RELEASE = CYCLE_CMD_PAUSE) := by decide
  simp only [protocol_motion_cycle_handle, if_neg c1, if_neg c2, if_neg c3, if_neg c4, if_true,
    proto_read_u32_le_short (d := payload) 0 (show len < 0 + 4 by omega) (by omega)]

/-- Claim C16, as the code has it: the eight commands whose schema is one
4-byte id (`MOTION STOP/PAUSE/RESUME/GET_STATUS`, `MOTION_CYCLE
START/RESTART/PAUSE/RELEASE`) return false, with no collaborator call, for
every payload shorter than 4 bytes; for a payload of 4 bytes or more (bytes
after the fourth are ignored) `MOTION STOP/PAUSE/RESUME` call
release/pause/restart with the little-endian id of the first four bytes and
return exactly the collaborator's boolean. -/
theorem id_commands_length (M : Nat) (env : Env) (w : World) (payload : List Nat) (len : Nat)
    (hb : IsBytes payload) (hlen : len ≤ payload.length) :
    (len < 4 →
        protocol_motion_handle M env w MOTION_CMD_STOP payload len = some (false, w)
        ∧ protocol_motion_handle M env w MOTION_CMD_PAUSE payload len = some (false, w)
        ∧ protocol_motion_handle M env w MOTION_CMD_RESUME payload len = some (false, w)
        ∧ protocol_motion_handle M env w MOTION_CMD_GET_STATUS payload len = some (false, w)
        ∧ protocol_motion_cycle_handle M env w CYCLE_CMD_START payload len = some (false, w)
        ∧ protocol_motion_cycle_handle M env w CYCLE_CMD_RESTART payload len = some (false, w)
        ∧ protocol_motion_cycle_handle M env w CYCLE_CMD_PAUSE payload len = some (false, w)
        ∧ protocol_motion_cycle_handle M env w CYCLE_CMD_RELEASE payload len = some (false, w))
    ∧ (4 ≤ len →
        protocol_motion_handle M env w MOTION_CMD_STOP payload len
          = some (env.motion_sync_release_group (le_u32 payload 0),
              w.call (Call.motion_sync_release_group (le_u32 payload 0)))
        ∧ protocol_motion_handle M env w MOTION_CMD_PAUSE payload len
          = some (env.motion_sync_pause_group (le_u32 payload 0),
              w.call (Call.motion_sync_pause_group (le_u32 payload 0)))
        ∧ protocol_motion_handle M env w MOTION_CMD_RESUME payload len
          = some (env.motion_sync_restart_group (le_u32 payload 0),
              w.call (Call.motion_sync_restart_group (le_u32 payload 0)))) := by
  obtain ⟨m1, m2, m3⟩ := motion_id_cmds_eq M env w payload len
  obtain ⟨c1, c2, c3⟩ := cycle_id_cmds_eq M env w payload len
  refine ⟨fun h4 => ?_, fun h4 => ?_⟩
  · have hr := proto_read_u32_le_short (d := payload) 0 (show len < 0 + 4 by omega) (by omega)
    rw [hr] at m1 m2 m3 c1 c2 c3
    exact ⟨m1, m2, m3, motion_get_status_short M env w payload len h4, c1, c2, c3,
      cycle_release_short M env w payload len h4⟩
  · have hr := proto_read_u32_le_ok 0 hb hlen (show 0 + 4 ≤ len by omega) (by omega)
    rw [hr] at m1 m2 m3
    exact ⟨m1, m2, m3⟩

theorem id_commands_length_witness :
    IsBytes [7, 0, 0, 0, 9] ∧ 5 ≤ [7, 0, 0, 0, 9].length
    ∧ protocol_motion_handle 6 (Env.sample 0) World.init MOTION_CMD_STOP [7, 0, 0, 0, 9] 3
        = some (false, World.init)
    ∧ protocol_motion_handle 6 (Env.sample 0) World.init MOTION_CMD_STOP [7, 0, 0, 0, 9] 5
        = some (true, World.init.call (Call.motion_sync_release_group 7)) :=
  ⟨by decide, by decide,
   ((id_commands_length 6 (Env.sample 0) World.init [7, 0, 0, 0, 9] 3 (by decide) (by decide)).1
      (by decide)).1,
   ((id_commands_length 6 (Env.sample 0) World.init [7, 0, 0, 0, 9] 5 (by decide) (by decide)).2
      (by decide)).1⟩

/-- Claim C16 fails as stated: `MOTION STOP` with a 5-byte payload, one byte
longer than the schema, is not rejected; the handler calls the release
collaborator and returns its result (true). -/
theorem long_id_payload_is_accepted :
    (protocol_motion_handle 6 (Env.sample 0) World.init MOTION_CMD_STOP [7, 0, 0, 0, 9] 5).map
        (fun r => (r.1, r.2.calls.length)) = some (true, 1) := by
  decide

/-! ## `SERVO DISABLE` -/

/-- Claim C17, as the code has it: `SERVO DISABLE`.  With a 1-byte payload whose
id is `< MAX_SERVOS` the handler calls `servo_stop(id)` only and returns true;
with a 1-byte payload whose id is `>= MAX_SERVOS` it returns false with no
collaborator call; for every other length, the empty payload and payloads of 2
or more bytes alike, it calls the emergency-stop-all collaborator, once, and
returns true.  So emergency stop is invoked if and only if `len` is not 1. -/
theorem servo_disable_contract (M : Nat) (env : Env) (w : World) (payload : List Nat) (len : Nat)
    (hlen : len ≤ payload.length) :
    protocol_servo_handle M env w SERVO_CMD_DISABLE payload len
      = if len = 1 then
          (if payload.getD 0 0 < M then some (true, w.call (Call.servo_stop (payload.getD 0 0)))
           else some (false, w))
        else some (true, w.call Call.servo_emergency_stop) := by
  have c1 : ¬ (SERVO_CMD_DISABLE = SERVO_CMD_ENABLE) := by decide
  simp only [protocol_servo_handle, if_neg c1, if_true]
  by_cases h1 : len = 1
  · subst h1
    rw [if_pos rfl, if_pos rfl, getElem?_eq_some_getD (i := 0) (by omega)]
    simp only [ge_iff_le]
    by_cases hid : payload.getD 0 0 < M
    · rw [if_neg (by omega), if_pos hid]
    · rw [if_pos (by omega), if_neg hid]
  · rw [if_neg h1, if_neg h1]

theorem servo_disable_contract_witness :
    2 ≤ [1, 2].length
    ∧ protocol_servo_handle 6 (Env.sample 0) World.init SERVO_CMD_DISABLE [1, 2] 1
        = some (true, World.init.call (Call.servo_stop 1))
    ∧ protocol_servo_handle 6 (Env.sample 0) World.init SERVO_CMD_DISABLE [1, 2] 0
        = some (true, World.init.call Call.servo_emergency_stop)
    ∧ protocol_servo_handle 6 (Env.sample 0) World.init SERVO_CMD_DISABLE [1, 2] 2
        = some (true, World.init.call Call.servo_emergency_stop) :=
  ⟨by decide,
   servo_disable_contract 6 (Env.sample 0) World.init [1, 2] 1 (by decide),
   servo_disable_contract 6 (Env.sample 0) World.init [1, 2] 0 (by decide),
   servo_disable_contract 6 (Env.sample 0) World.init [1, 2] 2 (by decide)⟩

/-- Claim C17 fails as stated: `SERVO DISABLE` with a 2-byte payload is not
rejected; the handler invokes the emergency-stop-all collaborator and returns
true. -/
theorem disable_two_bytes_stops_all :
    protocol_servo_handle 6 (Env.sample 0) World.init SERVO_CMD_DISABLE [1, 2] 2
      = some (true, World.init.call Call.servo_emergency_stop) := by
  rfl

/-! ## `MOTION_CYCLE` commands other than `CREATE` -/

/-- Claim C18: `MOTION_CYCLE` commands with a decodable index (`len >= 4`, `idx`
the little-endian word of the first four bytes).  `RELEASE`: the engine's
release is called exactly once with `idx`, and the handler returns true exactly
when it returned 0.  The registry `r` the handler leaves is also the registry
the engine call is recorded with: the slot release has already happened when
the engine is called, and it stays whatever the engine returns.  For `idx < 5`
the used flag of the slot that the index map records for `idx` is 0 in `r`;
every other used flag is as before, and so are the index map and all slot
data; for `idx >= 5` the registry is unchanged.  `START/RESTART/PAUSE` leave the registry
unchanged and return true exactly when their engine call returns 0.
`GET_STATUS` and `STATUS` return false for every payload, with no effect. -/
theorem cycle_commands_contract (M : Nat) (env : Env) (w : World) (payload : List Nat) (len : Nat)
    (hb : IsBytes payload) (hlen : len ≤ payload.length) (h4 : 4 ≤ len) :
    (∃ r,
        protocol_motion_cycle_handle M env w CYCLE_CMD_RELEASE payload len
          = some (decide (env.motion_cycle_release (le_u32 payload 0) = 0),
              { reg := r
                calls := w.calls ++ [Call.motion_cycle_release (le_u32 payload 0) r] })
        ∧ (le_u32 payload 0 < 5 → w.reg.s_cycle_slot_of_index (le_u32 payload 0) < 5 →
            r.s_cycle_used (w.reg.s_cycle_slot_of_index (le_u32 payload 0)) = 0)
        ∧ (∀ j, 5 ≤ le_u32 payload 0 ∨ j ≠ w.reg.s_cycle_slot_of_index (le_u32 payload 0) ∨ 5 ≤ j →
            r.s_cycle_used j = w.reg.s_cycle_used j)
        ∧ (5 ≤ le_u32 payload 0 → r = w.reg)
        ∧ r.s_cycle_slot_of_index = w.reg.s_cycle_slot_of_index
        ∧ r.s_cycle_servo_ids = w.reg.s_cycle_servo_ids
        ∧ r.s_cycle_pose_pwm = w.reg.s_cycle_pose_pwm
        ∧ r.s_cycle_pose_angle = w.reg.s_cycle_pose_angle
        ∧ r.s_cycle_durations = w.reg.s_cycle_durations
        ∧ r.s_cycle_pose_pwm_ptrs = w.reg.s_cycle_pose_pwm_ptrs
        ∧ r.s_cycle_pose_angle_ptrs = w.reg.s_cycle_pose_angle_ptrs)
    ∧ protocol_motion_cycle_handle M env w CYCLE_CMD_START payload len
        = some (decide (env.motion_cycle_start (le_u32 payload 0) = 0),
            { reg := w.reg, calls := w.calls ++ [Call.motion_cycle_start (le_u32 payload 0)] })
    ∧ protocol_motion_cycle_handle M env w CYCLE_CMD_RESTART payload len
        = some (decide (env.motion_cycle_restart (le_u32 payload 0) = 0),
            { reg := w.reg, calls := w.calls ++ [Call.motion_cycle_restart (le_u32 payload 0)] })
    ∧ protocol_motion_cycle_handle M env w CYCLE_CMD_PAUSE payload len
        = some (decide (env.motion_cycle_pause (le_u32 payload 0) = 0),
            { reg := w.reg, calls := w.calls ++ [Call.motion_cycle_pause (le_u32 payload 0)] })
    ∧ (∀ (p : List Nat) (n : Nat),
        protocol_motion_cycle_handle M env w CYCLE_CMD_GET_STATUS p n = some (false, w)
        ∧ protocol_motion_cycle_handle M env w CYCLE_CMD_STATUS p n = some (false, w)) := by
  obtain ⟨c1, c2, c3⟩ := cycle_id_cmds_eq M env w payload len
  have hr := proto_read_u32_le_ok 0 hb hlen (show 0 + 4 ≤ len by omega) (by omega)
  rw [hr] at c1 c2 c3
  refine ⟨?_, c1, c2, c3, fun p n => ⟨?_, ?_⟩⟩
  · refine ⟨if le_u32 payload 0 < 5
        then release_cycle_slot w.reg (w.reg.s_cycle_slot_of_index (le_u32 payload 0))
        else w.reg, ?_, ?_, ?_, ?_, ?_, ?_, ?_, ?_, ?_, ?_, ?_⟩
    · rw [release_handle_eq M env w payload len hb hlen h4]
      rfl
    · intro h5 hs
      have hs2 : ¬ w.reg.s_cycle_slot_of_index (le_u32 payload 0) ≥ PROTO_CYCLE_MAX_SLOT := by
        show ¬ _ ≥ 5
        omega
      rw [if_pos h5]
      simp only [release_cycle_slot, if_neg hs2, upd1, if_true]
    · intro j hj
      by_cases h5 : le_u32 payload 0 < 5
      · rw [if_pos h5]
        by_cases hs : w.reg.s_cycle_slot_of_index (le_u32 payload 0) ≥ PROTO_CYCLE_MAX_SLOT
        · simp only [release_cycle_slot, if_pos hs]
        · have hs3 : w.reg.s_cycle_slot_of_index (le_u32 payload 0) < 5 := by
            have : ¬ w.reg.s_cycle_slot_of_index (le_u32 payload 0) ≥ 5 := hs
            omega
          simp only [release_cycle_slot, if_neg hs, upd1]
          rw [if_neg (by omega)]
      · rw [if_neg h5]
    · intro h5
      rw [if_neg (by omega)]
    all_goals
      by_cases h5 : le_u32 payload 0 < 5
      · rw [if_pos h5]
        simp only [release_cycle_slot]
        split <;> rfl
      · rw [if_neg h5]
  · have d1 : ¬ (CYCLE_CMD_GET_STATUS = CYCLE_CMD_CREATE) := by decide
    have d2 : ¬ (CYCLE_CMD_GET_STATUS = CYCLE_CMD_START) := by decide
    have d3 : ¬ (CYCLE_CMD_GET_STATUS = CYCLE_CMD_RESTART) := by decide
    have d4 : ¬ (CYCLE_CMD_GET_STATUS = CYCLE_CMD_PAUSE) := by decide
    have d5 : ¬ (CYCLE_CMD_GET_STATUS = CYCLE_CMD_RELEASE) := by decide
    simp only [protocol_motion_cycle_handle, if_neg d1, if_neg d2, if_neg d3, if_neg d4, if_neg d5,
      if_true]
  · have d1 : ¬ (CYCLE_CMD_STATUS = CYCLE_CMD_CREATE) := by decide
    have d2 : ¬ (CYCLE_CMD_STATUS = CYCLE_CMD_START) := by decide
    have d3 : ¬ (CYCLE_CMD_STATUS = CYCLE_CMD_RESTART) := by decide
    have d4 : ¬ (CYCLE_CMD_STATUS = CYCLE_CMD_PAUSE) := by decide
    have d5 : ¬ (CYCLE_CMD_STATUS = CYCLE_CMD_RELEASE) := by decide
    have d6 : ¬ (CYCLE_CMD_STATUS = CYCLE_CMD_GET_STATUS) := by decide
    simp only [protocol_motion_cycle_handle, if_neg d1, if_neg d2, if_neg d3, if_neg d4, if_neg d5,
      if_neg d6, if_true]

theorem cycle_commands_contract_witness :
    IsBytes [4, 0, 0, 0] ∧ 4 ≤ [4, 0, 0, 0].length
    ∧ World.two_cycles.reg.s_cycle_used 0 = 1 ∧ World.two_cycles.reg.s_cycle_used 1 = 1
    ∧ World.two_cycles.reg.s_cycle_slot_of_index 4 = 1
    ∧ (∃ r, protocol_motion_cycle_handle 6 Env.release_fails World.two_cycles CYCLE_CMD_RELEASE
              [4, 0, 0, 0] 4
            = some (false, { reg := r, calls := [Call.motion_cycle_release 4 r] })
        ∧ r.s_cycle_used 1 = 0 ∧ r.s_cycle_used 0 = 1)
    ∧ protocol_motion_cycle_handle 6 (Env.sample 0) World.two_cycles CYCLE_CMD_START [4, 0, 0, 0] 4
        = some (true, { reg := World.two_cycles.reg, calls := [Call.motion_cycle_start 4] }) := by
  obtain ⟨⟨r, h1, h2, h3, _⟩, _⟩ :=
    cycle_commands_contract 6 Env.release_fails World.two_cycles [4, 0, 0, 0] 4 (by decide)
      (by decide) (by decide)
  refine ⟨by decide, by decide, rfl, rfl, rfl, ⟨r, h1, h2 (by decide) (by decide), ?_⟩,
    (cycle_commands_contract 6 (Env.sample 0) World.two_cycles [4, 0, 0, 0] 4 (by decide)
      (by decide) (by decide)).2.1⟩
  exact (h3 0 (Or.inr (Or.inl (by decide)))).trans rfl

/-! ## `MOTION START` -/

theorem motion_values_loop_spec
    (read : Option (List Nat) → Nat → Nat → Nat → Option (Bool × Nat)) (payload : List Nat)
    (len voff count : Nat)
    (hread : ∀ off out, off + 4 ≤ len → off < 65536 →
      read (some payload) len off out = some (true, le_u32 payload off))
    (hfit : voff + 4 * count ≤ len) (hv : voff < 1024) (hc : count < 256) :
    ∀ (k i : Nat) (vals : List Nat), i + k ≤ count → count ≤ vals.length →
      ∃ v2, motion_values_loop read payload len voff k i vals = some (true, v2)
        ∧ v2.length = vals.length
        ∧ ∀ j, v2[j]? = if i ≤ j ∧ j < i + k then some (le_u32 payload (voff + 4 * j)) else vals[j]? := by
  intro k
  induction k with
  | zero =>
    intro i vals _ _
    refine ⟨vals, rfl, rfl, fun j => ?_⟩
    rw [if_neg (by omega)]
  | succ k ih =>
    intro i vals hi hl
    have e : u16 (voff + i * 4) = voff + 4 * i := by
      rw [u16_of_lt (by omega)]
      omega
    simp only [motion_values_loop, e]
    rw [getElem?_eq_some_getD (by omega)]
    simp only
    rw [hread _ _ (by omega) (by omega)]
    simp only
    obtain ⟨v2, h1, h2, h3⟩ := ih (i + 1) (vals.set i (le_u32 payload (voff + 4 * i))) (by omega)
      (by rw [List.length_set]; omega)
    refine ⟨v2, h1, by rw [h2, List.length_set], fun j => ?_⟩
    rw [h3 j]
    by_cases hj : j = i
    · subst hj
      rw [if_neg (by omega), if_pos (by omega), List.getElem?_set_eq_of_lt _ (by omega)]
    · rw [List.getElem?_set_ne (by omega)]
      by_cases hr : i + 1 ≤ j ∧ j < i + 1 + k
      · rw [if_pos hr, if_pos (by omega)]
      · rw [if_neg hr, if_neg (by omega)]

theorem motion_values_loop_eq
    (read : Option (List Nat) → Nat → Nat → Nat → Option (Bool × Nat)) (M : Nat)
    (payload : List Nat) (len : Nat)
    (hread : ∀ off out, off + 4 ≤ len → off < 65536 →
      read (some payload) len off out = some (true, le_u32 payload off))
    (hfit : 6 + 5 * payload.getD 1 0 ≤ len) (hc : payload.getD 1 0 < 256)
    (hM : payload.getD 1 0 ≤ M) :
    motion_values_loop read payload len (6 + payload.getD 1 0) (payload.getD 1 0) 0
        (List.replicate M 0) = some (true, start_values M payload) := by
  obtain ⟨v2, h1, h2, h3⟩ := motion_values_loop_spec read payload len (6 + payload.getD 1 0)
    (payload.getD 1 0) hread (by omega) (by omega) hc (payload.getD 1 0) 0 (List.replicate M 0)
    (by omega) (by rw [List.length_replicate]; exact hM)
  rw [h1]
  rw [List.length_replicate] at h2
  have e : v2 = start_values M payload := by
    apply list_eq_map_range v2 M _ h2
    intro j hj
    rw [h3 j]
    by_cases hjc : j < payload.getD 1 0
    · rw [if_pos ⟨Nat.zero_le _, by omega⟩, if_pos hjc]
    · rw [if_neg (by omega), if_neg hjc, List.getElem?_replicate_of_lt hj]
  rw [e]

theorem write_resp4 (v : Nat) :
    proto_write_u32_le (List.replicate 4 0) 0 v = some (le_bytes32 v) := by
  rw [proto_write_u32_le_ok v (by decide)]
  have m : ∀ x : Nat, x &&& 0xFF = x % 256 := fun x => Nat.and_pow_two_sub_one_eq_mod x 8
  simp only [m, Nat.shiftRight_eq_div_pow, u8, Nat.mod_mod, le_bytes32]
  rfl

theorem send_state_resp4 (env : Env) (w : World) (cmd v : Nat) :
    protocol_send_state env w cmd (some (le_bytes32 v)) 4
      = some (env.tf_uart_port_send_frame PROTO_TYPE_STATE (cmd :: le_bytes32 v) 5,
          w.call (Call.tf_uart_port_send_frame PROTO_TYPE_STATE (cmd :: le_bytes32 v) 5)) := by
  rw [protocol_send_state_some env w cmd (le_bytes32 v) 4 (by omega) (by omega)
    (by simp only [le_bytes32, List.length_cons, List.length_nil]; omega)]
  rfl

theorem motion_start_eq (M : Nat) (env : Env) (w : World) (payload : List Nat) (len : Nat)
    (hb : IsBytes payload) (hlen : len ≤ payload.length) :
    protocol_motion_handle M env w MOTION_CMD_START payload len
      = if StartValid M payload len then
          (if payload.getD 0 0 = 0 then
            some (true,
              (w.call (Call.motion_sync_move_pwm (payload.drop 6) (start_values M payload)
                  (payload.getD 1 0) (le_u32 payload 2))).call
                (Call.tf_uart_port_send_frame PROTO_TYPE_STATE
                  (STATE_CMD_MOTION :: le_bytes32 (env.motion_sync_move_pwm (payload.drop 6)
                    (start_values M payload) (payload.getD 1 0) (le_u32 payload 2))) 5))
           else
            some (true,
              (w.call (Call.motion_sync_move_angle (payload.drop 6) (start_values M payload)
                  (payload.getD 1 0) (le_u32 payload 2))).call
                (Call.tf_uart_port_send_frame PROTO_TYPE_STATE
                  (STATE_CMD_MOTION :: le_bytes32 (env.motion_sync_move_angle (payload.drop 6)
                    (start_values M payload) (payload.getD 1 0) (le_u32 payload 2))) 5)))
        else some (false, w) := by
  simp only [protocol_motion_handle, if_true, StartValid]
  by_cases h6 : len < 6
  · rw [if_pos h6, if_neg (by omega)]
  · have hc := getD_of_bytes hb 1
    rw [if_neg h6, getElem?_eq_some_getD (i := 0) (by omega),
      getElem?_eq_some_getD (i := 1) (by omega)]
    simp only
    rw [proto_read_u32_le_ok 0 hb hlen (by omega) (by omega)]
    simp only
    have e1 : u16 (6 + payload.getD 1 0) = 6 + payload.getD 1 0 := u16_of_lt (by omega)
    have e2 : u16 (6 + payload.getD 1 0 + payload.getD 1 0 * 4) = 6 + 5 * payload.getD 1 0 := by
      rw [u16_of_lt (by omega)]
      omega
    simp only [e1, e2]
    by_cases hz : payload.getD 1 0 = 0 ∨ 6 + 5 * payload.getD 1 0 > len
    · rw [if_pos hz, if_neg (by omega)]
    · rw [if_neg hz]
      by_cases hm0 : payload.getD 0 0 = 0
      · rw [if_pos hm0]
        by_cases hM : payload.getD 1 0 > M
        · rw [if_pos hM, if_neg (by omega)]
        · rw [if_neg hM, if_pos ⟨by omega, by omega, by omega, by omega, by omega⟩, if_pos hm0,
            motion_values_loop_eq proto_read_u32_le M payload len
              (fun off out h1 h2 => proto_read_u32_le_ok out hb hlen h1 h2) (by omega) hc (by omega)]
          simp only
          rw [if_pos (by omega), write_resp4]
          simp only [send_state_resp4]
      · rw [if_neg hm0]
        by_cases hm1 : payload.getD 0 0 = 1
        · rw [if_pos hm1]
          by_cases hM : payload.getD 1 0 > M
          · rw [if_pos hM, if_neg (by omega)]
          · rw [if_neg hM, if_pos ⟨by omega, by omega, by omega, by omega, by omega⟩, if_neg hm0,
              motion_values_loop_eq proto_read_f32_le M payload len
                (fun off out h1 h2 => proto_read_f32_le_ok out hb hlen h1 h2) (by omega) hc
                (by omega)]
            simp only
            rw [if_pos (by omega), write_resp4]
            simp only [send_state_resp4]
        · rw [if_neg hm1, if_neg (by omega)]

/-- Claim C14: `MOTION START` success path.  For a payload of bytes with
`mode = payload[0]` in {0, 1}, `count = payload[1]` with `1 <= count <=
MAX_SERVOS` and `len >= 6 + 5 * count`, the handler returns true and makes
exactly two collaborator calls: first the synchronized-motion call (the PWM
variant for mode 0, the angle variant for mode 1) with `ids[i] = payload[6 + i]`
and `values[i]` the little-endian word at `6 + count + 4*i` for `i < count`, the
given `count`, and `duration` the little-endian word at offset 2; then one
`STATE` frame (0xD0) with the bytes `[0x03]` followed by the returned group id
as 4 little-endian bytes. -/
theorem motion_start_success (M : Nat) (env : Env) (w : World) (payload : List Nat) (len : Nat)
    (hb : IsBytes payload) (hlen : len ≤ payload.length) (hmode : payload.getD 0 0 ≤ 1)
    (hc1 : 1 ≤ payload.getD 1 0) (hcM : payload.getD 1 0 ≤ M)
    (hfit : 6 + 5 * payload.getD 1 0 ≤ len) :
    ∃ ids values gid,
      protocol_motion_handle M env w MOTION_CMD_START payload len
        = some (true,
            (w.call (if payload.getD 0 0 = 0
                     then Call.motion_sync_move_pwm ids values (payload.getD 1 0) (le_u32 payload 2)
                     else Call.motion_sync_move_angle ids values (payload.getD 1 0)
                            (le_u32 payload 2))).call
              (Call.tf_uart_port_send_frame 0xD0 (0x03 :: le_bytes32 gid) 5))
      ∧ gid = (if payload.getD 0 0 = 0
               then env.motion_sync_move_pwm ids values (payload.getD 1 0) (le_u32 payload 2)
               else env.motion_sync_move_angle ids values (payload.getD 1 0) (le_u32 payload 2))
      ∧ (∀ i, i < payload.getD 1 0 → ids[i]? = some (payload.getD (6 + i) 0))
      ∧ (∀ i, i < payload.getD 1 0 →
          values[i]? = some (le_u32 payload (6 + payload.getD 1 0 + 4 * i))) := by
  refine ⟨payload.drop 6, start_values M payload, _, ?_, rfl, fun i hi => ?_, fun i hi => ?_⟩
  · rw [motion_start_eq M env w payload len hb hlen,
      if_pos ⟨by omega, hmode, hc1, hcM, hfit⟩]
    by_cases hm0 : payload.getD 0 0 = 0
    · simp only [if_pos hm0]
      rfl
    · simp only [if_neg hm0]
      rfl
  · rw [List.getElem?_drop, getElem?_eq_some_getD (by omega)]
  · simp only [start_values]
    rw [List.getElem?_map, List.getElem?_range (by omega)]
    simp only [Option.map_some', if_pos hi]

theorem motion_start_success_witness :
    IsBytes sample_start ∧ 16 ≤ sample_start.length ∧ sample_start.getD 0 0 ≤ 1
    ∧ 1 ≤ sample_start.getD 1 0 ∧ sample_start.getD 1 0 ≤ 6
    ∧ 6 + 5 * sample_start.getD 1 0 ≤ 16
    ∧ ∃ ids values,
        protocol_motion_handle 6 (Env.sample 0) World.init MOTION_CMD_START sample_start 16
          = some (true,
              (World.init.call (Call.motion_sync_move_pwm ids values 2 1000)).call
                (Call.tf_uart_port_send_frame 0xD0 [0x03, 0, 0, 0, 0] 5))
        ∧ ids[0]? = some 4 ∧ ids[1]? = some 5
        ∧ values[0]? = some 1500 ∧ values[1]? = some 1800 := by
  obtain ⟨ids, values, gid, h1, h2, h3, h4⟩ :=
    motion_start_success 6 (Env.sample 0) World.init sample_start 16 (by decide) (by decide)
      (by decide) (by decide) (by decide) (by decide)
  have hg : gid = 0 := h2.trans rfl
  subst hg
  exact ⟨by decide, by decide, by decide, by decide, by decide, by decide, ids, values, h1,
    h3 0 (by decide), h3 1 (by decide), h4 0 (by decide), h4 1 (by decide)⟩

/-- Claim C15: `MOTION START` rejection.  For a payload of bytes: if `len < 6`,
or the mode is neither 0 nor 1, or `count > MAX_SERVOS`, or
`len < 6 + 5 * count` (the sum taken in the natural numbers, so in particular
for `len = 6 + 5 * count - 1`), the handler returns false with the world
unchanged: no synchronized-motion call and no state frame. -/
theorem motion_start_rejection (M : Nat) (env : Env) (w : World) (payload : List Nat) (len : Nat)
    (hb : IsBytes payload) (hlen : len ≤ payload.length)
    (hbad : len < 6 ∨ 1 < payload.getD 0 0 ∨ M < payload.getD 1 0
      ∨ len < 6 + 5 * payload.getD 1 0) :
    protocol_motion_handle M env w MOTION_CMD_START payload len = some (false, w) := by
  rw [motion_start_eq M env w payload len hb hlen, if_neg]
  intro hv
  obtain ⟨h6, hm, _, hM, hfit⟩ := hv
  omega

theorem motion_start_rejection_witness :
    IsBytes sample_start ∧ 15 ≤ sample_start.length
    ∧ 15 < 6 + 5 * sample_start.getD 1 0
    ∧ protocol_motion_handle 6 (Env.sample 0) World.init MOTION_CMD_START sample_start 15
        = some (false, World.init) :=
  ⟨by decide, by decide, by decide,
   motion_start_rejection 6 (Env.sample 0) World.init sample_start 15 (by decide) (by decide)
     (Or.inr (Or.inr (Or.inr (by decide))))⟩

/-! ## The arm family -/

theorem arm_home_loop_eq (duration : Nat) :
    ∀ (k id : Nat) (w : World),
      arm_home_loop duration k id w
        = { w with calls := w.calls
              ++ (List.range' id k).map (fun j => Call.servo_move_home j duration) } := by
  intro k
  induction k with
  | zero =>
    intro id w
    simp only [arm_home_loop, List.range'_zero, List.map_nil, List.append_nil]
  | succ k ih =>
    intro id w
    simp only [arm_home_loop, ih, World.call, List.range'_succ, List.map_cons, List.append_assoc,
      List.singleton_append]

theorem arm_angles_loop_spec (payload : List Nat) (len J : Nat) (hb : IsBytes payload)
    (hlen : len ≤ payload.length) (hfit : 4 + 4 * J ≤ len) (hJ : J < 256) :
    ∀ (k i : Nat) (angles : List Nat), i + k ≤ J → J ≤ angles.length →
      ∃ a2, arm_angles_loop payload len k i angles = some (true, a2)
        ∧ a2.length = angles.length
        ∧ ∀ j, a2[j]? = if i ≤ j ∧ j < i + k then some (le_u32 payload (4 + 4 * j)) else angles[j]? := by
  intro k
  induction k with
  | zero =>
    intro i angles _ _
    refine ⟨angles, rfl, rfl, fun j => ?_⟩
    rw [if_neg (by omega)]
  | succ k ih =>
    intro i angles hi hl
    have e : u16 (4 + i * 4) = 4 + 4 * i := by
      rw [u16_of_lt (by omega)]
      omega
    simp only [arm_angles_loop, e]
    rw [getElem?_eq_some_getD (by omega)]
    simp only
    rw [proto_read_f32_le_ok _ hb hlen (by omega) (by omega)]
    simp only
    obtain ⟨a2, h1, h2, h3⟩ := ih (i + 1) (angles.set i (le_u32 payload (4 + 4 * i))) (by omega)
      (by rw [List.length_set]; omega)
    refine ⟨a2, h1, by rw [h2, List.length_set], fun j => ?_⟩
    rw [h3 j]
    by_cases hj : j = i
    · subst hj
      rw [if_neg (by omega), if_pos (by omega), List.getElem?_set_eq_of_lt _ (by omega)]
    · rw [List.getElem?_set_ne (by omega)]
      by_cases hr : i + 1 ≤ j ∧ j < i + 1 + k
      · rw [if_pos hr, if_pos (by omega)]
      · rw [if_neg hr, if_neg (by omega)]

theorem arm_ids_loop_spec :
    ∀ (k i : Nat) (ids : List Nat), i + k ≤ ids.length →
      ∃ l2, arm_ids_loop k i ids = some l2 ∧ l2.length = ids.length
        ∧ ∀ j, l2[j]? = if i ≤ j ∧ j < i + k then some j else ids[j]? := by
  intro k
  induction k with
  | zero =>
    intro i ids _
    refine ⟨ids, rfl, rfl, fun j => ?_⟩
    rw [if_neg (by omega)]
  | succ k ih =>
    intro i ids hi
    simp only [arm_ids_loop]
    rw [buf_write_ok _ (by omega)]
    simp only
    obtain ⟨l2, h1, h2, h3⟩ := ih (i + 1) (ids.set i i) (by rw [List.length_set]; omega)
    refine ⟨l2, h1, by rw [h2, List.length_set], fun j => ?_⟩
    rw [h3 j]
    by_cases hj : j = i
    · subst hj
      rw [if_neg (by omega), if_pos (by omega), List.getElem?_set_eq_of_lt _ (by omega)]
    · rw [List.getElem?_set_ne (by omega)]
      by_cases hr : i + 1 ≤ j ∧ j < i + 1 + k
      · rw [if_pos hr, if_pos (by omega)]
      · rw [if_neg hr, if_neg (by omega)]

theorem arm_angles_loop_eq (payload : List Nat) (len J : Nat) (hb : IsBytes payload)
    (hlen : len ≤ payload.length) (hfit : 4 + 4 * J ≤ len) (hJ : J < 256) :
    arm_angles_loop payload len J 0 (List.replicate J 0)
      = some (true, (List.range J).map (fun i => le_u32 payload (4 + 4 * i))) := by
  obtain ⟨a2, h1, h2, h3⟩ := arm_angles_loop_spec payload len J hb hlen hfit hJ J 0
    (List.replicate J 0) (by omega) (by rw [List.length_replicate])
  rw [List.length_replicate] at h2
  rw [h1, list_eq_map_range a2 J _ h2 (fun j hj => by rw [h3 j, if_pos ⟨Nat.zero_le _, by omega⟩])]

theorem arm_ids_loop_eq (J : Nat) :
    arm_ids_loop J 0 (List.replicate J 0) = some (List.range J) := by
  obtain ⟨l2, h1, h2, h3⟩ := arm_ids_loop_spec J 0 (List.replicate J 0)
    (by rw [List.length_replicate]; omega)
  rw [List.length_replicate] at h2
  rw [h1, list_eq_map_range l2 J (fun j => j) h2
    (fun j hj => by rw [h3 j, if_pos ⟨Nat.zero_le _, by omega⟩])]
  simp only [List.map_id']

/-- Claim C19: `ARM HOME`, with `J = ARM_JOINT_COUNT`.  With an empty payload
the handler calls `servo_move_home(id, 1000)` for `id = 0, 1, ..., J - 1` in
ascending order, and nothing else, and returns true; with a 4-byte payload it
does the same with `duration` the little-endian word of the payload; for every
other length it returns false and homes no joint. -/
theorem arm_home_contract (J : Nat) (env : Env) (w : World) (payload : List Nat) (len : Nat)
    (_hJ : J < 256) (hb : IsBytes payload) (hlen : len ≤ payload.length) :
    protocol_arm_handle J env w ARM_CMD_HOME payload len
      = if len = 0 then
          some (true, { w with calls := w.calls
            ++ (List.range J).map (fun id => Call.servo_move_home id 1000) })
        else if len = 4 then
          some (true, { w with calls := w.calls
            ++ (List.range J).map (fun id => Call.servo_move_home id (le_u32 payload 0)) })
        else some (false, w) := by
  simp only [protocol_arm_handle, if_true, arm_home_loop_eq, List.range_eq_range']
  by_cases h4 : len = 4
  · subst h4
    rw [if_pos rfl, if_neg (by omega), if_pos rfl,
      proto_read_u32_le_ok _ hb hlen (by omega) (by omega)]
  · rw [if_neg h4, if_neg h4]
    by_cases h0 : len = 0
    · rw [if_neg (by omega), if_pos h0]
    · rw [if_pos (by omega), if_neg h0]

theorem arm_home_contract_witness :
    (3 : Nat) < 256 ∧ IsBytes [0xF4, 0x01, 0, 0] ∧ 4 ≤ [0xF4, 0x01, 0, 0].length
    ∧ protocol_arm_handle 3 (Env.sample 0) World.init ARM_CMD_HOME [0xF4, 0x01, 0, 0] 4
        = some (true, { reg := World.init.reg,
                        calls := [Call.servo_move_home 0 500, Call.servo_move_home 1 500,
                                  Call.servo_move_home 2 500] })
    ∧ protocol_arm_handle 3 (Env.sample 0) World.init ARM_CMD_HOME [0xF4, 0x01, 0, 0] 0
        = some (true, { reg := World.init.reg,
                        calls := [Call.servo_move_home 0 1000, Call.servo_move_home 1 1000,
                                  Call.servo_move_home 2 1000] })
    ∧ protocol_arm_handle 3 (Env.sample 0) World.init ARM_CMD_HOME [0xF4, 0x01, 0, 0] 3
        = some (false, World.init) :=
  ⟨by decide, by decide, by decide,
   (arm_home_contract 3 (Env.sample 0) World.init [0xF4, 0x01, 0, 0] 4 (by decide) (by decide)
      (by decide)).trans rfl,
   (arm_home_contract 3 (Env.sample 0) World.init [0xF4, 0x01, 0, 0] 0 (by decide) (by decide)
      (by decide)).trans rfl,
   (arm_home_contract 3 (Env.sample 0) World.init [0xF4, 0x01, 0, 0] 3 (by decide) (by decide)
      (by decide)).trans rfl⟩

/-- Claim C20: `ARM SET_POSE`, with `J = ARM_JOINT_COUNT`.  The handler returns
true if and only if the payload length is exactly `4 + 4 * J`; in that case it
makes exactly one collaborator call, the multi-servo move with `ids = [0, 1,
..., J - 1]`, `angles[i]` the little-endian float word at offset `4 + 4*i`,
`count = J` and `duration` the little-endian word at offset 0; for every other
length it returns false and makes no call. -/
theorem arm_set_pose_contract (J : Nat) (env : Env) (w : World) (payload : List Nat) (len : Nat)
    (hJ : J < 256) (hb : IsBytes payload) (hlen : len ≤ payload.length) :
    protocol_arm_handle J env w ARM_CMD_SET_POSE payload len
      = if len = 4 + 4 * J then
          some (true, w.call (Call.servo_move_angle_multiple (List.range J)
            ((List.range J).map (fun i => le_u32 payload (4 + 4 * i))) J (le_u32 payload 0)))
        else some (false, w) := by
  have c1 : ¬ (ARM_CMD_SET_POSE = ARM_CMD_HOME) := by decide
  have c2 : ¬ (ARM_CMD_SET_POSE = ARM_CMD_STOP) := by decide
  have e : u16 (4 + J * 4) = 4 + 4 * J := by
    rw [u16_of_lt (by omega)]
    omega
  simp only [protocol_arm_handle, if_neg c1, if_neg c2, if_true, e]
  by_cases hl : len = 4 + 4 * J
  · rw [if_neg (by omega), if_pos hl, proto_read_u32_le_ok _ hb hlen (by omega) (by omega)]
    simp only
    rw [arm_angles_loop_eq payload len J hb hlen (by omega) hJ, arm_ids_loop_eq]
  · rw [if_pos hl, if_neg hl]

theorem arm_set_pose_contract_witness :
    (2 : Nat) < 256 ∧ IsBytes [0xF4, 0x01, 0, 0, 0, 0, 128, 63, 0, 0, 0, 64]
    ∧ 12 ≤ [0xF4, 0x01, 0, 0, 0, 0, 128, 63, 0, 0, 0, 64].length
    ∧ protocol_arm_handle 2 (Env.sample 0) World.init ARM_CMD_SET_POSE
        [0xF4, 0x01, 0, 0, 0, 0, 128, 63, 0, 0, 0, 64] 12
        = some (true, World.init.call
            (Call.servo_move_angle_multiple [0, 1] [0x3F800000, 0x40000000] 2 500))
    ∧ protocol_arm_handle 2 (Env.sample 0) World.init ARM_CMD_SET_POSE
        [0xF4, 0x01, 0, 0, 0, 0, 128, 63, 0, 0, 0, 64] 11
        = some (false, World.init) :=
  ⟨by decide, by decide, by decide,
   (arm_set_pose_contract 2 (Env.sample 0) World.init
      [0xF4, 0x01, 0, 0, 0, 0, 128, 63, 0, 0, 0, 64] 12 (by decide) (by decide)
      (by decide)).trans rfl,
   (arm_set_pose_contract 2 (Env.sample 0) World.init
      [0xF4, 0x01, 0, 0, 0, 0, 128, 63, 0, 0, 0, 64] 11 (by decide) (by decide)
      (by decide)).trans rfl⟩

/-! ## `SERVO GET_STATUS` and the configuration family -/

theorem u8_flag (b : Bool) : u8 (if b then 1 else 0) = if b then 1 else 0 := by
  cases b <;> rfl

theorem byte_of_shift (v : Nat) :
    u8 (v &&& 0xFF) = v % 256 ∧ u8 ((v >>> 8) &&& 0xFF) = v / 256 % 256
    ∧ u8 ((v >>> 16) &&& 0xFF) = v / 65536 % 256
    ∧ u8 ((v >>> 24) &&& 0xFF) = v / 16777216 % 256 := by
  have m : ∀ x : Nat, x &&& 0xFF = x % 256 := fun x => Nat.and_pow_two_sub_one_eq_mod x 8
  refine ⟨?_, ?_, ?_, ?_⟩ <;> simp only [m, Nat.shiftRight_eq_div_pow, u8, Nat.mod_mod]

theorem servo_status_writes (id mv p a t : Nat) :
    (match buf_write (List.replicate 14 0) 0 id with
      | none => none
      | some r0 =>
        match buf_write r0 1 mv with
        | none => none
        | some r1 =>
          match proto_write_u32_le r1 2 p with
          | none => none
          | some r2 =>
            match proto_write_f32_le r2 6 a with
            | none => none
            | some r3 => proto_write_u32_le r3 10 t)
      = some (id :: mv :: (le_bytes32 p ++ le_bytes32 a ++ le_bytes32 t)) := by
  obtain ⟨p0, p1, p2, p3⟩ := byte_of_shift p
  obtain ⟨a0, a1, a2, a3⟩ := byte_of_shift a
  obtain ⟨t0, t1, t2, t3⟩ := byte_of_shift t
  rw [buf_write_ok _ (by rw [List.length_replicate]; omega)]
  simp only
  rw [buf_write_ok _ (by rw [List.length_set, List.length_replicate]; omega)]
  simp only [proto_write_f32_le]
  rw [proto_write_u32_le_ok p (by simp only [List.length_set, List.length_replicate]; omega)]
  simp only
  rw [proto_write_u32_le_ok a (by simp only [List.length_set, List.length_replicate]; omega)]
  simp only
  rw [proto_write_u32_le_ok t (by simp only [List.length_set, List.length_replicate]; omega)]
  rw [p0, p1, p2, p3, a0, a1, a2, a3, t0, t1, t2, t3]
  rfl


/-- Claim C21: `SERVO GET_STATUS`.  For a payload holding at least the declared
`len` bytes: if `len = 1` and `id = payload[0] < MAX_SERVOS`, the handler queries
the four servo getters, fills the 14-byte record (every write inside the
buffer), sends exactly one frame, the `STATE` frame (0xD0) whose bytes are
`0x02` followed by `[id, moving (1 or 0), current_pwm as 4 little-endian bytes,
target_angle as its 4 raw bytes little-endian, remaining_time as 4
little-endian bytes]`, and returns the sender's result; for every other length
or an id `>= MAX_SERVOS` it returns false with no call at all. -/
theorem servo_get_status_contract (M : Nat) (env : Env) (w : World) (payload : List Nat)
    (len : Nat) (hlen : len ≤ payload.length) :
    protocol_servo_handle M env w SERVO_CMD_GET_STATUS payload len
      = if len = 1 ∧ payload.getD 0 0 < M then
          some (env.tf_uart_port_send_frame 0xD0
                  (0x02 :: servo_status_record env (payload.getD 0 0)) 15,
                { w with calls := w.calls ++
                    [Call.servo_is_moving (payload.getD 0 0),
                     Call.servo_get_current_pwm (payload.getD 0 0),
                     Call.servo_get_target_angle (payload.getD 0 0),
                     Call.servo_get_remaining_time (payload.getD 0 0),
                     Call.tf_uart_port_send_frame 0xD0
                       (0x02 :: servo_status_record env (payload.getD 0 0)) 15] })
        else some (false, w) := by
  have c1 : ¬ (SERVO_CMD_GET_STATUS = SERVO_CMD_ENABLE) := by decide
  have c2 : ¬ (SERVO_CMD_GET_STATUS = SERVO_CMD_DISABLE) := by decide
  have c3 : ¬ (SERVO_CMD_GET_STATUS = SERVO_CMD_SET_PWM) := by decide
  have c4 : ¬ (SERVO_CMD_GET_STATUS = SERVO_CMD_SET_POS) := by decide
  unfold protocol_servo_handle
  rw [if_neg c1, if_neg c2, if_neg c3, if_neg c4, if_pos rfl]
  by_cases h1 : len = 1
  · subst h1
    rw [if_neg (by omega), getElem?_eq_some_getD (i := 0) (by omega)]
    simp only [ge_iff_le, true_and]
    by_cases hid : payload.getD 0 0 < M
    · rw [if_neg (by omega), if_pos hid]
      have hw := servo_status_writes (payload.getD 0 0)
        (u8 (if env.servo_is_moving (payload.getD 0 0) = true then 1 else 0))
        (env.servo_get_current_pwm (payload.getD 0 0))
        (env.servo_get_target_angle (payload.getD 0 0))
        (env.servo_get_remaining_time (payload.getD 0 0))
      rw [buf_write_ok _ (by rw [List.length_replicate]; omega)] at hw ⊢
      simp only at hw ⊢
      rw [buf_write_ok _ (by rw [List.length_set, List.length_replicate]; omega)] at hw ⊢
      simp only at hw ⊢
      rcases h2 : proto_write_u32_le _ 2 (env.servo_get_current_pwm (payload.getD 0 0))
        with _ | r2
      · rw [h2] at hw; simp at hw
      rw [h2] at hw
      simp only at hw ⊢
      rcases h3 : proto_write_f32_le r2 6 (env.servo_get_target_angle (payload.getD 0 0))
        with _ | r3
      · rw [h3] at hw; simp at hw
      rw [h3] at hw
      simp only at hw ⊢
      rw [hw, u8_flag]
      simp only
      rw [protocol_send_state_some env _ STATE_CMD_SERVO _ 14 (by omega) (by omega)
        (by simp only [List.length_cons, List.length_append, le_bytes32, List.length_nil]; omega),
        List.take_of_length_le
          (by simp only [List.length_cons, List.length_append, le_bytes32, List.length_nil]; omega)]
      simp only [World.call, List.append_assoc, List.cons_append, List.nil_append,
        servo_status_record]
      rfl
    · rw [if_pos (by omega), if_neg hid]
  · rw [if_pos h1, if_neg (fun h => h1 h.1)]

theorem servo_get_status_contract_witness :
    1 ≤ [2].length
    ∧ protocol_servo_handle 6 (Env.sample 0) World.init SERVO_CMD_GET_STATUS [2] 1
        = some (true,
            { reg := World.init.reg,
              calls := [Call.servo_is_moving 2, Call.servo_get_current_pwm 2,
                Call.servo_get_target_angle 2, Call.servo_get_remaining_time 2,
                Call.tf_uart_port_send_frame 0xD0 [0x02, 2, 0, 0, 0, 0, 0, 0, 0, 0, 0, 0, 0, 0, 0]
                  15] }) :=
  ⟨by decide,
   (servo_get_status_contract 6 (Env.sample 0) World.init [2] 1 (by decide)).trans rfl⟩

/-- Claim C22: the `CONFIG` family.  For every payload, `SET`, `SAVE`, `LOAD`
and `RESET` return true with the world unchanged: no frame sent, no state
changed; `GET` makes exactly one call, the `STATE` frame (0xD0) that consists of
the single byte `[0x05]`, and returns the sender's result; every other
sub-command byte returns false with the world unchanged. -/
theorem config_contract (env : Env) (w : World) (payload : List Nat) (len : Nat) :
    protocol_config_handle env w CONFIG_CMD_SET payload len = some (true, w)
    ∧ protocol_config_handle env w CONFIG_CMD_SAVE payload len = some (true, w)
    ∧ protocol_config_handle env w CONFIG_CMD_LOAD payload len = some (true, w)
    ∧ protocol_config_handle env w CONFIG_CMD_RESET payload len = some (true, w)
    ∧ protocol_config_handle env w CONFIG_CMD_GET payload len
        = some (env.tf_uart_port_send_frame 0xD0 [0x05] 1,
            w.call (Call.tf_uart_port_send_frame 0xD0 [0x05] 1))
    ∧ ∀ cmd, cmd ≠ CONFIG_CMD_GET → cmd ≠ CONFIG_CMD_SET → cmd ≠ CONFIG_CMD_SAVE →
        cmd ≠ CONFIG_CMD_LOAD → cmd ≠ CONFIG_CMD_RESET →
        protocol_config_handle env w cmd payload len = some (false, w) := by
  refine ⟨rfl, rfl, rfl, rfl, rfl, fun cmd h1 h2 h3 h4 h5 => ?_⟩
  simp only [protocol_config_handle, if_neg h1, if_neg h2, if_neg h3, if_neg h4, if_neg h5]

theorem config_contract_witness :
    (0x07 : Nat) ≠ CONFIG_CMD_GET ∧ (0x07 : Nat) ≠ CONFIG_CMD_SET ∧ (0x07 : Nat) ≠ CONFIG_CMD_SAVE
    ∧ (0x07 : Nat) ≠ CONFIG_CMD_LOAD ∧ (0x07 : Nat) ≠ CONFIG_CMD_RESET
    ∧ protocol_config_handle (Env.sample 0) World.init 0x07 [1, 2, 3] 3
        = some (false, World.init)
    ∧ protocol_config_handle (Env.sample 0) World.init CONFIG_CMD_SAVE [1, 2, 3] 3
        = some (true, World.init) :=
  ⟨by decide, by decide, by decide, by decide, by decide,
   (config_contract (Env.sample 0) World.init [1, 2, 3] 3).2.2.2.2.2 0x07 (by decide) (by decide)
     (by decide) (by decide) (by decide),
   (config_contract (Env.sample 0) World.init [1, 2, 3] 3).2.1⟩

/-! ## `CREATE`: what a failure leaves behind, and the reads after validation -/

theorem create_bad_mode_eq (M : Nat) (env : Env) (w : World) (payload : List Nat) (len s : Nat)
    (hb : IsBytes payload) (hlen : len ≤ payload.length) (hv : CreateValid M payload len)
    (hmode : 1 < payload.getD 0 0) (hs : FirstFree w.reg s) :
    protocol_motion_cycle_handle M env w CYCLE_CMD_CREATE payload len
      = some (false, { w with reg := release_cycle_slot (staged_header w.reg payload s) s }) := by
  rw [create_handle_eq M env w payload len hb hlen, if_pos hv,
    cycle_create_body_eq M env w payload len s hb hlen hv hs, if_neg (by omega), if_neg (by omega)]

/-- Claim C23, as the code has it: a `CREATE` that fails on its mode byte.  For
a registry whose lowest free slot is `s` and an otherwise valid payload whose
mode is neither 0 nor 1, the handler returns false and makes no collaborator
call; afterwards the used flags, the index map, the pose value arrays and the
row-pointer tables are what they were before the call, and so are the servo ids
and durations of every slot other than `s`; the freed slot `s` keeps the servo
ids (entries below `servo_count`) and durations (entries below `pose_count`)
that were decoded from the payload before the mode was looked at. -/
theorem bad_mode_create_effect (M : Nat) (env : Env) (w : World) (payload : List Nat)
    (len s : Nat) (hb : IsBytes payload) (hlen : len ≤ payload.length)
    (hv : CreateValid M payload len) (hmode : 1 < payload.getD 0 0) (hs : FirstFree w.reg s) :
    ∃ r, protocol_motion_cycle_handle M env w CYCLE_CMD_CREATE payload len
          = some (false, { reg := r, calls := w.calls })
      ∧ r.s_cycle_used = w.reg.s_cycle_used
      ∧ r.s_cycle_slot_of_index = w.reg.s_cycle_slot_of_index
      ∧ r.s_cycle_pose_pwm = w.reg.s_cycle_pose_pwm
      ∧ r.s_cycle_pose_angle = w.reg.s_cycle_pose_angle
      ∧ r.s_cycle_pose_pwm_ptrs = w.reg.s_cycle_pose_pwm_ptrs
      ∧ r.s_cycle_pose_angle_ptrs = w.reg.s_cycle_pose_angle_ptrs
      ∧ (∀ t i, t ≠ s ∨ payload.getD 1 0 ≤ i →
          r.s_cycle_servo_ids t i = w.reg.s_cycle_servo_ids t i)
      ∧ (∀ t p, t ≠ s ∨ payload.getD 2 0 ≤ p →
          r.s_cycle_durations t p = w.reg.s_cycle_durations t p)
      ∧ (∀ i, i < payload.getD 1 0 →
          r.s_cycle_servo_ids s i = payload.getD (7 + 4 * payload.getD 2 0 + i) 0)
      ∧ (∀ p, p < payload.getD 2 0 → r.s_cycle_durations s p = le_u32 payload (7 + 4 * p)) := by
  have h5 : ¬ s ≥ PROTO_CYCLE_MAX_SLOT := by
    have := hs.1
    show ¬ s ≥ 5
    omega
  refine ⟨release_cycle_slot (staged_header w.reg payload s) s,
    create_bad_mode_eq M env w payload len s hb hlen hv hmode hs,
    release_restores_used w.reg _ s hs rfl, release_keeps_index _ s, ?_, ?_, ?_, ?_, ?_, ?_, ?_, ?_⟩
  · simp only [release_cycle_slot, if_neg h5, staged_header]
  · simp only [release_cycle_slot, if_neg h5, staged_header]
  · simp only [release_cycle_slot, if_neg h5, staged_header]
  · simp only [release_cycle_slot, if_neg h5, staged_header]
  · intro t i ht
    simp only [release_cycle_slot, if_neg h5, staged_header, fill2]
    rw [if_neg (by omega)]
  · intro t p ht
    simp only [release_cycle_slot, if_neg h5, staged_header, fill2]
    rw [if_neg (by omega)]
  · intro i hi
    simp only [release_cycle_slot, if_neg h5, staged_header, fill2]
    rw [if_pos ⟨trivial, Nat.zero_le _, hi⟩]
  · intro p hp
    simp only [release_cycle_slot, if_neg h5, staged_header, fill2]
    rw [if_pos ⟨trivial, Nat.zero_le _, hp⟩]

theorem bad_mode_create_effect_witness :
    IsBytes bad_mode_create ∧ 33 ≤ bad_mode_create.length ∧ CreateValid 6 bad_mode_create 33
    ∧ 1 < bad_mode_create.getD 0 0 ∧ FirstFree World.init.reg 0
    ∧ ∃ r, protocol_motion_cycle_handle 6 (Env.sample 3) World.init CYCLE_CMD_CREATE
              bad_mode_create 33 = some (false, { reg := r, calls := World.init.calls })
        ∧ r.s_cycle_used = World.init.reg.s_cycle_used
        ∧ r.s_cycle_slot_of_index = World.init.reg.s_cycle_slot_of_index
        ∧ r.s_cycle_servo_ids 0 0 = 4 ∧ r.s_cycle_servo_ids 0 1 = 5
        ∧ r.s_cycle_durations 0 0 = 100 ∧ r.s_cycle_durations 0 1 = 200 := by
  obtain ⟨r, h1, h2, h3, _, _, _, _, _, _, h10, h11⟩ :=
    bad_mode_create_effect 6 (Env.sample 3) World.init bad_mode_create 33 0 (by decide)
      (by decide) (by decide) (by decide) firstFree_init
  exact ⟨by decide, by decide, by decide, by decide, firstFree_init, r, h1, h2, h3,
    (h10 0 (by decide)).trans (by decide), (h10 1 (by decide)).trans (by decide),
    (h11 0 (by decide)).trans (by decide), (h11 1 (by decide)).trans (by decide)⟩

/-- Claim C23 fails as stated: from the initial registry, where every servo id
and duration is 0, the `CREATE` with mode byte 2 returns false and frees slot 0
again, yet `s_cycle_servo_ids[0][0]` is then 4 and `s_cycle_durations[0][0]` is
100: the registry is not identical to the one before the call. -/
theorem bad_mode_create_changes_registry :
    World.init.reg.s_cycle_servo_ids 0 0 = 0 ∧ World.init.reg.s_cycle_durations 0 0 = 0
    ∧ (protocol_motion_cycle_handle 6 (Env.sample 3) World.init CYCLE_CMD_CREATE bad_mode_create
          33).map
        (fun r => (r.1, r.2.reg.s_cycle_used 0, r.2.reg.s_cycle_servo_ids 0 0,
                    r.2.reg.s_cycle_durations 0 0))
      = some (false, 0, 4, 100) := by
  decide

theorem create_returns (M : Nat) (env : Env) (w : World) (payload : List Nat) (len : Nat)
    (hb : IsBytes payload) (hlen : len ≤ payload.length) :
    ∃ res, protocol_motion_cycle_handle M env w CYCLE_CMD_CREATE payload len = some res := by
  rcases create_outcomes M env w payload len hb hlen with h | ⟨s, _, _, h | h | h⟩
  · exact ⟨_, h⟩
  · rw [h.2]; exact finish_isSome _ _ _ _ _
  · rw [h.2]; exact finish_isSome _ _ _ _ _
  · exact ⟨_, h.2⟩

/-- Claim C24: in `CREATE`, after the header and length checks have passed,
every read is in range.  For a payload of bytes that meets `CreateValid` and a
registry whose lowest free slot is `s`: each duration read (offset `7 + 4*p`,
`p < pose_count`), each servo id read (index `7 + 4*pose_count + i`,
`i < servo_count`) and each value read (offset `values_off + 4*(p*servo_count +
i)`) lies below `len` and succeeds, with the offsets exactly as the code
computes them in 16 and 32 bits; every slot-array write index is in range
(`s < 5`, `p < 8`, `i < MAX_SERVOS`); the id loop and the three decoding loops
run to completion, never through a release-on-read-failure branch; a false
result after slot marking therefore means an invalid mode or a rejected engine
index; and on the buffer cut down to exactly `len` bytes the handler still
returns, so no index at or above `len` is touched. -/
theorem create_reads_in_range (M : Nat) (env : Env) (w : World) (payload : List Nat)
    (len s : Nat) (hb : IsBytes payload) (hlen : len ≤ payload.length)
    (hv : CreateValid M payload len) (hs : FirstFree w.reg s) :
    (∀ p, p < payload.getD 2 0 →
        7 + 4 * p + 4 ≤ len
        ∧ proto_read_u32_le (some payload) len (u16 (u32 (7 + u32 (p * 4)))) 0
            = some (true, le_u32 payload (7 + 4 * p)))
    ∧ (∀ i, i < payload.getD 1 0 →
        7 + 4 * payload.getD 2 0 + i < len
        ∧ payload[u16 (u32 (7 + u32 (payload.getD 2 0 * 4))) + i]?
            = some (payload.getD (7 + 4 * payload.getD 2 0 + i) 0))
    ∧ (∀ p i, p < payload.getD 2 0 → i < payload.getD 1 0 →
        7 + 4 * payload.getD 2 0 + payload.getD 1 0 + 4 * (p * payload.getD 1 0 + i) + 4 ≤ len
        ∧ proto_read_u32_le (some payload) len
            (u16 (u32 (7 + 4 * payload.getD 2 0 + payload.getD 1 0
              + u32 ((p * payload.getD 1 0 + i) * 4)))) 0
            = some (true, create_value payload p i)
        ∧ proto_read_f32_le (some payload) len
            (u16 (u32 (7 + 4 * payload.getD 2 0 + payload.getD 1 0
              + u32 ((p * payload.getD 1 0 + i) * 4)))) 0
            = some (true, create_value payload p i))
    ∧ (s < 5 ∧ (∀ p, p < payload.getD 2 0 → p < 8) ∧ ∀ i, i < payload.getD 1 0 → i < M)
    ∧ (∀ r, ∃ r2, cycle_ids_loop M payload (7 + 4 * payload.getD 2 0) s (payload.getD 1 0) 0 r
                    = some r2)
    ∧ (∀ r, ∃ r2, cycle_durations_loop payload len 7 s (payload.getD 2 0) 0 r = some (true, r2))
    ∧ (∀ r, ∃ r2, cycle_pwm_loop M payload len (7 + 4 * payload.getD 2 0 + payload.getD 1 0)
                    (payload.getD 1 0) s (payload.getD 2 0) 0 r = some (true, r2))
    ∧ (∀ r, ∃ r2, cycle_angle_loop M payload len (7 + 4 * payload.getD 2 0 + payload.getD 1 0)
                    (payload.getD 1 0) s (payload.getD 2 0) 0 r = some (true, r2))
    ∧ (∀ w2, protocol_motion_cycle_handle M env w CYCLE_CMD_CREATE payload len = some (false, w2) →
        1 < payload.getD 0 0
        ∨ env.motion_cycle_create
            (cycle_create_args (staged w.reg payload s) s (create_layout payload)) < 0
        ∨ 5 ≤ env.motion_cycle_create
            (cycle_create_args (staged w.reg payload s) s (create_layout payload)))
    ∧ ∃ res, protocol_motion_cycle_handle M env w CYCLE_CMD_CREATE (payload.take len) len
              = some res := by
  obtain ⟨h7, hS1, hSM, hP1, hP8, htot⟩ := hv
  have hS := getD_of_bytes hb 1
  have hPS : payload.getD 2 0 * payload.getD 1 0 ≤ 8 * 255 := Nat.mul_le_mul hP8 (by omega)
  have hs5 := hs.1
  refine ⟨fun p hp => ?_, fun i hi => ?_, fun p i hp hi => ?_,
    ⟨hs5, fun p hp => by omega, fun i hi => by omega⟩, fun r => ?_, fun r => ?_, fun r => ?_,
    fun r => ?_, fun w2 hw => ?_, ?_⟩
  · have e : u16 (u32 (7 + u32 (p * 4))) = 7 + 4 * p := by
      rw [u32_of_lt (x := p * 4) (by omega), u32_of_lt (by omega), u16_of_lt (by omega)]
      omega
    rw [e]
    exact ⟨by omega, proto_read_u32_le_ok 0 hb hlen (by omega) (by omega)⟩
  · have e : u16 (u32 (7 + u32 (payload.getD 2 0 * 4))) = 7 + 4 * payload.getD 2 0 := by
      rw [u32_of_lt (x := payload.getD 2 0 * 4) (by omega), u32_of_lt (by omega),
        u16_of_lt (by omega)]
      omega
    rw [e]
    exact ⟨by omega, getElem?_eq_some_getD (by omega)⟩
  · have hq : p * payload.getD 1 0 + i < payload.getD 2 0 * payload.getD 1 0 :=
      mul_add_lt_mul hp hi
    have e : u16 (u32 (7 + 4 * payload.getD 2 0 + payload.getD 1 0
          + u32 ((p * payload.getD 1 0 + i) * 4)))
        = 7 + 4 * payload.getD 2 0 + payload.getD 1 0 + 4 * (p * payload.getD 1 0 + i) := by
      rw [u32_of_lt (x := (p * payload.getD 1 0 + i) * 4) (by omega), u32_of_lt (by omega),
        u16_of_lt (by omega)]
      omega
    rw [e]
    exact ⟨by omega, proto_read_u32_le_ok 0 hb hlen (by omega) (by omega),
      proto_read_f32_le_ok 0 hb hlen (by omega) (by omega)⟩
  · exact ⟨_, cycle_ids_loop_eq M payload _ s hs5 _ 0 r (by omega) (by omega)⟩
  · exact ⟨_, cycle_durations_loop_eq payload len s (payload.getD 2 0) hb hlen hs5 hP8 (by omega)
      _ 0 r (by omega)⟩
  · exact ⟨_, cycle_pwm_loop_eq M payload len _ (payload.getD 1 0) s (payload.getD 2 0) hb hlen
      hs5 hP8 hSM hS (by omega) (by omega) _ 0 r (by omega)⟩
  · exact ⟨_, cycle_angle_loop_eq M payload len _ (payload.getD 1 0) s (payload.getD 2 0) hb hlen
      hs5 hP8 hSM hS (by omega) (by omega) _ 0 r (by omega)⟩
  · by_cases hm : 1 < payload.getD 0 0
    · exact Or.inl hm
    · refine Or.inr ?_
      rw [create_good_eq M env w payload len s hb hlen ⟨h7, hS1, hSM, hP1, hP8, htot⟩ (by omega) hs,
        cycle_create_finish_eq] at hw
      split at hw
      · rename_i hk
        rcases hk with hk | hk
        · exact Or.inl hk
        · exact Or.inr hk
      · simp at hw
  · exact create_returns M env w (payload.take len) len (isBytes_take hb len)
      (by rw [List.length_take]; omega)

theorem create_reads_in_range_witness :
    IsBytes sample_create ∧ 33 ≤ sample_create.length ∧ CreateValid 6 sample_create 33
    ∧ FirstFree World.init.reg 0
    ∧ proto_read_u32_le (some sample_create) 33 (u16 (u32 (7 + u32 (1 * 4)))) 0 = some (true, 200)
    ∧ sample_create[u16 (u32 (7 + u32 (sample_create.getD 2 0 * 4))) + 1]? = some 5
    ∧ proto_read_f32_le (some sample_create) 33
        (u16 (u32 (7 + 4 * sample_create.getD 2 0 + sample_create.getD 1 0
          + u32 ((1 * sample_create.getD 1 0 + 1) * 4)))) 0 = some (true, 0x40800000)
    ∧ ∃ res, protocol_motion_cycle_handle 6 (Env.sample 3) World.init CYCLE_CMD_CREATE
              (sample_create.take 33) 33 = some res := by
  obtain ⟨h1, h2, h3, _, _, _, _, _, _, h10⟩ :=
    create_reads_in_range 6 (Env.sample 3) World.init sample_create 33 0 (by decide) (by decide)
      (by decide) firstFree_init
  exact ⟨by decide, by decide, by decide, firstFree_init,
    (h1 1 (by decide)).2.trans (by decide), (h2 1 (by decide)).2.trans (by decide),
    (h3 1 1 (by decide) (by decide)).2.2.trans (by decide), h10⟩

/-! ## Length of the emitted buffers -/

theorem sys_ping_sends (env : Env) (w : World) (payload : List Nat) (len : Nat)
    (hp : len ≤ payload.length) (h256 : len ≤ 256) :
    protocol_sys_handle env w SYS_CMD_PING payload len
      = some (env.tf_uart_port_send_frame PROTO_TYPE_SYS (SYS_CMD_PONG :: payload.take len) (1 + len),
          w.call (Call.tf_uart_port_send_frame PROTO_TYPE_SYS (SYS_CMD_PONG :: payload.take len)
            (1 + len))) := by
  unfold protocol_sys_handle
  have hbig : ¬ len > PROTO_MAX_PAYLOAD := by
    show ¬ len > 256
    omega
  rw [if_pos rfl, if_neg hbig,
    buf_write_ok _ (by rw [List.length_replicate]; show 0 < 1 + 256; omega)]
  simp only
  obtain ⟨buf, h1, h2, h3⟩ :=
    copy_loop_frame payload SYS_CMD_PONG len (1 + PROTO_MAX_PAYLOAD) hp
      (by show 1 + len ≤ 1 + 256; omega)
  rw [h1]
  simp only [send_frame]
  rw [u16_of_lt (by omega), if_pos h2, h3]

/-- Claim C25, as the code has it: the length of every buffer that
`protocol_send_state` and the `SYS PING` echo hand to the transport, command
byte included, is at most 257, that is `1 + PROTO_MAX_PAYLOAD`: the cap of 256
is applied to the payload that follows the command byte.  A call with
`len > 256` returns false without reaching the transport; otherwise exactly one
frame is emitted, of length at most `1 + len` (exactly `1 + len` for the echo). -/
theorem emitted_length_bound (env : Env) (w : World) (cmd : Nat) (payload : Option (List Nat))
    (len : Nat) (pl : List Nat) (plen : Nat)
    (hp : ∀ q, payload = some q → len ≤ q.length) (hpl : plen ≤ pl.length) :
    ((256 < len ∧ protocol_send_state env w cmd payload len = some (false, w))
      ∨ ∃ buf, protocol_send_state env w cmd payload len
                = some (env.tf_uart_port_send_frame 0xD0 buf buf.length,
                    w.call (Call.tf_uart_port_send_frame 0xD0 buf buf.length))
          ∧ buf.length ≤ 1 + len ∧ buf.length ≤ 257)
    ∧ ((256 < plen ∧ protocol_sys_handle env w SYS_CMD_PING pl plen = some (false, w))
      ∨ ∃ buf, protocol_sys_handle env w SYS_CMD_PING pl plen
                = some (env.tf_uart_port_send_frame 0x01 buf buf.length,
                    w.call (Call.tf_uart_port_send_frame 0x01 buf buf.length))
          ∧ buf.length = 1 + plen ∧ buf.length ≤ 257) := by
  refine ⟨?_, ?_⟩
  · by_cases hbig : len > 256
    · refine Or.inl ⟨hbig, ?_⟩
      simp only [protocol_send_state, PROTO_MAX_PAYLOAD, if_pos hbig]
    · refine Or.inr ?_
      rcases payload with _ | q
      · refine ⟨[cmd], ?_, by simp only [List.length_singleton]; omega,
          by simp only [List.length_singleton]; omega⟩
        simp only [protocol_send_state, PROTO_MAX_PAYLOAD, if_neg hbig]
        rfl
      · have hq := hp q rfl
        by_cases h0 : len = 0
        · subst h0
          refine ⟨[cmd], ?_, by simp only [List.length_singleton]; omega,
            by simp only [List.length_singleton]; omega⟩
          simp only [protocol_send_state, PROTO_MAX_PAYLOAD, if_neg hbig, if_true]
          rfl
        · have hl : (cmd :: q.take len).length = 1 + len := by
            rw [List.length_cons, List.length_take, Nat.min_eq_left hq]
            omega
          refine ⟨cmd :: q.take len, ?_, by omega, by omega⟩
          rw [protocol_send_state_some env w cmd q len (by omega) (by omega) hq, hl]
          rfl
  · by_cases hbig : plen > 256
    · refine Or.inl ⟨hbig, ?_⟩
      have hbig2 : plen > PROTO_MAX_PAYLOAD := hbig
      unfold protocol_sys_handle
      rw [if_pos rfl, if_pos hbig2]
    · have hl : (SYS_CMD_PONG :: pl.take plen).length = 1 + plen := by
        rw [List.length_cons, List.length_take, Nat.min_eq_left hpl]
        omega
      refine Or.inr ⟨SYS_CMD_PONG :: pl.take plen, ?_, hl, by omega⟩
      rw [sys_ping_sends env w pl plen hpl (by omega), hl]
      rfl

theorem emitted_length_bound_witness :
    (∀ q, some (List.replicate 256 0) = some q → 256 ≤ q.length)
    ∧ 256 ≤ (List.replicate 256 0).length
    ∧ (∃ buf, protocol_send_state (Env.sample 0) World.init STATE_CMD_SERVO
                (some (List.replicate 256 0)) 256
              = some ((Env.sample 0).tf_uart_port_send_frame 0xD0 buf buf.length,
                  World.init.call (Call.tf_uart_port_send_frame 0xD0 buf buf.length))
          ∧ buf.length ≤ 257)
    ∧ ∃ buf, protocol_sys_handle (Env.sample 0) World.init SYS_CMD_PING (List.replicate 256 0) 256
              = some ((Env.sample 0).tf_uart_port_send_frame 0x01 buf buf.length,
                  World.init.call (Call.tf_uart_port_send_frame 0x01 buf buf.length))
          ∧ buf.length = 257 := by
  have hq : ∀ q, some (List.replicate 256 0) = some q → 256 ≤ q.length := by
    intro q hq
    cases hq
    rw [List.length_replicate]
  have hl : 256 ≤ (List.replicate 256 0).length := by rw [List.length_replicate]
  obtain ⟨h1, h2⟩ := emitted_length_bound (Env.sample 0) World.init STATE_CMD_SERVO
    (some (List.replicate 256 0)) 256 (List.replicate 256 0) 256 hq hl
  refine ⟨hq, hl, ?_, ?_⟩
  · rcases h1 with ⟨hbig, _⟩ | ⟨buf, hb1, _, hb3⟩
    · omega
    · exact ⟨buf, hb1, hb3⟩
  · rcases h2 with ⟨hbig, _⟩ | ⟨buf, hb1, hb2, _⟩
    · omega
    · exact ⟨buf, hb1, hb2⟩

/-- Claim C25 fails as stated: with a payload of 256 bytes, which both length
checks let through, `protocol_send_state` and the `SYS PING` echo each hand the
transport a buffer of 257 bytes, one more than `PROTO_MAX_PAYLOAD`. -/
theorem emitted_buffer_exceeds_cap :
    protocol_send_state (Env.sample 0) World.init STATE_CMD_SERVO (some (List.replicate 256 0)) 256
        = some (true, World.init.call
            (Call.tf_uart_port_send_frame 0xD0 (0x02 :: List.replicate 256 0) 257))
    ∧ protocol_sys_handle (Env.sample 0) World.init SYS_CMD_PING (List.replicate 256 0) 256
        = some (true, World.init.call
            (Call.tf_uart_port_send_frame 0x01 (0x02 :: List.replicate 256 0) 257))
    ∧ (0x02 :: List.replicate 256 0).length = 257 ∧ PROTO_MAX_PAYLOAD < 257 := by
  have hl : (List.replicate 256 0).length = 256 := List.length_replicate 256 0
  have ht : (List.replicate 256 0).take 256 = List.replicate 256 0 :=
    List.take_of_length_le (by rw [hl])
  refine ⟨?_, ?_, ?_, by decide⟩
  · rw [protocol_send_state_some (Env.sample 0) World.init STATE_CMD_SERVO (List.replicate 256 0)
      256 (by omega) (by omega) (by rw [hl]), ht]
    rfl
  · rw [sys_ping_sends (Env.sample 0) World.init (List.replicate 256 0) 256 (by rw [hl])
      (by omega), ht]
    rfl
  · rw [List.length_cons, hl]

end Protocol
